import Mathlib

/-!
# CosaGPS: the NMEA sentence receiver of `NMEAGPS.cpp`

A shallow embedding of the byte-at-a-time NMEA-0183 parser.  Bytes (`char`) are
natural numbers.  The header `NMEAGPS.h`, which declares the parser members and the fix
record, is not part of the source file: the parser counters (`crc`, `fieldIndex`,
`chrCount`, `decimal`) are taken as bytes, natural numbers reduced `% 256` at every
write, and the numeric members of the fix record as mathematical integers.  A call of
`Event::push( Event::RECEIVE_COMPLETED_TYPE, this, nmeaMessage )` is recorded as
one element of the list of notifications a function returns.  The value
`putchar` returns (its argument `c`) and the optional `NEOGPS_STATS` counters
are not part of the model.
-/

namespace CosaGPS

/-- Modelled from the spec: the receiver states of `NMEAGPS.h` (idle, receiving data,
first and second checksum digit), with the names `NMEAGPS.cpp` uses. -/
inductive rxState_t where
  | NMEA_IDLE
  | NMEA_RECEIVING_DATA
  | NMEA_RECEIVING_CRC1
  | NMEA_RECEIVING_CRC2
deriving DecidableEq, Repr

/-- Modelled from the spec: the sentence types of `NMEAGPS.h`; `poll_msgs` gives the
order GGA, GLL, GSA, GSV, RMC, VTG, ZDA. -/
inductive nmea_msg_t where
  | NMEA_UNKNOWN
  | NMEA_GGA
  | NMEA_GLL
  | NMEA_GSA
  | NMEA_GSV
  | NMEA_RMC
  | NMEA_VTG
  | NMEA_ZDA
deriving DecidableEq, Repr

/-- Modelled from the spec: the fix status values of `NMEAGPS.h` (no fix, standard, DGPS,
estimated), with the names `parseFix` writes. -/
inductive gps_fix_status_t where
  | GPS_FIX_NONE
  | GPS_FIX_STD
  | GPS_FIX_DGPS
  | GPS_FIX_EST
deriving DecidableEq, Repr

/-- Modelled from the spec: the type `whole_frac` of `NMEAGPS.h` (a whole part and a
separately scaled fractional part); `init()` clears both.  The members are kept as
mathematical integers, so the embedding is exact below the accumulators' overflow. -/
structure whole_frac where
  whole : Int
  frac : Int
deriving DecidableEq, Repr

/-- The effect of `val.init()`. -/
def whole_frac.init : whole_frac := ⟨0, 0⟩

/-- Modelled from the spec: the date and time members of `m_fix.dateTime` that
`NMEAGPS.cpp` writes (their declaration is not in the source file); mathematical
integers. -/
structure time_t where
  date : Int
  month : Int
  year : Int
  hours : Int
  minutes : Int
  seconds : Int
deriving DecidableEq, Repr

/-- Modelled from the spec: the validity flags `m_fix.valid` (location, dateTime,
speed, heading, altitude); `valid.as_byte = 0` clears all of them. -/
structure valid_t where
  location : Bool
  dateTime : Bool
  speed : Bool
  heading : Bool
  altitude : Bool
deriving DecidableEq, Repr

/-- The effect of `m_fix.valid.as_byte = 0`. -/
def valid_t.clear : valid_t := ⟨false, false, false, false, false⟩

/-- Modelled from the spec: the fix record `gps_fix_t` of `NMEAGPS.h`, with the members
that `NMEAGPS.cpp` reads or writes. -/
structure gps_fix_t where
  status : gps_fix_status_t
  satellites : Int
  lat : Int
  lon : Int
  alt : whole_frac
  spd : whole_frac
  hdg : whole_frac
  hdop : Int
  dateTime : time_t
  dateTime_cs : Int
  valid : valid_t
deriving DecidableEq, Repr

/-- Modelled from the spec: the members of the parser object declared in `NMEAGPS.h`
(receiver state, running checksum byte, sentence type, field index, character offset,
fractional-digit counter, negative-sign flag) and the fix record it fills. -/
structure NMEAGPS where
  rxState : rxState_t
  crc : Nat
  nmeaMessage : nmea_msg_t
  fieldIndex : Nat
  chrCount : Nat
  decimal : Nat
  negative : Bool
  m_fix : gps_fix_t
deriving DecidableEq, Repr

/-- Modelled from the spec: the members of `NMEAGPS.h` that `NMEAGPS.cpp` calls but does
not define.  `parseDDMM chrCount decimal negative val chr` is the latitude/longitude
decoder (it returns the new `val`, `decimal` and `negative`); `is_valid` is
`dateTime.is_valid()`; `status_satellites status satellites v` is the effect on the
members `status` and `satellites` of the write `m_fix.status_satellites = v`. -/
structure NMEAGPS_h where
  parseDDMM : Nat → Nat → Bool → Int → Nat → Int × Nat × Bool
  is_valid : time_t → Bool
  status_satellites : gps_fix_status_t → Int → Int → gps_fix_status_t × Int

/-- The carriage return `CR`, 13 in the source. -/
def CR : Nat := 13

/-- The line feed `LF`, 10 in the source. -/
def LF : Nat := 10

open rxState_t nmea_msg_t gps_fix_status_t

/-- `parseHEX(char a)`: one character read as a hexadecimal digit; the result is a
`uint8_t`. -/
def parseHEX (a : Nat) : Nat :=
  let a := (a ||| 0x20) % 256
  if 'a'.toNat ≤ a ∧ a ≤ 'f'.toNat then (a - 'a'.toNat + 10) % 256
  else (a + 256 - '0'.toNat) % 256

namespace NMEAGPS

/-- `NMEAGPS::rxBegin`. -/
def rxBegin (g : NMEAGPS) : NMEAGPS :=
  { g with
    crc := 0
    nmeaMessage := NMEA_UNKNOWN
    rxState := NMEA_RECEIVING_DATA
    fieldIndex := 0
    chrCount := 0 }

/-- `NMEAGPS::rxEnd`: the new parser and the notifications pushed. -/
def rxEnd (H : NMEAGPS_h) (g : NMEAGPS) (ok : Bool) : NMEAGPS × List nmea_msg_t :=
  let g := { g with rxState := NMEA_IDLE }
  let r : NMEAGPS × Bool :=
    if ok then
      match g.nmeaMessage with
      | NMEA_RMC =>
        if g.m_fix.status = GPS_FIX_NONE then (g, false)
        else
          ({ g with m_fix := { g.m_fix with valid := { g.m_fix.valid with
              location := true, dateTime := true, speed := true, heading := true } } }, ok)
      | NMEA_GGA =>
        if g.m_fix.status = GPS_FIX_NONE then (g, false)
        else
          ({ g with m_fix := { g.m_fix with valid := { g.m_fix.valid with
              altitude := true, location := true, dateTime := true } } }, ok)
      | NMEA_GLL =>
        if g.m_fix.status = GPS_FIX_NONE then (g, false)
        else
          ({ g with m_fix := { g.m_fix with valid := { g.m_fix.valid with
              location := true, dateTime := true } } }, ok)
      | NMEA_VTG =>
        if g.m_fix.status = GPS_FIX_NONE then (g, false)
        else
          ({ g with m_fix := { g.m_fix with valid := { g.m_fix.valid with
              speed := true, heading := true } } }, ok)
      | NMEA_ZDA =>
        if !(H.is_valid g.m_fix.dateTime) then (g, false)
        else
          ({ g with m_fix := { g.m_fix with valid := { g.m_fix.valid with
              dateTime := true } } }, ok)
      | _ => (g, ok)
    else (g, ok)
  if r.2 then (r.1, [r.1.nmeaMessage]) else (r.1, [])

/-- `NMEAGPS::parseCommand`: the nested state machine of the sentence name. -/
def parseCommand (g : NMEAGPS) (c : Nat) : NMEAGPS × Bool :=
  let g : NMEAGPS :=
    if c = ','.toNat ∧ g.chrCount = 5 ∧ g.nmeaMessage ≠ NMEA_UNKNOWN then
      { g with m_fix := { g.m_fix with valid := valid_t.clear } }
    else if g.chrCount = 0 then
      if c ≠ 'G'.toNat then { g with rxState := NMEA_IDLE } else g
    else if g.chrCount = 1 then
      if c ≠ 'P'.toNat then { g with rxState := NMEA_IDLE } else g
    else if g.chrCount = 2 then
      if c = 'G'.toNat then g
      else if c = 'Z'.toNat then { g with nmeaMessage := NMEA_ZDA }
      else if c = 'R'.toNat then { g with nmeaMessage := NMEA_RMC }
      else if c = 'V'.toNat then { g with nmeaMessage := NMEA_VTG }
      else { g with rxState := NMEA_IDLE }
    else if g.chrCount = 3 then
      if (c = 'D'.toNat ∧ g.nmeaMessage = NMEA_ZDA) ∨
         (c = 'M'.toNat ∧ g.nmeaMessage = NMEA_RMC) ∨
         (c = 'T'.toNat ∧ g.nmeaMessage = NMEA_VTG) then g
      else if g.nmeaMessage = NMEA_UNKNOWN then
        if c = 'G'.toNat then { g with nmeaMessage := NMEA_GGA }
        else if c = 'S'.toNat then { g with nmeaMessage := NMEA_GSA }
        else if c = 'L'.toNat then { g with nmeaMessage := NMEA_GLL }
        else { g with rxState := NMEA_IDLE }
      else { g with rxState := NMEA_IDLE }
    else if g.chrCount = 4 then
      if (c = 'A'.toNat ∧
           (g.nmeaMessage = NMEA_GGA ∨ g.nmeaMessage = NMEA_GSA ∨ g.nmeaMessage = NMEA_ZDA)) ∨
         (c = 'C'.toNat ∧ g.nmeaMessage = NMEA_RMC) ∨
         (c = 'L'.toNat ∧ g.nmeaMessage = NMEA_GLL) ∨
         (c = 'G'.toNat ∧ g.nmeaMessage = NMEA_VTG) then g
      else if c = 'V'.toNat ∧ g.nmeaMessage = NMEA_GSA then { g with nmeaMessage := NMEA_GSV }
      else { g with rxState := NMEA_IDLE }
    else if g.chrCount = 5 then
      { g with rxState := NMEA_IDLE }
    else g
  (g, decide (g.rxState = NMEA_RECEIVING_DATA))

/-- `NMEAGPS::parseTimeField`: `HHMMSS.cc`, one character at offset `chrCount`. -/
def parseTimeField (g : NMEAGPS) (chr : Nat) : NMEAGPS × Bool :=
  let d : Int := (chr : Int) - ('0'.toNat : Int)
  let t := g.m_fix.dateTime
  if g.chrCount = 0 then
    ({ g with m_fix := { g.m_fix with dateTime := { t with hours := d * 10 } } }, true)
  else if g.chrCount = 1 then
    ({ g with m_fix := { g.m_fix with dateTime := { t with hours := t.hours + d } } }, true)
  else if g.chrCount = 2 then
    ({ g with m_fix := { g.m_fix with dateTime := { t with minutes := d * 10 } } }, true)
  else if g.chrCount = 3 then
    ({ g with m_fix := { g.m_fix with dateTime := { t with minutes := t.minutes + d } } }, true)
  else if g.chrCount = 4 then
    ({ g with m_fix := { g.m_fix with dateTime := { t with seconds := d * 10 } } }, true)
  else if g.chrCount = 5 then
    ({ g with m_fix := { g.m_fix with dateTime := { t with seconds := t.seconds + d } } }, true)
  else if g.chrCount = 6 then
    (g, decide (chr = '.'.toNat))
  else if g.chrCount = 7 then
    ({ g with m_fix := { g.m_fix with dateTime_cs := d * 10 } }, true)
  else if g.chrCount = 8 then
    ({ g with m_fix := { g.m_fix with dateTime_cs := g.m_fix.dateTime_cs + d } }, true)
  else if g.chrCount = 9 then
    (g, decide (chr = ','.toNat))
  else (g, true)

/-- `NMEAGPS::parseFix`: the fix-status letter. -/
def parseFix (g : NMEAGPS) (chr : Nat) : NMEAGPS × Bool :=
  if g.chrCount = 0 then
    if chr = 'A'.toNat then
      ({ g with m_fix := { g.m_fix with status := GPS_FIX_STD } }, true)
    else if chr = 'N'.toNat ∨ chr = 'V'.toNat then
      ({ g with m_fix := { g.m_fix with status := GPS_FIX_NONE } }, true)
    else if chr = 'D'.toNat then
      ({ g with m_fix := { g.m_fix with status := GPS_FIX_DGPS } }, true)
    else if chr = 'E'.toNat then
      ({ g with m_fix := { g.m_fix with status := GPS_FIX_EST } }, true)
    else (g, false)
  else if g.chrCount = 1 ∧ chr ≠ ','.toNat then (g, false)
  else (g, true)

/-- The loop `while (decimal++ <= max_decimal) val.frac *= 10;` of `parseFloat`, with
the number of tests still allowed; it returns the new `decimal` and `frac`. -/
def scaleUp (max_decimal : Nat) : Nat → Nat → Int → Nat × Int
  | 0, decimal, frac => (decimal, frac)
  | fuel + 1, decimal, frac =>
    if decimal ≤ max_decimal then scaleUp max_decimal fuel ((decimal + 1) % 256) (frac * 10)
    else ((decimal + 1) % 256, frac)

/-- The second part of `NMEAGPS::parseFloat`, after the initialisation at offset 0: the
chain `if (chr == ',') ... else if (chr == '.') ... else if (!decimal) ... else if
(decimal++ <= max_decimal) ...`.  The loop is given `max_decimal + 2` tests, which is all
it can make for `max_decimal < 255`. -/
def parseFloatChar (g : NMEAGPS) (val : whole_frac) (chr : Nat) (max_decimal : Nat) :
    NMEAGPS × whole_frac :=
  if chr = ','.toNat then
    let r := scaleUp max_decimal (max_decimal + 2) (if g.decimal = 0 then 1 else g.decimal) val.frac
    ({ g with decimal := r.1 },
      if g.negative then { whole := -val.whole, frac := -r.2 } else { val with frac := r.2 })
  else if chr = '.'.toNat then
    ({ g with decimal := 1 }, val)
  else if g.decimal = 0 then
    (g, { val with whole := val.whole * 10 + ((chr : Int) - ('0'.toNat : Int)) })
  else
    ({ g with decimal := (g.decimal + 1) % 256 },
      if g.decimal ≤ max_decimal then
        { val with frac := val.frac * 10 + ((chr : Int) - ('0'.toNat : Int)) }
      else val)

/-- `NMEAGPS::parseFloat`: the signed fixed-point decoder; `val` is passed by reference,
so the new `val` is returned with the new parser.  At offset 0 the accumulator and the
transient flags are initialised, and a leading `-` is consumed at once. -/
def parseFloat (g : NMEAGPS) (val : whole_frac) (chr : Nat) (max_decimal : Nat) :
    NMEAGPS × whole_frac :=
  if g.chrCount = 0 then
    if chr = '-'.toNat then ({ g with decimal := 0, negative := true }, whole_frac.init)
    else parseFloatChar { g with decimal := 0, negative := false } whole_frac.init chr max_decimal
  else parseFloatChar g val chr max_decimal

/-- The label `parseLat`: `parseDDMM( m_fix.lat, chr )`. -/
def parseLat (H : NMEAGPS_h) (g : NMEAGPS) (chr : Nat) : NMEAGPS × Bool :=
  let r := H.parseDDMM g.chrCount g.decimal g.negative g.m_fix.lat chr
  ({ g with decimal := r.2.1, negative := r.2.2, m_fix := { g.m_fix with lat := r.1 } }, true)

/-- The label `parseNS`. -/
def parseNS (g : NMEAGPS) (chr : Nat) : NMEAGPS × Bool :=
  if chr = 'S'.toNat then ({ g with m_fix := { g.m_fix with lat := -g.m_fix.lat } }, true)
  else (g, true)

/-- The label `parseLon`: `parseDDMM( m_fix.lon, chr )`. -/
def parseLon (H : NMEAGPS_h) (g : NMEAGPS) (chr : Nat) : NMEAGPS × Bool :=
  let r := H.parseDDMM g.chrCount g.decimal g.negative g.m_fix.lon chr
  ({ g with decimal := r.2.1, negative := r.2.2, m_fix := { g.m_fix with lon := r.1 } }, true)

/-- The label `parseEW`. -/
def parseEW (g : NMEAGPS) (chr : Nat) : NMEAGPS × Bool :=
  if chr = 'W'.toNat then ({ g with m_fix := { g.m_fix with lon := -g.m_fix.lon } }, true)
  else (g, true)

/-- The label `parseSpeed`: `parseFloat( m_fix.spd, chr, 3 )`. -/
def parseSpeed (g : NMEAGPS) (chr : Nat) : NMEAGPS × Bool :=
  let r := parseFloat g g.m_fix.spd chr 3
  ({ r.1 with m_fix := { r.1.m_fix with spd := r.2 } }, true)

/-- The label `parseHeading`: `parseFloat( m_fix.hdg, chr, 2 )`. -/
def parseHeading (g : NMEAGPS) (chr : Nat) : NMEAGPS × Bool :=
  let r := parseFloat g g.m_fix.hdg chr 2
  ({ r.1 with m_fix := { r.1.m_fix with hdg := r.2 } }, true)

/-- `NMEAGPS::parseField`: dispatch on the sentence type and the field index. -/
def parseField (H : NMEAGPS_h) (g : NMEAGPS) (chr : Nat) : NMEAGPS × Bool :=
  let d : Int := (chr : Int) - ('0'.toNat : Int)
  if g.fieldIndex = 0 then parseCommand g chr
  else
    match g.nmeaMessage with
    | NMEA_GGA =>
      if g.fieldIndex = 1 then parseTimeField g chr
      else if g.fieldIndex = 2 then parseLat H g chr
      else if g.fieldIndex = 3 then parseNS g chr
      else if g.fieldIndex = 4 then parseLon H g chr
      else if g.fieldIndex = 5 then parseEW g chr
      else if g.fieldIndex = 6 then
        if chr ≠ ','.toNat then
          let r := H.status_satellites g.m_fix.status g.m_fix.satellites d
          ({ g with m_fix := { g.m_fix with status := r.1, satellites := r.2 } }, true)
        else (g, true)
      else if g.fieldIndex = 7 then
        if chr ≠ ','.toNat then
          ({ g with m_fix := { g.m_fix with satellites := g.m_fix.satellites * 10 + d } }, true)
        else (g, true)
      else if g.fieldIndex = 8 then
        let hdop : Int := if g.chrCount = 0 then 0 else g.m_fix.hdop
        if chr ≠ '.'.toNat ∧ chr ≠ ','.toNat then
          ({ g with m_fix := { g.m_fix with hdop := hdop * 10 + d } }, true)
        else ({ g with m_fix := { g.m_fix with hdop := hdop } }, true)
      else if g.fieldIndex = 9 then
        let r := parseFloat g g.m_fix.alt chr 2
        ({ r.1 with m_fix := { r.1.m_fix with alt := r.2 } }, true)
      else (g, true)
    | NMEA_GLL =>
      if g.fieldIndex = 1 then parseLat H g chr
      else if g.fieldIndex = 2 then parseNS g chr
      else if g.fieldIndex = 3 then parseLon H g chr
      else if g.fieldIndex = 4 then parseEW g chr
      else if g.fieldIndex = 5 then parseTimeField g chr
      else if g.fieldIndex = 6 ∨ g.fieldIndex = 7 then parseFix g chr
      else (g, true)
    | NMEA_GSA => (g, true)
    | NMEA_GSV => (g, true)
    | NMEA_RMC =>
      if g.fieldIndex = 1 then parseTimeField g chr
      else if g.fieldIndex = 2 then parseFix g chr
      else if g.fieldIndex = 3 then parseLat H g chr
      else if g.fieldIndex = 4 then parseNS g chr
      else if g.fieldIndex = 5 then parseLon H g chr
      else if g.fieldIndex = 6 then parseEW g chr
      else if g.fieldIndex = 7 then parseSpeed g chr
      else if g.fieldIndex = 8 then parseHeading g chr
      else if g.fieldIndex = 9 then
        let t := g.m_fix.dateTime
        if g.chrCount = 0 then
          ({ g with m_fix := { g.m_fix with dateTime := { t with date := d * 10 } } }, true)
        else if g.chrCount = 1 then
          ({ g with m_fix := { g.m_fix with dateTime := { t with date := t.date + d } } }, true)
        else if g.chrCount = 2 then
          ({ g with m_fix := { g.m_fix with dateTime := { t with month := d * 10 } } }, true)
        else if g.chrCount = 3 then
          ({ g with m_fix := { g.m_fix with dateTime := { t with month := t.month + d } } }, true)
        else if g.chrCount = 4 then
          ({ g with m_fix := { g.m_fix with dateTime := { t with year := d * 10 } } }, true)
        else if g.chrCount = 5 then
          ({ g with m_fix := { g.m_fix with dateTime := { t with year := t.year + d } } }, true)
        else if g.chrCount = 6 then (g, decide (chr = ','.toNat))
        else (g, false)
      else if g.fieldIndex = 10 then parseFix g chr
      else (g, true)
    | NMEA_VTG =>
      if g.fieldIndex = 1 then parseHeading g chr
      else if g.fieldIndex = 2 then
        (g, decide (chr = ','.toNat ∨ (chr = 'T'.toNat ∧ g.chrCount = 0)))
      else if g.fieldIndex = 3 ∨ g.fieldIndex = 4 then (g, true)
      else if g.fieldIndex = 5 then parseSpeed g chr
      else if g.fieldIndex = 6 then
        (g, decide (chr = ','.toNat ∨ (chr = 'N'.toNat ∧ g.chrCount = 0)))
      else if g.fieldIndex = 7 ∨ g.fieldIndex = 8 then (g, true)
      else if g.fieldIndex = 9 then parseFix g chr
      else (g, true)
    | NMEA_ZDA =>
      if g.fieldIndex = 1 then
        let t := g.m_fix.dateTime
        parseTimeField
          { g with m_fix := { g.m_fix with dateTime := { t with date := 0, month := 0, year := 0 } } }
          chr
      else if g.fieldIndex = 2 then
        if chr ≠ ','.toNat then
          let t := g.m_fix.dateTime
          ({ g with m_fix := { g.m_fix with dateTime := { t with date := t.date * 10 + d } } }, true)
        else (g, true)
      else if g.fieldIndex = 3 then
        if chr ≠ ','.toNat then
          let t := g.m_fix.dateTime
          ({ g with m_fix := { g.m_fix with dateTime := { t with month := t.month * 10 + d } } },
            true)
        else (g, true)
      else if g.fieldIndex = 4 then
        if 2 ≤ g.chrCount ∧ g.chrCount ≤ 3 then
          let t := g.m_fix.dateTime
          ({ g with m_fix := { g.m_fix with dateTime := { t with year := t.year * 10 + d } } }, true)
        else (g, true)
      else (g, true)
    | NMEA_UNKNOWN => (g, false)

/-- `NMEAGPS::putchar`: one received byte; the new parser and the notifications pushed
while the byte was processed.  The value of `parseField` is dropped, as in the source. -/
def putchar (H : NMEAGPS_h) (g : NMEAGPS) (c : Nat) : NMEAGPS × List nmea_msg_t :=
  if c = '$'.toNat then (rxBegin g, [])
  else
    match g.rxState with
    | NMEA_IDLE => (g, [])
    | NMEA_RECEIVING_DATA =>
      if c = '*'.toNat then ({ g with rxState := NMEA_RECEIVING_CRC1 }, [])
      else if c = CR ∨ c = LF then rxEnd H g true
      else if c < ' '.toNat ∨ '~'.toNat < c then rxEnd H g false
      else
        let g := { g with crc := (g.crc ^^^ c) % 256 }
        let g := (parseField H g c).1
        if c = ','.toNat then
          ({ g with fieldIndex := (g.fieldIndex + 1) % 256, chrCount := 0 }, [])
        else
          ({ g with chrCount := (g.chrCount + 1) % 256 }, [])
    | NMEA_RECEIVING_CRC1 =>
      if g.crc >>> 4 ≠ parseHEX c then rxEnd H g false
      else ({ g with rxState := NMEA_RECEIVING_CRC2 }, [])
    | NMEA_RECEIVING_CRC2 =>
      if g.crc &&& 0x0F ≠ parseHEX c then rxEnd H g false
      else rxEnd H g true

/-- Feeding a byte sequence through `putchar`, one byte at a time, collecting the
notifications in order. -/
def feed (H : NMEAGPS_h) (g : NMEAGPS) : List Nat → NMEAGPS × List nmea_msg_t
  | [] => (g, [])
  | c :: cs =>
    let r := putchar H g c
    let r2 := feed H r.1 cs
    (r2.1, r.2 ++ r2.2)

end NMEAGPS

/-- The bytes of a text. -/
def bytes (s : String) : List Nat := s.toList.map Char.toNat

/-- `toHexDigit`: the upper-case hexadecimal digit of the low nibble of a `uint8_t`. -/
def toHexDigit (val : Nat) : Nat :=
  let val := (val % 256) &&& 0x0F
  if val ≥ 10 then (val - 10) + 'A'.toNat else val + '0'.toNat

/-- A hexadecimal digit character, `0`-`9` or `A`-`F`. -/
def isHexDigit (c : Nat) : Prop :=
  ('0'.toNat ≤ c ∧ c ≤ '9'.toNat) ∨ ('A'.toNat ≤ c ∧ c ≤ 'F'.toNat)

open NMEAGPS

/-- A printable ASCII character (space..`~`) other than `$` and `*`: a byte that
`putchar` treats as sentence data. -/
def isData (c : Nat) : Prop :=
  ' '.toNat ≤ c ∧ c ≤ '~'.toNat ∧ c ≠ '$'.toNat ∧ c ≠ '*'.toNat

/-- A sample instance of the missing declarations: a latitude/longitude decoder that
restarts at offset 0 and accumulates decimal digits, a date check on day and month,
and a `status_satellites` member that is separate from `status` and `satellites`. -/
def sampleDecls : NMEAGPS_h where
  parseDDMM := fun chrCount _ _ val chr =>
    ((if chrCount = 0 then 0 else val) * 10 + ((chr : Int) - 48), 0, false)
  is_valid := fun t => decide (1 ≤ t.date ∧ t.date ≤ 31 ∧ 1 ≤ t.month ∧ t.month ≤ 12)
  status_satellites := fun status satellites _ => (status, satellites)

/-- A fix record with every member zero and no fix. -/
def emptyFix : gps_fix_t where
  status := GPS_FIX_NONE
  satellites := 0
  lat := 0
  lon := 0
  alt := ⟨0, 0⟩
  spd := ⟨0, 0⟩
  hdg := ⟨0, 0⟩
  hdop := 0
  dateTime := ⟨0, 0, 0, 0, 0, 0⟩
  dateTime_cs := 0
  valid := ⟨false, false, false, false, false⟩

/-- A parser at rest on an empty fix record. -/
def idleParser : NMEAGPS where
  rxState := NMEA_IDLE
  crc := 0
  nmeaMessage := NMEA_UNKNOWN
  fieldIndex := 0
  chrCount := 0
  decimal := 0
  negative := false
  m_fix := emptyFix

instance isHexDigit.decidable (c : Nat) : Decidable (isHexDigit c) := by
  unfold isHexDigit
  infer_instance

instance isData.decidable (c : Nat) : Decidable (isData c) := by
  unfold isData
  infer_instance

/-- A parser in the middle of an RMC sentence whose running checksum is `0x6A`. -/
def rmcParser : NMEAGPS where
  rxState := NMEA_RECEIVING_DATA
  crc := 0x6A
  nmeaMessage := NMEA_RMC
  fieldIndex := 11
  chrCount := 1
  decimal := 0
  negative := false
  m_fix := { emptyFix with status := GPS_FIX_STD }

/-- The validity flags that a completed sentence of a given type sets, as the
specification lists them: RMC location, dateTime, speed, heading; GGA altitude, location,
dateTime; GLL location, dateTime; VTG speed, heading; ZDA dateTime. -/
def flagsSetBy : nmea_msg_t → valid_t → valid_t
  | NMEA_RMC, v => { v with location := true, dateTime := true, speed := true, heading := true }
  | NMEA_GGA, v => { v with altitude := true, location := true, dateTime := true }
  | NMEA_GLL, v => { v with location := true, dateTime := true }
  | NMEA_VTG, v => { v with speed := true, heading := true }
  | NMEA_ZDA, v => { v with dateTime := true }
  | _, v => v

/-- The members of the parser that only the framing logic and the sentence name may
change: receiver state, checksum, sentence type, field index, offset, validity flags. -/
def sameFrame (a b : NMEAGPS) : Prop :=
  a.rxState = b.rxState ∧ a.crc = b.crc ∧ a.nmeaMessage = b.nmeaMessage ∧
  a.fieldIndex = b.fieldIndex ∧ a.chrCount = b.chrCount ∧ a.m_fix.valid = b.m_fix.valid

/-- What `parseFloat` leaves alone: the frame and the whole fix record. -/
def floatFrame (a b : NMEAGPS) : Prop := sameFrame a b ∧ a.m_fix = b.m_fix

/-- The fields that `parseField` sends to `parseFix`. -/
def fixField (m : nmea_msg_t) (i : Nat) : Prop :=
  (m = NMEA_GLL ∧ (i = 6 ∨ i = 7)) ∨ (m = NMEA_RMC ∧ (i = 2 ∨ i = 10)) ∨ (m = NMEA_VTG ∧ i = 9)

instance fixField.decidable (m : nmea_msg_t) (i : Nat) : Decidable (fixField m i) := by
  unfold fixField
  infer_instance

/-- Fix status and calendar date are the same in two parsers. -/
@[reducible]
def sameStatusDate (a b : NMEAGPS) : Prop :=
  a.m_fix.status = b.m_fix.status ∧ a.m_fix.dateTime.date = b.m_fix.dateTime.date ∧
  a.m_fix.dateTime.month = b.m_fix.dateTime.month ∧ a.m_fix.dateTime.year = b.m_fix.dateTime.year

/-- The status that `parseFix` stores for the first character of a fix-status field. -/
def fixStatus (c : Nat) (s : gps_fix_status_t) : gps_fix_status_t :=
  if c = 'A'.toNat then GPS_FIX_STD
  else if c = 'N'.toNat ∨ c = 'V'.toNat then GPS_FIX_NONE
  else if c = 'D'.toNat then GPS_FIX_DGPS
  else if c = 'E'.toNat then GPS_FIX_EST
  else s

/-- The calendar date is the same in two parsers. -/
@[reducible]
def sameDate (a b : NMEAGPS) : Prop :=
  a.m_fix.dateTime.date = b.m_fix.dateTime.date ∧
  a.m_fix.dateTime.month = b.m_fix.dateTime.month ∧ a.m_fix.dateTime.year = b.m_fix.dateTime.year

/-- The fix status is the same in two parsers. -/
@[reducible]
def sameStatus (a b : NMEAGPS) : Prop := a.m_fix.status = b.m_fix.status

/-- The receiver is taking data of a sentence of type `m`, at offset `j` of field `i`. -/
def atField (g : NMEAGPS) (m : nmea_msg_t) (i j : Nat) : Prop :=
  g.rxState = NMEA_RECEIVING_DATA ∧ g.nmeaMessage = m ∧ g.fieldIndex = i ∧ g.chrCount = j

/-- What `parseCommand` leaves alone: checksum, field index, offset, the transient
decode flags and every member of the fix record but the validity flags; the receiver
state is kept or idled. -/
def cmdFrame (a b : NMEAGPS) : Prop :=
  a.crc = b.crc ∧ a.fieldIndex = b.fieldIndex ∧ a.chrCount = b.chrCount ∧
  a.decimal = b.decimal ∧ a.negative = b.negative ∧
  (a.rxState = b.rxState ∨ a.rxState = NMEA_IDLE) ∧
  { a.m_fix with valid := b.m_fix.valid } = b.m_fix

/-- The XOR of all bytes of a sentence body, from a starting value. -/
def xorFrom (crc : Nat) (b : List Nat) : Nat := b.foldl (fun k c => k ^^^ c) crc

/-- The checksum of a sentence body: the XOR of all its bytes. -/
def checksum (b : List Nat) : Nat := xorFrom 0 b

/-- A parser that is taking the sentence name, at offset `k` with provisional type `m`. -/
def nameProbe (k : Nat) (m : nmea_msg_t) : NMEAGPS :=
  { idleParser with rxState := NMEA_RECEIVING_DATA, chrCount := k, nmeaMessage := m }

/-- The sentence names that `parseCommand` recognises, with their types. -/
def sentenceNames : List (List Nat × nmea_msg_t) :=
  [(bytes "GPRMC", NMEA_RMC), (bytes "GPGGA", NMEA_GGA), (bytes "GPGLL", NMEA_GLL),
   (bytes "GPVTG", NMEA_VTG), (bytes "GPZDA", NMEA_ZDA), (bytes "GPGSA", NMEA_GSA),
   (bytes "GPGSV", NMEA_GSV)]

/-- The beginnings of a name after which the receiver is still taking data, with the
offset and the provisional type reached. -/
def livePrefixes : List (List Nat × Nat × nmea_msg_t) :=
  [(bytes "", 0, NMEA_UNKNOWN), (bytes "G", 1, NMEA_UNKNOWN), (bytes "GP", 2, NMEA_UNKNOWN),
   (bytes "GPG", 3, NMEA_UNKNOWN), (bytes "GPZ", 3, NMEA_ZDA), (bytes "GPR", 3, NMEA_RMC),
   (bytes "GPV", 3, NMEA_VTG), (bytes "GPGG", 4, NMEA_GGA), (bytes "GPGS", 4, NMEA_GSA),
   (bytes "GPGL", 4, NMEA_GLL), (bytes "GPZD", 4, NMEA_ZDA), (bytes "GPRM", 4, NMEA_RMC),
   (bytes "GPVT", 4, NMEA_VTG), (bytes "GPRMC", 5, NMEA_RMC), (bytes "GPGGA", 5, NMEA_GGA),
   (bytes "GPGLL", 5, NMEA_GLL), (bytes "GPVTG", 5, NMEA_VTG), (bytes "GPZDA", 5, NMEA_ZDA),
   (bytes "GPGSA", 5, NMEA_GSA), (bytes "GPGSV", 5, NMEA_GSV)]

/-- Offset and provisional type after the characters of a name, as `parseCommand` on the
probe gives them, while the receiver is still taking data. -/
def nameRun (k : Nat) (m : nmea_msg_t) : List Nat → Option (Nat × nmea_msg_t)
  | [] => some (k, m)
  | c :: cs =>
    if (parseCommand (nameProbe k m) c).1.rxState = NMEA_RECEIVING_DATA then
      nameRun ((k + 1) % 256) (parseCommand (nameProbe k m) c).1.nmeaMessage cs
    else none

/-- The type with which the receiver is still taking data after a name and its comma. -/
def nameResult (n : List Nat) : Option nmea_msg_t :=
  match nameRun 0 NMEA_UNKNOWN n with
  | some (k, m) =>
    if (parseCommand (nameProbe k m) 44).1.rxState = NMEA_RECEIVING_DATA then
      some (parseCommand (nameProbe k m) 44).1.nmeaMessage
    else none
  | none => none

/-- Receiver state and sentence type agree. -/
def sameName (a b : NMEAGPS) : Prop := a.rxState = b.rxState ∧ a.nmeaMessage = b.nmeaMessage

/-- The fix status after the characters `f` of field `i` of a sentence of type `m`, read
from offset 0: only the first character of a fix-status field counts. -/
def fieldStatus (m : nmea_msg_t) (i : Nat) (f : List Nat) (s : gps_fix_status_t) :
    gps_fix_status_t :=
  if fixField m i then
    match f with
    | [] => s
    | c :: _ => fixStatus c s
  else s

/-- The fix status after the fields `fs`, which follow field `i`. -/
def fieldsStatus (m : nmea_msg_t) : Nat → List (List Nat) → gps_fix_status_t → gps_fix_status_t
  | _, [], s => s
  | i, f :: fs, s => fieldsStatus m (i + 1) fs (fieldStatus m (i + 1) f s)

/-- The bytes of a list of fields, each one after its comma. -/
def commaFields : List (List Nat) → List Nat
  | [] => []
  | f :: fs => ','.toNat :: (f ++ commaFields fs)

/-- A field: fewer than 256 data characters, none of them a comma. -/
def isField (f : List Nat) : Prop := f.length < 256 ∧ ∀ c ∈ f, isData c ∧ c ≠ ','.toNat

instance isField.decidable (f : List Nat) : Decidable (isField f) := by
  unfold isField
  infer_instance

/-- The body of the example RMC sentence of the specification, between `$` and `*`. -/
def rmcBody : List Nat :=
  bytes "GPRMC,123519,A,4807.038,N,01131.000,E,022.4,084.4,230394,003.1,W"

/-- The example sentence of the specification, with its line end. -/
def rmcSentence : List Nat :=
  bytes "$GPRMC,123519,A,4807.038,N,01131.000,E,022.4,084.4,230394,003.1,W*6A\r\n"

/-- The bytes of the sentence `$<body>*HH` CR LF. -/
def sentence (body : List Nat) (h l : Nat) : List Nat :=
  '$'.toNat :: (body ++ ['*'.toNat, h, l, CR, LF])

/-- The body with bit `k` of its byte at index `i` flipped. -/
def flipBit (body : List Nat) (i k : Nat) : List Nat :=
  body.set i (body.getD i 0 ^^^ 2 ^ k)

/-- The body of the usual example GGA sentence; its checksum is `0x47`. -/
def ggaBody : List Nat :=
  bytes "GPGGA,123519,4807.038,N,01131.000,E,1,08,0.9,545.4,M,46.9,M,,"

/-- The sentences with a fix-status field: name, type and index of that field. -/
def statusFields : List (List Nat × nmea_msg_t × Nat) :=
  [(bytes "GPRMC", NMEA_RMC, 2), (bytes "GPGLL", NMEA_GLL, 6), (bytes "GPVTG", NMEA_VTG, 9)]

/-- The field starts with one of the letters `A`, `D`, `E` that `parseFix` reads as a fix. -/
def startsWithFix (f : List Nat) : Prop :=
  f.head? = some 'A'.toNat ∨ f.head? = some 'D'.toNat ∨ f.head? = some 'E'.toNat

instance startsWithFix.decidable (f : List Nat) : Decidable (startsWithFix f) := by
  unfold startsWithFix
  infer_instance

/-- The fields of an RMC sentence without a fix whose field 10 is the letter `A`. -/
def rmcFieldsVA : List (List Nat) :=
  [bytes "123519", bytes "V", bytes "4807.038", bytes "N", bytes "01131.000", bytes "E",
   bytes "022.4", bytes "084.4", bytes "230394", bytes "A"]

/-- The fields of a GLL sentence without a fix whose field 7 is the letter `A`. -/
def gllFieldsVA : List (List Nat) :=
  [bytes "4916.45", bytes "N", bytes "12311.12", bytes "W", bytes "225444", bytes "V",
   bytes "A"]

/-- The fields of the example RMC sentence, with the status `V`. -/
def rmcFieldsV : List (List Nat) :=
  [bytes "123519", bytes "V", bytes "4807.038", bytes "N", bytes "01131.000", bytes "E",
   bytes "022.4", bytes "084.4", bytes "230394", bytes "003.1", bytes "W"]

/-- The fields whose decoder (`parseFloat` or `parseDDMM`) uses the transient flags
`decimal` and `negative`. -/
def usesTransient (m : nmea_msg_t) (i : Nat) : Prop :=
  (m = NMEA_GGA ∧ (i = 2 ∨ i = 4 ∨ i = 9)) ∨ (m = NMEA_GLL ∧ (i = 1 ∨ i = 3)) ∨
  (m = NMEA_RMC ∧ (i = 3 ∨ i = 5 ∨ i = 7 ∨ i = 8)) ∨ (m = NMEA_VTG ∧ (i = 1 ∨ i = 5))

instance usesTransient.decidable (m : nmea_msg_t) (i : Nat) : Decidable (usesTransient m i) := by
  unfold usesTransient
  infer_instance

/-- The parser with other transient flags. -/
def shift (d : Nat) (n : Bool) (g : NMEAGPS) : NMEAGPS := { g with decimal := d, negative := n }

/-- The second result is the first one with other transient flags. -/
def shifted (d : Nat) (n : Bool) (x y : NMEAGPS × Bool) : Prop := y.1 = shift d n x.1

/-- The second parser is the first one with other transient flags. -/
def shiftedG (d : Nat) (n : Bool) (x y : NMEAGPS) : Prop := y = shift d n x

/-- A parser interrupted in the middle of a sentence, on an empty fix record. -/
def strayParser : NMEAGPS where
  rxState := NMEA_RECEIVING_CRC1
  crc := 0x55
  nmeaMessage := NMEA_GGA
  fieldIndex := 9
  chrCount := 3
  decimal := 2
  negative := true
  m_fix := emptyFix

/-! ## The sentence transmitter

A text argument (`const char *msg`) is `none` for the null pointer and otherwise the
bytes that follow the pointer; the end of the list stands for the terminating NUL, and a
zero byte inside the list terminates the text as well.  `msg++` is the tail of the list.
The bytes handed to `m_device->putchar` are collected in a list. -/

/-- `NMEAGPS::send_trailer`: the bytes written for the checksum byte `crc`. -/
def NMEAGPS.send_trailer (crc : Nat) : List Nat :=
  ['*'.toNat, toHexDigit (crc >>> 4), toHexDigit crc, CR, LF]

/-- A text in the sense of C: bytes, none of them NUL. -/
def isText (t : List Nat) : Prop := ∀ c ∈ t, 0 < c ∧ c < 256

instance isText.decidable (t : List Nat) : Decidable (isText t) := by
  unfold isText
  infer_instance

/-- A decimal digit character. -/
def isDigit (c : Nat) : Prop := '0'.toNat ≤ c ∧ c ≤ '9'.toNat

instance isDigit.decidable (c : Nat) : Decidable (isDigit c) := by
  unfold isDigit
  infer_instance

/-- The value of a string of decimal digits, continued from `v`. -/
def digitsFrom (v : Int) (ds : List Nat) : Int :=
  ds.foldl (fun v c => v * 10 + ((c : Int) - ('0'.toNat : Int))) v

/-- The value of a string of decimal digits. -/
def digitsValue (ds : List Nat) : Int := digitsFrom 0 ds

/-- Feeding characters to `parseFloat`, the first at offset `i`, the next at `i + 1`, and
so on: the character offset is set before each call, the accumulator `val` and the
transient flags are carried from call to call.  The offset is the byte `chrCount`, which
`putchar` advances by `chrCount++`: after offset 255 comes offset 0. -/
def floatRun (max_decimal : Nat) (g : NMEAGPS) (val : whole_frac) : Nat → List Nat →
    NMEAGPS × whole_frac
  | _, [] => (g, val)
  | i, c :: cs =>
    let r := parseFloat { g with chrCount := i } val c max_decimal
    floatRun max_decimal r.1 r.2 ((i + 1) % 256) cs

/-- The characters of an optional sign. -/
def signChars (neg : Bool) : List Nat := if neg then ['-'.toNat] else []

/-- A whole and a fractional part, both negated under a sign. -/
def signedValue (neg : Bool) (whole frac : Int) : whole_frac :=
  if neg then ⟨-whole, -frac⟩ else ⟨whole, frac⟩

/-- Feeding characters to `parseTimeField`, the first at offset `i`, the next at `i + 1`,
and so on; the values returned are collected in order. -/
def timeRun (g : NMEAGPS) : Nat → List Nat → NMEAGPS × List Bool
  | _, [] => (g, [])
  | i, c :: cs =>
    let r := parseTimeField { g with chrCount := i } c
    let r2 := timeRun r.1 (i + 1) cs
    (r2.1, r.2 :: r2.2)

/-- The validity flags of a fix record. -/
def validFlags : List (valid_t → Bool) :=
  [valid_t.location, valid_t.dateTime, valid_t.speed, valid_t.heading, valid_t.altitude]

/-- The text is the beginning of one of the names that `parseCommand` recognises. -/
def beginsName (n : List Nat) : Prop := ∃ p ∈ sentenceNames, n <+: p.1

instance beginsName.decidable (n : List Nat) : Decidable (beginsName n) := by
  unfold beginsName
  infer_instance

/-- A parser that has decoded the six digits of the date field of an RMC sentence. -/
def rmcDateParser : NMEAGPS where
  rxState := NMEA_RECEIVING_DATA
  crc := 0x2B
  nmeaMessage := NMEA_RMC
  fieldIndex := 9
  chrCount := 6
  decimal := 0
  negative := false
  m_fix := { emptyFix with status := GPS_FIX_STD, dateTime := ⟨23, 3, 94, 12, 35, 19⟩ }

/-- The validity flags of the first parser are those of the second, or all clear. -/
def validKept (a g : NMEAGPS) : Prop :=
  a.m_fix.valid = g.m_fix.valid ∨ a.m_fix.valid = valid_t.clear

/-- The character of a decimal digit. -/
def digitChar (d : Nat) : Nat := '0'.toNat + d

/-! ## The latitude/longitude decoder and the transient flags -/

/-- The fields that `parseField` sends to `parseDDMM`. -/
def ddmmField (m : nmea_msg_t) (i : Nat) : Prop :=
  (m = NMEA_GGA ∧ (i = 2 ∨ i = 4)) ∨ (m = NMEA_GLL ∧ (i = 1 ∨ i = 3)) ∨
  (m = NMEA_RMC ∧ (i = 3 ∨ i = 5))

/-- Modelled from the spec: the latitude/longitude decoder `parseDDMM` of the missing
`NMEAGPS.h`.  The spec gives it a "whole-number accumulation identical to generic
fixed-point", which "at offset 0, initializes the accumulator"; it calls the
fractional-digit counter and the negative-sign flag "scoped to the field being decoded";
and it lets the "trailing hemisphere letter field" give the sign, so the decoder leaves
the negative-sign flag as it is.  Hence at offset 0 the accumulator and the counter start
from 0.  What one character does to the accumulator and to the counter ("degrees × 10^k,
via DDMM.mmmm decoding") the spec leaves open: `decode chrCount val decimal chr` is a
parameter. -/
def NMEAGPS.parseDDMM (decode : Nat → Int → Nat → Nat → Int × Nat) (chrCount decimal : Nat)
    (negative : Bool) (val : Int) (chr : Nat) : Int × Nat × Bool :=
  let r := if chrCount = 0 then decode chrCount 0 0 chr else decode chrCount val decimal chr
  (r.1, r.2, negative)

/-- The missing declarations with the latitude/longitude decoder of the spec; the date
check and the `status_satellites` member stay parameters. -/
def specDecls (decode : Nat → Int → Nat → Nat → Int × Nat) (is_valid : time_t → Bool)
    (status_satellites : gps_fix_status_t → Int → Int → gps_fix_status_t × Int) :
    NMEAGPS_h where
  parseDDMM := NMEAGPS.parseDDMM decode
  is_valid := is_valid
  status_satellites := status_satellites

/-- A sample of the open part of `parseDDMM`: digits are accumulated in the way of
`parseFloat`, the decimal point starts the count of fractional digits. -/
def sampleDecode (_chrCount : Nat) (val : Int) (decimal chr : Nat) : Int × Nat :=
  if chr = ','.toNat then (val, decimal)
  else if chr = '.'.toNat then (val, 1)
  else
    (val * 10 + ((chr : Int) - ('0'.toNat : Int)),
      if decimal = 0 then 0 else (decimal + 1) % 256)

/-- The transient flags `d`, `n` may stand in for those of the parser `a`, under a
relation `R` that the latitude/longitude decoder keeps: the parser is in the sentence
name, or in a field that does not use the flags, or the flags are those of `a`, or the
parser is in a latitude/longitude field and the flags are related by `R`. -/
def mayDiffer (R : Nat × Bool → Nat × Bool → Prop) (a : NMEAGPS) (d : Nat) (n : Bool) : Prop :=
  a.fieldIndex = 0 ∨ ¬ usesTransient a.nmeaMessage a.fieldIndex ∨
  (d = a.decimal ∧ n = a.negative) ∨
  (ddmmField a.nmeaMessage a.fieldIndex ∧ R (a.decimal, a.negative) (d, n))

/-- Two parsers that differ at most in the transient flags, and only where the difference
cannot show: at the start of a field, or as `mayDiffer` allows. -/
def agreeUpTo (R : Nat × Bool → Nat × Bool → Prop) (a b : NMEAGPS) : Prop :=
  ∃ d n, b = shift d n a ∧ (a.chrCount = 0 ∨ mayDiffer R a d n)

/-! ## Feeding bytes -/

theorem feed_nil (H : NMEAGPS_h) (g : NMEAGPS) : feed H g [] = (g, []) := rfl

theorem feed_cons (H : NMEAGPS_h) (g : NMEAGPS) (c : Nat) (cs : List Nat) :
    feed H g (c :: cs) =
      ((feed H (putchar H g c).1 cs).1, (putchar H g c).2 ++ (feed H (putchar H g c).1 cs).2) :=
  rfl

theorem feed_append (H : NMEAGPS_h) (g : NMEAGPS) (a b : List Nat) :
    feed H g (a ++ b) =
      ((feed H (feed H g a).1 b).1, (feed H g a).2 ++ (feed H (feed H g a).1 b).2) := by
  induction a generalizing g with
  | nil => simp [feed_nil]
  | cons c cs ih => simp [feed_cons, ih, List.append_assoc]

/-! ## Checksum digits -/

theorem parseHEX_eq_iff (h n : Nat) (hh : isHexDigit h) (hn : n < 16) :
    parseHEX h = n ↔ h = toHexDigit n := by
  unfold isHexDigit at hh
  simp only [Char.reduceToNat] at hh
  rcases hh with ⟨h1, h2⟩ | ⟨h1, h2⟩ <;> interval_cases h <;> interval_cases n <;> decide

theorem isHexDigit_ne_dollar (h : Nat) (hh : isHexDigit h) : h ≠ 36 := by
  unfold isHexDigit at hh
  simp only [Char.reduceToNat] at hh
  omega

/-! ## Completion -/

theorem rxEnd_false (H : NMEAGPS_h) (g : NMEAGPS) :
    rxEnd H g false = ({ g with rxState := NMEA_IDLE }, []) := by
  simp [rxEnd]

theorem rxEnd_rxState (H : NMEAGPS_h) (g : NMEAGPS) (ok : Bool) :
    (rxEnd H g ok).1.rxState = NMEA_IDLE := by
  unfold rxEnd
  cases ok <;> simp
  cases g.nmeaMessage <;> simp <;> split_ifs <;> simp

theorem rxEnd_crc (H : NMEAGPS_h) (g : NMEAGPS) (ok : Bool) :
    (rxEnd H g ok).1.crc = g.crc := by
  unfold rxEnd
  cases ok <;> simp
  cases g.nmeaMessage <;> simp <;> split_ifs <;> simp

theorem rxEnd_set_rxState (H : NMEAGPS_h) (g : NMEAGPS) (ok : Bool) (s : rxState_t) :
    rxEnd H { g with rxState := s } ok = rxEnd H g ok := by
  simp [rxEnd]

/-! ## The idle receiver -/

theorem putchar_idle (H : NMEAGPS_h) (g : NMEAGPS) (c : Nat) (hs : g.rxState = NMEA_IDLE)
    (hc : c ≠ 36) : putchar H g c = (g, []) := by
  simp [putchar, hs, hc]

theorem feed_idle (H : NMEAGPS_h) (g : NMEAGPS) (w : List Nat) (hs : g.rxState = NMEA_IDLE)
    (hw : ∀ c ∈ w, c ≠ 36) : feed H g w = (g, []) := by
  induction w with
  | nil => rfl
  | cons c cs ih =>
    have h1 := putchar_idle H g c hs (hw c (List.mem_cons_self _ _))
    have h2 := ih (fun x hx => hw x (List.mem_cons_of_mem _ hx))
    simp [feed_cons, h1, h2]

/-! ## What the field decoders leave alone -/

theorem sameFrame_refl (g : NMEAGPS) : sameFrame g g := ⟨rfl, rfl, rfl, rfl, rfl, rfl⟩

theorem frame_ite (c : Prop) [Decidable c] (a b : NMEAGPS × Bool) (g : NMEAGPS)
    (ha : sameFrame a.1 g) (hb : sameFrame b.1 g) : sameFrame (if c then a else b).1 g := by
  split_ifs <;> assumption

theorem floatFrame_ite (c : Prop) [Decidable c] (a b : NMEAGPS × whole_frac) (g : NMEAGPS)
    (ha : floatFrame a.1 g) (hb : floatFrame b.1 g) : floatFrame (if c then a else b).1 g := by
  split_ifs <;> assumption

theorem parseFloatChar_frame (g : NMEAGPS) (val : whole_frac) (c m : Nat) :
    floatFrame (parseFloatChar g val c m).1 g := by
  unfold parseFloatChar
  repeat' first | apply floatFrame_ite | exact ⟨⟨rfl, rfl, rfl, rfl, rfl, rfl⟩, rfl⟩

theorem parseFloat_frame (g : NMEAGPS) (val : whole_frac) (c m : Nat) :
    floatFrame (parseFloat g val c m).1 g := by
  unfold parseFloat
  apply floatFrame_ite
  · apply floatFrame_ite
    · exact ⟨⟨rfl, rfl, rfl, rfl, rfl, rfl⟩, rfl⟩
    · exact parseFloatChar_frame { g with decimal := 0, negative := false } _ c m
  · exact parseFloatChar_frame g val c m

theorem parseTimeField_frame (g : NMEAGPS) (c : Nat) : sameFrame (parseTimeField g c).1 g := by
  unfold parseTimeField
  simp only []
  repeat' first | apply frame_ite | exact ⟨rfl, rfl, rfl, rfl, rfl, rfl⟩

theorem parseFix_frame (g : NMEAGPS) (c : Nat) : sameFrame (parseFix g c).1 g := by
  unfold parseFix
  repeat' first | apply frame_ite | exact ⟨rfl, rfl, rfl, rfl, rfl, rfl⟩

theorem parseLat_frame (H : NMEAGPS_h) (g : NMEAGPS) (c : Nat) :
    sameFrame (parseLat H g c).1 g :=
  ⟨rfl, rfl, rfl, rfl, rfl, rfl⟩

theorem parseLon_frame (H : NMEAGPS_h) (g : NMEAGPS) (c : Nat) :
    sameFrame (parseLon H g c).1 g :=
  ⟨rfl, rfl, rfl, rfl, rfl, rfl⟩

theorem parseNS_frame (g : NMEAGPS) (c : Nat) : sameFrame (parseNS g c).1 g := by
  unfold parseNS
  repeat' first | apply frame_ite | exact ⟨rfl, rfl, rfl, rfl, rfl, rfl⟩

theorem parseEW_frame (g : NMEAGPS) (c : Nat) : sameFrame (parseEW g c).1 g := by
  unfold parseEW
  repeat' first | apply frame_ite | exact ⟨rfl, rfl, rfl, rfl, rfl, rfl⟩

theorem parseSpeed_frame (g : NMEAGPS) (c : Nat) : sameFrame (parseSpeed g c).1 g := by
  obtain ⟨⟨h1, h2, h3, h4, h5, h6⟩, _⟩ := parseFloat_frame g g.m_fix.spd c 3
  exact ⟨h1, h2, h3, h4, h5, h6⟩

theorem parseHeading_frame (g : NMEAGPS) (c : Nat) : sameFrame (parseHeading g c).1 g := by
  obtain ⟨⟨h1, h2, h3, h4, h5, h6⟩, _⟩ := parseFloat_frame g g.m_fix.hdg c 2
  exact ⟨h1, h2, h3, h4, h5, h6⟩

theorem parseField_frame (H : NMEAGPS_h) (g : NMEAGPS) (c : Nat) (hf : g.fieldIndex ≠ 0) :
    sameFrame (parseField H g c).1 g := by
  have hAlt : sameFrame
      ({ (parseFloat g g.m_fix.alt c 2).1 with
          m_fix := { (parseFloat g g.m_fix.alt c 2).1.m_fix with
            alt := (parseFloat g g.m_fix.alt c 2).2 } }, true).1 g := by
    obtain ⟨⟨h1, h2, h3, h4, h5, h6⟩, _⟩ := parseFloat_frame g g.m_fix.alt c 2
    exact ⟨h1, h2, h3, h4, h5, h6⟩
  have hZda := parseTimeField_frame
    { g with m_fix := { g.m_fix with
        dateTime := { g.m_fix.dateTime with date := 0, month := 0, year := 0 } } } c
  unfold parseField
  rw [if_neg hf]
  simp only []
  split
  all_goals
    repeat' first
      | with_reducible apply frame_ite
      | with_reducible exact sameFrame_refl g
      | with_reducible exact parseTimeField_frame g c
      | with_reducible exact parseFix_frame g c
      | with_reducible exact parseLat_frame H g c
      | with_reducible exact parseLon_frame H g c
      | with_reducible exact parseNS_frame g c
      | with_reducible exact parseEW_frame g c
      | with_reducible exact parseSpeed_frame g c
      | with_reducible exact parseHeading_frame g c
      | exact hAlt
      | exact hZda
      | exact ⟨rfl, rfl, rfl, rfl, rfl, rfl⟩

/-! ## One data byte -/

theorem isData_bounds (c : Nat) (hc : isData c) : 32 ≤ c ∧ c ≤ 126 ∧ c ≠ 36 ∧ c ≠ 42 := by
  unfold isData at hc
  simpa only [Char.reduceToNat] using hc

theorem putchar_data (H : NMEAGPS_h) (g : NMEAGPS) (c : Nat)
    (hs : g.rxState = NMEA_RECEIVING_DATA) (hc : isData c) :
    putchar H g c =
      (if c = 44 then
        { (parseField H { g with crc := (g.crc ^^^ c) % 256 } c).1 with
          fieldIndex := ((parseField H { g with crc := (g.crc ^^^ c) % 256 } c).1.fieldIndex + 1) % 256
          chrCount := 0 }
      else
        { (parseField H { g with crc := (g.crc ^^^ c) % 256 } c).1 with
          chrCount := ((parseField H { g with crc := (g.crc ^^^ c) % 256 } c).1.chrCount + 1) % 256 },
        []) := by
  obtain ⟨h1, h2, h3, h4⟩ := isData_bounds c hc
  have e1 : ¬ (c = CR ∨ c = LF) := by unfold CR LF; omega
  have e2 : ¬ (c < 32 ∨ 126 < c) := by omega
  unfold putchar
  simp only [Char.reduceToNat]
  rw [if_neg h3, hs]
  simp only []
  rw [if_neg h4, if_neg e1, if_neg e2]
  by_cases hcomma : c = 44
  · rw [if_pos hcomma, if_pos hcomma]
  · rw [if_neg hcomma, if_neg hcomma]

/-! ## Fix status and date under the field decoders -/

theorem sameStatusDate_refl (g : NMEAGPS) : sameStatusDate g g := ⟨rfl, rfl, rfl, rfl⟩

theorem ssd_ite (c : Prop) [Decidable c] (a b : NMEAGPS × Bool) (g : NMEAGPS)
    (ha : c → sameStatusDate a.1 g) (hb : ¬ c → sameStatusDate b.1 g) :
    sameStatusDate (if c then a else b).1 g := by
  split_ifs with h
  · exact ha h
  · exact hb h

theorem parseTimeField_ssd (g : NMEAGPS) (c : Nat) : sameStatusDate (parseTimeField g c).1 g := by
  unfold parseTimeField
  simp only []
  repeat' first | (apply ssd_ite <;> intro _) | exact ⟨rfl, rfl, rfl, rfl⟩

theorem parseNS_ssd (g : NMEAGPS) (c : Nat) : sameStatusDate (parseNS g c).1 g := by
  unfold parseNS
  repeat' first | (apply ssd_ite <;> intro _) | exact ⟨rfl, rfl, rfl, rfl⟩

theorem parseEW_ssd (g : NMEAGPS) (c : Nat) : sameStatusDate (parseEW g c).1 g := by
  unfold parseEW
  repeat' first | (apply ssd_ite <;> intro _) | exact ⟨rfl, rfl, rfl, rfl⟩

theorem parseLat_ssd (H : NMEAGPS_h) (g : NMEAGPS) (c : Nat) :
    sameStatusDate (parseLat H g c).1 g := ⟨rfl, rfl, rfl, rfl⟩

theorem parseLon_ssd (H : NMEAGPS_h) (g : NMEAGPS) (c : Nat) :
    sameStatusDate (parseLon H g c).1 g := ⟨rfl, rfl, rfl, rfl⟩

theorem parseSpeed_ssd (g : NMEAGPS) (c : Nat) : sameStatusDate (parseSpeed g c).1 g := by
  obtain ⟨_, h⟩ := parseFloat_frame g g.m_fix.spd c 3
  unfold parseSpeed sameStatusDate
  simp only [h, and_self]

theorem parseHeading_ssd (g : NMEAGPS) (c : Nat) : sameStatusDate (parseHeading g c).1 g := by
  obtain ⟨_, h⟩ := parseFloat_frame g g.m_fix.hdg c 2
  unfold parseHeading sameStatusDate
  simp only [h, and_self]

theorem parseFix_status (g : NMEAGPS) (c : Nat) :
    (parseFix g c).1.m_fix.status =
      if g.chrCount = 0 then fixStatus c g.m_fix.status else g.m_fix.status := by
  unfold parseFix fixStatus
  by_cases h0 : g.chrCount = 0
  · rw [if_pos h0, if_pos h0]
    by_cases hA : c = 'A'.toNat
    · rw [if_pos hA, if_pos hA]
    · rw [if_neg hA, if_neg hA]
      by_cases hN : c = 'N'.toNat ∨ c = 'V'.toNat
      · rw [if_pos hN, if_pos hN]
      · rw [if_neg hN, if_neg hN]
        by_cases hD : c = 'D'.toNat
        · rw [if_pos hD, if_pos hD]
        · rw [if_neg hD, if_neg hD]
          by_cases hE : c = 'E'.toNat
          · rw [if_pos hE, if_pos hE]
          · rw [if_neg hE, if_neg hE]
  · rw [if_neg h0, if_neg h0]
    by_cases h1 : g.chrCount = 1 ∧ c ≠ ','.toNat
    · rw [if_pos h1]
    · rw [if_neg h1]

theorem sameDate_ite (c : Prop) [Decidable c] (a b : NMEAGPS × Bool) (g : NMEAGPS)
    (ha : sameDate a.1 g) (hb : sameDate b.1 g) : sameDate (if c then a else b).1 g := by
  split_ifs <;> assumption

theorem sameDate_ite_h (c : Prop) [Decidable c] (a b : NMEAGPS × Bool) (g : NMEAGPS)
    (ha : c → sameDate a.1 g) (hb : ¬ c → sameDate b.1 g) :
    sameDate (if c then a else b).1 g := by
  split_ifs with h
  · exact ha h
  · exact hb h

theorem parseFix_date (g : NMEAGPS) (c : Nat) : sameDate (parseFix g c).1 g := by
  unfold parseFix
  repeat' first | with_reducible apply sameDate_ite | exact ⟨rfl, rfl, rfl⟩

theorem sameDate_of_ssd (a b : NMEAGPS) (h : sameStatusDate a b) : sameDate a b := h.2

theorem sameStatus_ite (c : Prop) [Decidable c] (a b : NMEAGPS × Bool) (g : NMEAGPS)
    (ha : c → sameStatus a.1 g) (hb : ¬ c → sameStatus b.1 g) :
    sameStatus (if c then a else b).1 g := by
  split_ifs with h
  · exact ha h
  · exact hb h

/-- The fix status outside the fix-status fields, and the way `parseFix` sets it. -/
theorem parseField_status (H : NMEAGPS_h) (g : NMEAGPS) (c : Nat) (hf : g.fieldIndex ≠ 0)
    (hm : g.nmeaMessage ≠ NMEA_GGA) :
    (parseField H g c).1.m_fix.status =
      if fixField g.nmeaMessage g.fieldIndex ∧ g.chrCount = 0 then fixStatus c g.m_fix.status
      else g.m_fix.status := by
  by_cases hfix : fixField g.nmeaMessage g.fieldIndex
  · have e : (parseField H g c).1 = (parseFix g c).1 := by
      unfold parseField
      rw [if_neg hf]
      simp only []
      rcases hfix with ⟨h1, h2⟩ | ⟨h1, h2⟩ | ⟨h1, h2⟩
      · rw [h1]; simp only []; rcases h2 with h2 | h2 <;> simp [h2]
      · rw [h1]; simp only []; rcases h2 with h2 | h2 <;> simp [h2]
      · rw [h1]; simp only []; simp [h2]
    rw [e, parseFix_status]
    simp [hfix]
  · rw [if_neg (fun h => hfix h.1)]
    have hZ : sameStatus (parseTimeField
        { g with m_fix := { g.m_fix with
            dateTime := { g.m_fix.dateTime with date := 0, month := 0, year := 0 } } } c).1 g :=
      (parseTimeField_ssd _ c).1
    show sameStatus (parseField H g c).1 g
    unfold parseField
    rw [if_neg hf]
    simp only []
    split
    all_goals
      repeat' first
        | (with_reducible apply sameStatus_ite <;> intro _)
        | with_reducible exact rfl
        | with_reducible exact (parseTimeField_ssd g c).1
        | with_reducible exact (parseLat_ssd H g c).1
        | with_reducible exact (parseLon_ssd H g c).1
        | with_reducible exact (parseNS_ssd g c).1
        | with_reducible exact (parseEW_ssd g c).1
        | with_reducible exact (parseSpeed_ssd g c).1
        | with_reducible exact (parseHeading_ssd g c).1
        | exact hZ
        | (exfalso; simp_all [fixField])

/-- The date outside the RMC date field and the ZDA sentence. -/
theorem parseField_date (H : NMEAGPS_h) (g : NMEAGPS) (c : Nat) (hf : g.fieldIndex ≠ 0)
    (hm : g.nmeaMessage ≠ NMEA_ZDA) (hd : ¬ (g.nmeaMessage = NMEA_RMC ∧ g.fieldIndex = 9)) :
    sameDate (parseField H g c).1 g := by
  have hAlt : sameDate
      ({ (parseFloat g g.m_fix.alt c 2).1 with
          m_fix := { (parseFloat g g.m_fix.alt c 2).1.m_fix with
            alt := (parseFloat g g.m_fix.alt c 2).2 } }, true).1 g := by
    obtain ⟨_, h⟩ := parseFloat_frame g g.m_fix.alt c 2
    unfold sameDate
    simp only [h, and_self]
  unfold parseField
  rw [if_neg hf]
  simp only []
  split
  all_goals
    repeat' first
      | (with_reducible apply sameDate_ite_h <;> intro _)
      | with_reducible exact ⟨rfl, rfl, rfl⟩
      | with_reducible exact (parseTimeField_ssd g c).2
      | with_reducible exact (parseLat_ssd H g c).2
      | with_reducible exact (parseLon_ssd H g c).2
      | with_reducible exact (parseNS_ssd g c).2
      | with_reducible exact (parseEW_ssd g c).2
      | with_reducible exact (parseSpeed_ssd g c).2
      | with_reducible exact (parseHeading_ssd g c).2
      | with_reducible exact parseFix_date g c
      | exact hAlt
      | (exfalso; simp_all)
/-! ## One data byte after the sentence name -/

theorem putchar_field (H : NMEAGPS_h) (g : NMEAGPS) (c : Nat) (m : nmea_msg_t) (i j : Nat)
    (hat : atField g m i j) (hi : i ≠ 0) (hc : isData c) :
    (putchar H g c).2 = [] ∧
    atField (putchar H g c).1 m (if c = 44 then (i + 1) % 256 else i)
      (if c = 44 then 0 else (j + 1) % 256) ∧
    (putchar H g c).1.crc = (g.crc ^^^ c) % 256 ∧
    (putchar H g c).1.m_fix.valid = g.m_fix.valid ∧
    (m ≠ NMEA_GGA → (putchar H g c).1.m_fix.status =
      if fixField m i ∧ j = 0 then fixStatus c g.m_fix.status else g.m_fix.status) ∧
    (m ≠ NMEA_ZDA → ¬ (m = NMEA_RMC ∧ i = 9) → sameDate (putchar H g c).1 g) := by
  obtain ⟨hs, rfl, rfl, rfl⟩ := hat
  have hf : ({ g with crc := (g.crc ^^^ c) % 256 } : NMEAGPS).fieldIndex ≠ 0 := hi
  obtain ⟨f1, f2, f3, f4, f5, f6⟩ := parseField_frame H { g with crc := (g.crc ^^^ c) % 256 } c hf
  have hst := parseField_status H { g with crc := (g.crc ^^^ c) % 256 } c hf
  have hdt := parseField_date H { g with crc := (g.crc ^^^ c) % 256 } c hf
  rw [putchar_data H g c hs hc]
  by_cases hcomma : c = 44
  · rw [if_pos hcomma, if_pos hcomma, if_pos hcomma]
    refine ⟨rfl, ⟨f1.trans hs, f3, ?_, rfl⟩, f2, f6, fun hm => hst hm, fun h1 h2 => hdt h1 h2⟩
    show ((parseField H { g with crc := (g.crc ^^^ c) % 256 } c).1.fieldIndex + 1) % 256 = _
    rw [f4]
  · rw [if_neg hcomma, if_neg hcomma, if_neg hcomma]
    refine ⟨rfl, ⟨f1.trans hs, f3, f4, ?_⟩, f2, f6, fun hm => hst hm, fun h1 h2 => hdt h1 h2⟩
    show ((parseField H { g with crc := (g.crc ^^^ c) % 256 } c).1.chrCount + 1) % 256 = _
    rw [f5]
/-! ## Data bytes in any field -/

theorem cmdFrame_ite (c : Prop) [Decidable c] (a b g : NMEAGPS)
    (ha : cmdFrame a g) (hb : cmdFrame b g) : cmdFrame (if c then a else b) g := by
  split_ifs <;> assumption

theorem parseCommand_frame (g : NMEAGPS) (c : Nat) : cmdFrame (parseCommand g c).1 g := by
  unfold parseCommand
  simp only []
  repeat' first
    | with_reducible apply cmdFrame_ite
    | exact ⟨rfl, rfl, rfl, rfl, rfl, Or.inl rfl, rfl⟩
    | exact ⟨rfl, rfl, rfl, rfl, rfl, Or.inr rfl, rfl⟩

theorem putchar_data_any (H : NMEAGPS_h) (g : NMEAGPS) (c : Nat)
    (hs : g.rxState = NMEA_RECEIVING_DATA) (hc : isData c) :
    (putchar H g c).2 = [] ∧
    ((putchar H g c).1.rxState = NMEA_RECEIVING_DATA ∨ (putchar H g c).1.rxState = NMEA_IDLE) ∧
    (putchar H g c).1.crc = (g.crc ^^^ c) % 256 := by
  have key : ((parseField H { g with crc := (g.crc ^^^ c) % 256 } c).1.rxState =
        NMEA_RECEIVING_DATA ∨
      (parseField H { g with crc := (g.crc ^^^ c) % 256 } c).1.rxState = NMEA_IDLE) ∧
      (parseField H { g with crc := (g.crc ^^^ c) % 256 } c).1.crc = (g.crc ^^^ c) % 256 := by
    by_cases hf : g.fieldIndex = 0
    · have e : parseField H { g with crc := (g.crc ^^^ c) % 256 } c =
          parseCommand { g with crc := (g.crc ^^^ c) % 256 } c := by
        unfold parseField
        simp only []
        rw [if_pos hf]
      obtain ⟨f1, _, _, _, _, f6, _⟩ := parseCommand_frame { g with crc := (g.crc ^^^ c) % 256 } c
      rw [e]
      refine ⟨?_, f1⟩
      rcases f6 with f6 | f6
      · exact Or.inl (f6.trans hs)
      · exact Or.inr f6
    · obtain ⟨f1, f2, _, _, _, _⟩ :=
        parseField_frame H { g with crc := (g.crc ^^^ c) % 256 } c hf
      exact ⟨Or.inl (f1.trans hs), f2⟩
  rw [putchar_data H g c hs hc]
  by_cases hcomma : c = 44
  · rw [if_pos hcomma]; exact ⟨rfl, key.1, key.2⟩
  · rw [if_neg hcomma]; exact ⟨rfl, key.1, key.2⟩

theorem isData_ne_dollar (w : List Nat) (hw : ∀ c ∈ w, isData c) : ∀ c ∈ w, c ≠ 36 :=
  fun c hc => (isData_bounds c (hw c hc)).2.2.1

theorem xor_byte_lt (k c : Nat) (hk : k < 256) (hc : c ≤ 126) : (k ^^^ c) % 256 = k ^^^ c := by
  apply Nat.mod_eq_of_lt
  exact Nat.xor_lt_two_pow (n := 8) hk (by omega)

/-- Data bytes push nothing; if the receiver still takes data after them, it did so all
along and the checksum is the XOR of the bytes into the old checksum. -/
theorem feed_data (H : NMEAGPS_h) (w : List Nat) (hw : ∀ c ∈ w, isData c) (g : NMEAGPS)
    (hs : g.rxState = NMEA_RECEIVING_DATA) (hk : g.crc < 256) :
    (feed H g w).2 = [] ∧
    ((feed H g w).1.rxState = NMEA_RECEIVING_DATA ∨ (feed H g w).1.rxState = NMEA_IDLE) ∧
    ((feed H g w).1.rxState = NMEA_RECEIVING_DATA → (feed H g w).1.crc = xorFrom g.crc w) ∧
    (feed H g w).1.crc < 256 := by
  induction w generalizing g with
  | nil => exact ⟨rfl, Or.inl hs, fun _ => rfl, hk⟩
  | cons c cs ih =>
    have hc := hw c (List.mem_cons_self _ _)
    have hcs : ∀ x ∈ cs, isData x := fun x hx => hw x (List.mem_cons_of_mem _ hx)
    obtain ⟨p1, p2, p3⟩ := putchar_data_any H g c hs hc
    have hx := xor_byte_lt g.crc c hk (isData_bounds c hc).2.1
    have hk1 : (putchar H g c).1.crc < 256 := by
      rw [p3]; exact Nat.mod_lt _ (by decide)
    rw [feed_cons, p1]
    rcases p2 with p2 | p2
    · obtain ⟨q1, q2, q3, q4⟩ := ih hcs (putchar H g c).1 p2 hk1
      refine ⟨by simpa using q1, q2, fun h => ?_, q4⟩
      have := q3 h
      rw [p3, hx] at this
      exact this
    · have hidle := feed_idle H (putchar H g c).1 cs p2 (isData_ne_dollar cs hcs)
      rw [hidle]
      refine ⟨rfl, Or.inr p2, fun h => ?_, hk1⟩
      rw [p2] at h
      exact absurd h (by decide)
/-! ## The sentence name -/

theorem nameRun_snoc (n : List Nat) (c : Nat) (k : Nat) (m : nmea_msg_t) :
    nameRun k m (n ++ [c]) =
      match nameRun k m n with
      | some (k1, m1) => nameRun k1 m1 [c]
      | none => none := by
  induction n generalizing k m with
  | nil => rfl
  | cons a n ih =>
    simp only [List.cons_append, nameRun]
    split_ifs
    · exact ih _ _
    · rfl

theorem livePrefixes_eq :
    livePrefixes =
      [([], 0, NMEA_UNKNOWN), ([71], 1, NMEA_UNKNOWN), ([71, 80], 2, NMEA_UNKNOWN),
       ([71, 80, 71], 3, NMEA_UNKNOWN), ([71, 80, 90], 3, NMEA_ZDA), ([71, 80, 82], 3, NMEA_RMC),
       ([71, 80, 86], 3, NMEA_VTG), ([71, 80, 71, 71], 4, NMEA_GGA),
       ([71, 80, 71, 83], 4, NMEA_GSA), ([71, 80, 71, 76], 4, NMEA_GLL),
       ([71, 80, 90, 68], 4, NMEA_ZDA), ([71, 80, 82, 77], 4, NMEA_RMC),
       ([71, 80, 86, 84], 4, NMEA_VTG), ([71, 80, 82, 77, 67], 5, NMEA_RMC),
       ([71, 80, 71, 71, 65], 5, NMEA_GGA), ([71, 80, 71, 76, 76], 5, NMEA_GLL),
       ([71, 80, 86, 84, 71], 5, NMEA_VTG), ([71, 80, 90, 68, 65], 5, NMEA_ZDA),
       ([71, 80, 71, 83, 65], 5, NMEA_GSA), ([71, 80, 71, 83, 86], 5, NMEA_GSV)] := by
  decide

/-- Case analysis on the letters that `parseCommand` compares with. -/
theorem letter_cases (c : Nat) (P : Prop)
    (h65 : c = 65 → P) (h67 : c = 67 → P) (h68 : c = 68 → P) (h71 : c = 71 → P)
    (h76 : c = 76 → P) (h77 : c = 77 → P) (h80 : c = 80 → P) (h82 : c = 82 → P)
    (h83 : c = 83 → P) (h84 : c = 84 → P) (h86 : c = 86 → P) (h90 : c = 90 → P)
    (hother : (c ≠ 65 ∧ c ≠ 67 ∧ c ≠ 68 ∧ c ≠ 71 ∧ c ≠ 76 ∧ c ≠ 77 ∧ c ≠ 80 ∧ c ≠ 82 ∧
      c ≠ 83 ∧ c ≠ 84 ∧ c ≠ 86 ∧ c ≠ 90) → P) : P := by
  by_cases e65 : c = 65
  · exact h65 e65
  by_cases e67 : c = 67
  · exact h67 e67
  by_cases e68 : c = 68
  · exact h68 e68
  by_cases e71 : c = 71
  · exact h71 e71
  by_cases e76 : c = 76
  · exact h76 e76
  by_cases e77 : c = 77
  · exact h77 e77
  by_cases e80 : c = 80
  · exact h80 e80
  by_cases e82 : c = 82
  · exact h82 e82
  by_cases e83 : c = 83
  · exact h83 e83
  by_cases e84 : c = 84
  · exact h84 e84
  by_cases e86 : c = 86
  · exact h86 e86
  by_cases e90 : c = 90
  · exact h90 e90
  exact hother ⟨e65, e67, e68, e71, e76, e77, e80, e82, e83, e84, e86, e90⟩

set_option maxRecDepth 10000 in
set_option maxHeartbeats 4000000 in
theorem nameRun_live (n : List Nat) (hn : ∀ c ∈ n, c ≠ 44) (k : Nat) (m : nmea_msg_t)
    (h : nameRun 0 NMEA_UNKNOWN n = some (k, m)) : (n, k, m) ∈ livePrefixes := by
  induction n using List.reverseRecOn generalizing k m with
  | nil =>
    simp only [nameRun, Option.some.injEq, Prod.mk.injEq] at h
    obtain ⟨rfl, rfl⟩ := h
    decide
  | append_singleton n c ih =>
    rw [nameRun_snoc] at h
    have hc : c ≠ 44 := hn c (by simp)
    have hn1 : ∀ x ∈ n, x ≠ 44 := fun x hx => hn x (by simp [hx])
    cases hr : nameRun 0 NMEA_UNKNOWN n with
    | none => rw [hr] at h; exact absurd h (by simp)
    | some r =>
      obtain ⟨k1, m1⟩ := r
      rw [hr] at h
      have hl := ih hn1 k1 m1 hr
      simp only [nameRun] at h
      split_ifs at h with hd
      simp only [Option.some.injEq, Prod.mk.injEq] at h
      obtain ⟨rfl, rfl⟩ := h
      clear ih hn hn1 hr
      rw [livePrefixes_eq] at hl ⊢
      simp only [List.mem_cons, List.mem_singleton, Prod.mk.injEq, List.not_mem_nil,
        or_false] at hl
      casesm* _ ∨ _
      all_goals
        casesm* _ ∧ _
        subst_vars
        apply letter_cases c <;> intro hv <;>
          simp_all [parseCommand, nameProbe, idleParser]

theorem sentenceNames_eq :
    sentenceNames =
      [([71, 80, 82, 77, 67], NMEA_RMC), ([71, 80, 71, 71, 65], NMEA_GGA),
       ([71, 80, 71, 76, 76], NMEA_GLL), ([71, 80, 86, 84, 71], NMEA_VTG),
       ([71, 80, 90, 68, 65], NMEA_ZDA), ([71, 80, 71, 83, 65], NMEA_GSA),
       ([71, 80, 71, 83, 86], NMEA_GSV)] := by
  decide

set_option maxRecDepth 10000 in
set_option maxHeartbeats 1000000 in
theorem nameResult_iff (n : List Nat) (hn : ∀ c ∈ n, c ≠ 44) (m : nmea_msg_t) :
    nameResult n = some m ↔ (n, m) ∈ sentenceNames := by
  constructor
  · intro h
    unfold nameResult at h
    cases hr : nameRun 0 NMEA_UNKNOWN n with
    | none => rw [hr] at h; exact absurd h (by simp)
    | some r =>
      obtain ⟨k1, m1⟩ := r
      rw [hr] at h
      have hl := nameRun_live n hn k1 m1 hr
      clear hr hn
      simp only [] at h
      rw [livePrefixes_eq] at hl
      rw [sentenceNames_eq]
      simp only [List.mem_cons, List.mem_singleton, Prod.mk.injEq, List.not_mem_nil,
        or_false] at hl
      casesm* _ ∨ _
      all_goals
        casesm* _ ∧ _
        subst_vars
        simp_all [parseCommand, nameProbe, idleParser]
  · intro h
    rw [sentenceNames_eq] at h
    simp only [List.mem_cons, List.mem_singleton, Prod.mk.injEq, List.not_mem_nil,
      or_false] at h
    casesm* _ ∨ _
    all_goals
      casesm* _ ∧ _
      subst_vars
      decide

theorem sameName_ite (c : Prop) [Decidable c] (a b a1 b1 : NMEAGPS)
    (ha : sameName a a1) (hb : sameName b b1) :
    sameName (if c then a else b) (if c then a1 else b1) := by
  split_ifs <;> assumption

theorem parseCommand_probe (g : NMEAGPS) (c : Nat) (hs : g.rxState = NMEA_RECEIVING_DATA) :
    sameName (parseCommand g c).1 (parseCommand (nameProbe g.chrCount g.nmeaMessage) c).1 := by
  unfold parseCommand
  simp only []
  repeat' first
    | apply sameName_ite
    | exact ⟨hs, rfl⟩
    | exact ⟨rfl, rfl⟩

/-- One byte of the sentence name: the receiver state and the type follow the probe. -/
theorem putchar_name (H : NMEAGPS_h) (g : NMEAGPS) (c : Nat) (m : nmea_msg_t) (k : Nat)
    (hat : atField g m 0 k) (hc : isData c) :
    (putchar H g c).2 = [] ∧
    (putchar H g c).1.rxState = (parseCommand (nameProbe k m) c).1.rxState ∧
    (putchar H g c).1.nmeaMessage = (parseCommand (nameProbe k m) c).1.nmeaMessage ∧
    (putchar H g c).1.fieldIndex = (if c = 44 then 1 else 0) ∧
    (putchar H g c).1.chrCount = (if c = 44 then 0 else (k + 1) % 256) := by
  obtain ⟨hs, rfl, hf, rfl⟩ := hat
  have e : parseField H { g with crc := (g.crc ^^^ c) % 256 } c =
      parseCommand { g with crc := (g.crc ^^^ c) % 256 } c := by
    unfold parseField
    simp only []
    rw [if_pos hf]
  obtain ⟨_, f2, f3, _, _, _, _⟩ := parseCommand_frame { g with crc := (g.crc ^^^ c) % 256 } c
  obtain ⟨n1, n2⟩ := parseCommand_probe { g with crc := (g.crc ^^^ c) % 256 } c hs
  rw [putchar_data H g c hs hc, e]
  by_cases hcomma : c = 44
  · rw [if_pos hcomma, if_pos hcomma, if_pos hcomma]
    refine ⟨rfl, n1, n2, ?_, rfl⟩
    show ((parseCommand { g with crc := (g.crc ^^^ c) % 256 } c).1.fieldIndex + 1) % 256 = 1
    rw [f2]
    show (g.fieldIndex + 1) % 256 = 1
    rw [hf]
  · rw [if_neg hcomma, if_neg hcomma, if_neg hcomma]
    refine ⟨rfl, n1, n2, f2.trans hf, ?_⟩
    show ((parseCommand { g with crc := (g.crc ^^^ c) % 256 } c).1.chrCount + 1) % 256 = _
    rw [f3]

/-- The characters of a name: the parser follows `nameRun`. -/
theorem feed_name (H : NMEAGPS_h) (n : List Nat) (hn : ∀ c ∈ n, isData c ∧ c ≠ 44)
    (g : NMEAGPS) (m : nmea_msg_t) (k : Nat) (hat : atField g m 0 k) :
    (feed H g n).2 = [] ∧
    match nameRun k m n with
    | some (k1, m1) => atField (feed H g n).1 m1 0 k1
    | none => (feed H g n).1.rxState = NMEA_IDLE := by
  induction n generalizing g m k with
  | nil => exact ⟨rfl, hat⟩
  | cons c cs ih =>
    obtain ⟨hc, hc44⟩ := hn c (List.mem_cons_self _ _)
    have hcs : ∀ x ∈ cs, isData x ∧ x ≠ 44 := fun x hx => hn x (List.mem_cons_of_mem _ hx)
    obtain ⟨p1, p2, p3, p4, p5⟩ := putchar_name H g c m k hat hc
    rw [if_neg hc44] at p4 p5
    rw [feed_cons, p1]
    simp only [nameRun]
    by_cases hd : (parseCommand (nameProbe k m) c).1.rxState = NMEA_RECEIVING_DATA
    · rw [if_pos hd]
      have hat1 : atField (putchar H g c).1 (parseCommand (nameProbe k m) c).1.nmeaMessage 0
          ((k + 1) % 256) := ⟨p2.trans hd, p3, p4, p5⟩
      obtain ⟨q1, q2⟩ := ih hcs (putchar H g c).1 _ _ hat1
      exact ⟨by simpa using q1, q2⟩
    · rw [if_neg hd]
      have hidle : (putchar H g c).1.rxState = NMEA_IDLE := by
        obtain ⟨_, _, _, _, _, f6, _⟩ := parseCommand_frame (nameProbe k m) c
        rw [p2]
        rcases f6 with f6 | f6
        · exact absurd (f6.trans rfl) hd
        · exact f6
      have := feed_idle H (putchar H g c).1 cs hidle
        (fun x hx => (isData_bounds x (hcs x hx).1).2.2.1)
      rw [this]
      exact ⟨rfl, hidle⟩
theorem rxBegin_atField (g : NMEAGPS) : atField (rxBegin g) NMEA_UNKNOWN 0 0 :=
  ⟨rfl, rfl, rfl, rfl⟩

theorem putchar_dollar (H : NMEAGPS_h) (g : NMEAGPS) : putchar H g 36 = (rxBegin g, []) := by
  simp [putchar]

/-- After `$`, a name and a comma the receiver takes data of the recognised type at the
start of field 1, or idles when the name is not recognised. -/
theorem feed_named (H : NMEAGPS_h) (g : NMEAGPS) (n : List Nat)
    (hn : ∀ c ∈ n, isData c ∧ c ≠ 44) :
    (feed H g (36 :: (n ++ [44]))).2 = [] ∧
    match nameResult n with
    | some m => atField (feed H g (36 :: (n ++ [44]))).1 m 1 0
    | none => (feed H g (36 :: (n ++ [44]))).1.rxState = NMEA_IDLE := by
  obtain ⟨q1, q2⟩ := feed_name H n hn (rxBegin g) NMEA_UNKNOWN 0 (rxBegin_atField g)
  rw [feed_cons, putchar_dollar, feed_append, q1]
  simp only [feed_cons, feed_nil, List.nil_append, List.append_nil]
  unfold nameResult
  cases hr : nameRun 0 NMEA_UNKNOWN n with
  | none =>
    rw [hr] at q2
    simp only [] at q2 ⊢
    rw [putchar_idle H _ 44 q2 (by decide)]
    exact ⟨rfl, q2⟩
  | some r =>
    obtain ⟨k1, m1⟩ := r
    rw [hr] at q2
    simp only [] at q2 ⊢
    have h44 : isData 44 := by decide
    obtain ⟨p1, p2, p3, p4, p5⟩ := putchar_name H _ 44 m1 k1 q2 h44
    rw [if_pos rfl] at p4 p5
    refine ⟨p1, ?_⟩
    by_cases hd : (parseCommand (nameProbe k1 m1) 44).1.rxState = NMEA_RECEIVING_DATA
    · rw [if_pos hd]
      exact ⟨p2.trans hd, p3, p4, p5⟩
    · rw [if_neg hd]
      obtain ⟨_, _, _, _, _, f6, _⟩ := parseCommand_frame (nameProbe k1 m1) 44
      rw [p2]
      rcases f6 with f6 | f6
      · exact absurd (f6.trans rfl) hd
      · exact f6

/-! ## Whole fields -/

theorem fixStatus_comma (s : gps_fix_status_t) : fixStatus 44 s = s := by
  simp [fixStatus]

/-- The characters of one field, from offset `j`. -/
theorem feed_field_chars (H : NMEAGPS_h) (m : nmea_msg_t) (i : Nat) (hi : i ≠ 0)
    (f : List Nat) (hf : ∀ c ∈ f, isData c ∧ c ≠ 44) (g : NMEAGPS) (j : Nat)
    (hat : atField g m i j) (hlen : j + f.length < 256) :
    (feed H g f).2 = [] ∧ atField (feed H g f).1 m i (j + f.length) ∧
    (feed H g f).1.m_fix.valid = g.m_fix.valid ∧
    (m ≠ NMEA_GGA → (¬ fixField m i ∨ 0 < j) →
      (feed H g f).1.m_fix.status = g.m_fix.status) ∧
    (m ≠ NMEA_ZDA → ¬ (m = NMEA_RMC ∧ i = 9) → sameDate (feed H g f).1 g) := by
  induction f generalizing g j with
  | nil => exact ⟨rfl, hat, rfl, fun _ _ => rfl, fun _ _ => ⟨rfl, rfl, rfl⟩⟩
  | cons c cs ih =>
    obtain ⟨hc, hc44⟩ := hf c (List.mem_cons_self _ _)
    have hcs : ∀ x ∈ cs, isData x ∧ x ≠ 44 := fun x hx => hf x (List.mem_cons_of_mem _ hx)
    simp only [List.length_cons] at hlen
    obtain ⟨p1, p2, _, p4, p5, p6⟩ := putchar_field H g c m i j hat hi hc
    rw [if_neg hc44, if_neg hc44, Nat.mod_eq_of_lt (by omega)] at p2
    obtain ⟨q1, q2, q3, q4, q5⟩ := ih hcs (putchar H g c).1 (j + 1) p2 (by omega)
    rw [feed_cons, p1]
    refine ⟨by simpa using q1, ?_, q3.trans p4, fun hm hfix => ?_, fun h1 h2 => ?_⟩
    · have e : j + (cs.length + 1) = j + 1 + cs.length := by omega
      simp only [List.length_cons]
      rw [e]
      exact q2
    · show (feed H (putchar H g c).1 cs).1.m_fix.status = _
      rw [q4 hm (Or.inr (by omega)), p5 hm]
      rcases hfix with hfix | hfix
      · rw [if_neg (fun h => hfix h.1)]
      · rw [if_neg (fun h => by omega)]
    · obtain ⟨a1, a2, a3⟩ := q5 h1 h2
      obtain ⟨b1, b2, b3⟩ := p6 h1 h2
      exact ⟨a1.trans b1, a2.trans b2, a3.trans b3⟩

/-- The characters of one field from offset 0: the fix status follows `fieldStatus`. -/
theorem feed_field_status (H : NMEAGPS_h) (m : nmea_msg_t) (i : Nat) (hi : i ≠ 0)
    (hm : m ≠ NMEA_GGA) (f : List Nat) (hf : ∀ c ∈ f, isData c ∧ c ≠ 44) (g : NMEAGPS)
    (hat : atField g m i 0) (hlen : f.length < 256) :
    (feed H g f).1.m_fix.status = fieldStatus m i f g.m_fix.status := by
  unfold fieldStatus
  by_cases hfix : fixField m i
  · rw [if_pos hfix]
    cases f with
    | nil => rfl
    | cons c cs =>
      obtain ⟨hc, hc44⟩ := hf c (List.mem_cons_self _ _)
      have hcs : ∀ x ∈ cs, isData x ∧ x ≠ 44 := fun x hx => hf x (List.mem_cons_of_mem _ hx)
      simp only [List.length_cons] at hlen
      obtain ⟨p1, p2, _, _, p5, _⟩ := putchar_field H g c m i 0 hat hi hc
      rw [if_neg hc44, if_neg hc44] at p2
      obtain ⟨_, _, _, q4, _⟩ :=
        feed_field_chars H m i hi cs hcs (putchar H g c).1 1 p2 (by omega)
      show (feed H (putchar H g c).1 cs).1.m_fix.status = _
      rw [q4 hm (Or.inr (by omega)), p5 hm, if_pos ⟨hfix, rfl⟩]
  · rw [if_neg hfix]
    exact (feed_field_chars H m i hi f hf g 0 hat (by omega)).2.2.2.1 hm (Or.inl hfix)

/-- The comma that ends field `i`. -/
theorem putchar_comma (H : NMEAGPS_h) (g : NMEAGPS) (m : nmea_msg_t) (i j : Nat)
    (hat : atField g m i j) (hi : i ≠ 0) (hi2 : i < 255) :
    (putchar H g 44).2 = [] ∧ atField (putchar H g 44).1 m (i + 1) 0 ∧
    (putchar H g 44).1.m_fix.valid = g.m_fix.valid ∧
    (m ≠ NMEA_GGA → (putchar H g 44).1.m_fix.status = g.m_fix.status) ∧
    (m ≠ NMEA_ZDA → ¬ (m = NMEA_RMC ∧ i = 9) → sameDate (putchar H g 44).1 g) := by
  obtain ⟨p1, p2, _, p4, p5, p6⟩ := putchar_field H g 44 m i j hat hi (by decide)
  rw [if_pos rfl, if_pos rfl, Nat.mod_eq_of_lt (by omega)] at p2
  refine ⟨p1, p2, p4, fun hm => ?_, p6⟩
  rw [p5 hm, fixStatus_comma]
  split_ifs <;> rfl

/-- Fields after field `i`, each after its comma. -/
theorem feed_fields (H : NMEAGPS_h) (m : nmea_msg_t) (hm : m ≠ NMEA_GGA)
    (fs : List (List Nat)) (hfs : ∀ f ∈ fs, isField f) (g : NMEAGPS) (i j : Nat)
    (hat : atField g m i j) (hi : i ≠ 0) (hcount : i + fs.length < 256) :
    (feed H g (commaFields fs)).2 = [] ∧
    (∃ j1, atField (feed H g (commaFields fs)).1 m (i + fs.length) j1) ∧
    (feed H g (commaFields fs)).1.m_fix.valid = g.m_fix.valid ∧
    (feed H g (commaFields fs)).1.m_fix.status = fieldsStatus m i fs g.m_fix.status ∧
    (m ≠ NMEA_ZDA → (m = NMEA_RMC → 9 < i ∨ i + fs.length < 9) →
      sameDate (feed H g (commaFields fs)).1 g) := by
  induction fs generalizing g i j with
  | nil => exact ⟨rfl, ⟨j, hat⟩, rfl, rfl, fun _ _ => ⟨rfl, rfl, rfl⟩⟩
  | cons f fs ih =>
    obtain ⟨hlen, hf⟩ := hfs f (List.mem_cons_self _ _)
    simp only [Char.reduceToNat] at hf
    have hfs1 : ∀ x ∈ fs, isField x := fun x hx => hfs x (List.mem_cons_of_mem _ hx)
    simp only [List.length_cons] at hcount
    obtain ⟨p1, p2, p3, p4, p5⟩ := putchar_comma H g m i j hat hi (by omega)
    obtain ⟨q1, q2, q3, _, q5⟩ :=
      feed_field_chars H m (i + 1) (by omega) f hf (putchar H g 44).1 0 p2 (by omega)
    have q4 := feed_field_status H m (i + 1) (by omega) hm f hf (putchar H g 44).1 p2 hlen
    rw [Nat.zero_add] at q2
    obtain ⟨r1, ⟨j1, r2⟩, r3, r4, r5⟩ :=
      ih hfs1 (feed H (putchar H g 44).1 f).1 (i + 1) f.length q2 (by omega) (by omega)
    have e : feed H g (commaFields (f :: fs)) =
        ((feed H (feed H (putchar H g 44).1 f).1 (commaFields fs)).1,
          (feed H (feed H (putchar H g 44).1 f).1 (commaFields fs)).2) := by
      show feed H g (44 :: (f ++ commaFields fs)) = _
      rw [feed_cons, p1, feed_append, q1]
      rfl
    rw [e]
    refine ⟨r1, ⟨j1, ?_⟩, r3.trans (q3.trans p3), ?_, fun h1 h2 => ?_⟩
    · have e2 : i + (f :: fs).length = i + 1 + fs.length := by
        simp only [List.length_cons]; omega
      rw [e2]
      exact r2
    · show (feed H (feed H (putchar H g 44).1 f).1 (commaFields fs)).1.m_fix.status = _
      rw [r4, q4, p4 hm]
      rfl
    · simp only [List.length_cons] at h2
      obtain ⟨a1, a2, a3⟩ := r5 h1 (fun hr => by have := h2 hr; omega)
      obtain ⟨b1, b2, b3⟩ := q5 h1 (fun hr => by have := h2 hr.1; omega)
      obtain ⟨c1, c2, c3⟩ := p5 h1 (fun hr => by have := h2 hr.1; omega)
      exact ⟨a1.trans (b1.trans c1), a2.trans (b2.trans c2), a3.trans (b3.trans c3)⟩
/-! ## The example RMC sentence -/

theorem feed_dollar (H : NMEAGPS_h) (g : NMEAGPS) (w : List Nat) :
    feed H g (36 :: w) = feed H (rxBegin g) w := by
  rw [feed_cons, putchar_dollar]
  simp

theorem feed_append_fst (H : NMEAGPS_h) (g : NMEAGPS) (a b : List Nat) :
    (feed H g (a ++ b)).1 = (feed H (feed H g a).1 b).1 := by
  rw [feed_append]

theorem feed_append_snd (H : NMEAGPS_h) (g : NMEAGPS) (a b : List Nat)
    (h : (feed H g a).2 = []) : (feed H g (a ++ b)).2 = (feed H (feed H g a).1 b).2 := by
  rw [feed_append, h]
  rfl

set_option maxRecDepth 10000 in
/-- The RMC date field `230394` with its comma. -/
theorem feed_rmc_date (H : NMEAGPS_h) (g : NMEAGPS) (hat : atField g NMEA_RMC 9 0) :
    (feed H g (bytes "230394,")).2 = [] ∧
    atField (feed H g (bytes "230394,")).1 NMEA_RMC 10 0 ∧
    (feed H g (bytes "230394,")).1.m_fix.status = g.m_fix.status ∧
    (feed H g (bytes "230394,")).1.m_fix.dateTime.date = 23 ∧
    (feed H g (bytes "230394,")).1.m_fix.dateTime.month = 3 ∧
    (feed H g (bytes "230394,")).1.m_fix.dateTime.year = 94 := by
  obtain ⟨rx, crc, msg, fi, cc, dec, neg, fix⟩ := g
  obtain ⟨h1, h2, h3, h4⟩ := hat
  simp only at h1 h2 h3 h4
  subst h1 h2 h3 h4
  have e : bytes "230394," = [50, 51, 48, 51, 57, 52, 44] := by decide
  rw [e]
  simp [feed, putchar, parseField, CR, LF, atField]

set_option maxRecDepth 10000 in
/-- The body of the example sentence: it pushes nothing and leaves the receiver taking
data of an RMC sentence, with checksum `0x6A`, a standard fix and the date 23/03/94. -/
theorem feed_rmc_body (H : NMEAGPS_h) (g : NMEAGPS) :
    (feed H g (36 :: rmcBody)).2 = [] ∧
    (feed H g (36 :: rmcBody)).1.rxState = NMEA_RECEIVING_DATA ∧
    (feed H g (36 :: rmcBody)).1.nmeaMessage = NMEA_RMC ∧
    (feed H g (36 :: rmcBody)).1.crc = 0x6A ∧
    (feed H g (36 :: rmcBody)).1.m_fix.status = GPS_FIX_STD ∧
    (feed H g (36 :: rmcBody)).1.m_fix.dateTime.date = 23 ∧
    (feed H g (36 :: rmcBody)).1.m_fix.dateTime.month = 3 ∧
    (feed H g (36 :: rmcBody)).1.m_fix.dateTime.year = 94 := by
  have e : (36 :: rmcBody) =
      (36 :: (bytes "GPRMC" ++ [44])) ++ (bytes "123519" ++
        (commaFields [bytes "A", bytes "4807.038", bytes "N", bytes "01131.000", bytes "E",
          bytes "022.4", bytes "084.4"] ++ ([44] ++ (bytes "230394," ++ (bytes "003.1" ++
            commaFields [bytes "W"]))))) := by
    decide
  -- the name
  have hA := feed_named H g (bytes "GPRMC") (by decide)
  have hr : nameResult (bytes "GPRMC") = some NMEA_RMC := by decide
  rw [hr] at hA
  obtain ⟨a1, a2⟩ := hA
  simp only [] at a2
  -- the time
  obtain ⟨b1, b2, _, b4, _⟩ := feed_field_chars H NMEA_RMC 1 (by decide) (bytes "123519")
    (by decide) _ 0 a2 (by decide)
  have b4 := b4 (by decide) (Or.inl (by decide))
  -- status, latitude, longitude, speed, heading
  obtain ⟨c1, ⟨j1, c2⟩, _, c4, _⟩ := feed_fields H NMEA_RMC (by decide)
    [bytes "A", bytes "4807.038", bytes "N", bytes "01131.000", bytes "E", bytes "022.4",
      bytes "084.4"] (by decide) _ 1 _ b2 (by decide) (by decide)
  have c4' : fieldsStatus NMEA_RMC 1 [bytes "A", bytes "4807.038", bytes "N", bytes "01131.000",
      bytes "E", bytes "022.4", bytes "084.4"]
      (feed H (feed H g (36 :: (bytes "GPRMC" ++ [44]))).1 (bytes "123519")).1.m_fix.status =
      GPS_FIX_STD := by
    generalize (feed H (feed H g (36 :: (bytes "GPRMC" ++ [44]))).1 (bytes "123519")).1.m_fix.status = s
    rfl
  rw [c4'] at c4
  -- the date
  obtain ⟨d1, d2, _, d4, _⟩ := putchar_comma H _ NMEA_RMC 8 j1 c2 (by decide) (by decide)
  have d1' : ∀ x : NMEAGPS, (feed H x [44]).2 = (putchar H x 44).2 := fun x => by
    simp [feed_cons, feed_nil]
  have d2' : ∀ x : NMEAGPS, (feed H x [44]).1 = (putchar H x 44).1 := fun x => rfl
  obtain ⟨f1, f2, f3, f4, f5, f6⟩ := feed_rmc_date H _ d2
  -- the last two fields
  obtain ⟨k1, k2, _, _, k5⟩ := feed_field_chars H NMEA_RMC 10 (by decide) (bytes "003.1")
    (by decide) _ 0 f2 (by decide)
  have k4 := feed_field_status H NMEA_RMC 10 (by decide) (by decide) (bytes "003.1")
    (by decide) _ f2 (by decide)
  obtain ⟨l1, ⟨j2, l2⟩, _, l4, l5⟩ := feed_fields H NMEA_RMC (by decide) [bytes "W"]
    (by decide) _ 10 _ k2 (by decide) (by decide)
  obtain ⟨k5a, k5b, k5c⟩ := k5 (by decide) (by decide)
  obtain ⟨l5a, l5b, l5c⟩ := l5 (by decide) (fun _ => Or.inl (by decide))
  -- the checksum
  have hdata : ∀ c ∈ rmcBody, isData c := by decide
  obtain ⟨_, _, x3, _⟩ := feed_data H rmcBody hdata (rxBegin g) rfl (show (0 : Nat) < 256 by decide)
  have hbeg : ∀ w, feed H g (36 :: w) = feed H (rxBegin g) w := feed_dollar H g
  have hx : xorFrom (rxBegin g).crc rmcBody = 0x6A := by
    show xorFrom 0 rmcBody = 0x6A
    decide
  rw [← hbeg, hx] at x3
  -- assembling
  have hsnd : (feed H g (36 :: rmcBody)).2 = [] := by
    rw [e, feed_append_snd _ _ _ _ a1, feed_append_snd _ _ _ _ b1, feed_append_snd _ _ _ _ c1,
      feed_append_snd _ _ _ _ ((d1' _).trans d1), d2', feed_append_snd _ _ _ _ f1,
      feed_append_snd _ _ _ _ k1, l1]
  have hst : (feed H g (36 :: rmcBody)).1.rxState = NMEA_RECEIVING_DATA := by
    rw [e]; simp only [feed_append_fst, d2']; exact l2.1
  refine ⟨hsnd, hst, ?_, x3 hst, ?_, ?_, ?_, ?_⟩
  · rw [e]; simp only [feed_append_fst, d2']; exact l2.2.1
  · rw [e]; simp only [feed_append_fst, d2']
    rw [l4]
    show (feed H _ (bytes "003.1")).1.m_fix.status = _
    rw [k4]
    show (feed H _ (bytes "230394,")).1.m_fix.status = _
    rw [f3, d4 (by decide), c4]
  · rw [e]; simp only [feed_append_fst, d2']; rw [l5a, k5a, f4]
  · rw [e]; simp only [feed_append_fst, d2']; rw [l5b, k5b, f5]
  · rw [e]; simp only [feed_append_fst, d2']; rw [l5c, k5c, f6]

/-! ## The end of a sentence -/

/-- What `rxEnd( true )` does, by sentence type. -/
theorem rxEnd_true (H : NMEAGPS_h) (g : NMEAGPS) :
    rxEnd H g true =
      match g.nmeaMessage with
      | NMEA_RMC | NMEA_GGA | NMEA_GLL | NMEA_VTG =>
        if g.m_fix.status = GPS_FIX_NONE then ({ g with rxState := NMEA_IDLE }, [])
        else
          ({ g with
              rxState := NMEA_IDLE
              m_fix := { g.m_fix with valid := flagsSetBy g.nmeaMessage g.m_fix.valid } },
            [g.nmeaMessage])
      | NMEA_ZDA =>
        if H.is_valid g.m_fix.dateTime = true then
          ({ g with
              rxState := NMEA_IDLE
              m_fix := { g.m_fix with valid := { g.m_fix.valid with dateTime := true } } },
            [NMEA_ZDA])
        else ({ g with rxState := NMEA_IDLE }, [])
      | NMEA_GSA | NMEA_GSV | NMEA_UNKNOWN => ({ g with rxState := NMEA_IDLE }, [g.nmeaMessage]) := by
  obtain ⟨rx, crc, msg, fi, cc, dec, neg, fix⟩ := g
  cases msg <;> simp [rxEnd, flagsSetBy] <;> split_ifs <;> simp_all

/-- The checksum part and the line end, after the body of a sentence. -/
theorem feed_tail (H : NMEAGPS_h) (g : NMEAGPS) (h l : Nat)
    (hs : g.rxState = NMEA_RECEIVING_DATA) (hh : h ≠ 36) (hl : l ≠ 36) :
    feed H g [42, h, l, CR, LF] =
      if g.crc >>> 4 = parseHEX h ∧ g.crc &&& 0x0F = parseHEX l then rxEnd H g true
      else rxEnd H g false := by
  have i1 : ∀ (x : NMEAGPS) (ok : Bool), feed H (rxEnd H x ok).1 [CR, LF] = ((rxEnd H x ok).1, []) :=
    fun x ok => feed_idle H _ _ (rxEnd_rxState H x ok) (by decide)
  have i2 : ∀ (x : NMEAGPS) (ok : Bool), feed H (rxEnd H x ok).1 [l, CR, LF] = ((rxEnd H x ok).1, []) :=
    fun x ok => feed_idle H _ _ (rxEnd_rxState H x ok) (by
      intro c hc
      simp only [List.mem_cons, List.mem_singleton, List.not_mem_nil, or_false] at hc
      rcases hc with rfl | rfl | rfl
      · exact hl
      · decide
      · decide)
  have s1 : putchar H g 42 = ({ g with rxState := NMEA_RECEIVING_CRC1 }, []) := by
    simp [putchar, hs]
  rw [feed_cons, s1]
  simp only [List.nil_append]
  by_cases c1 : g.crc >>> 4 = parseHEX h
  · have s2 : putchar H { g with rxState := NMEA_RECEIVING_CRC1 } h =
        ({ g with rxState := NMEA_RECEIVING_CRC2 }, []) := by
      simp [putchar, hh, c1]
    rw [feed_cons, s2]
    simp only [List.nil_append]
    by_cases c2 : g.crc &&& 0x0F = parseHEX l
    · have s3 : putchar H { g with rxState := NMEA_RECEIVING_CRC2 } l = rxEnd H g true := by
        simp [putchar, hl, c2, rxEnd_set_rxState]
      rw [feed_cons, s3, i1, if_pos ⟨c1, c2⟩]
      simp
    · have s3 : putchar H { g with rxState := NMEA_RECEIVING_CRC2 } l = rxEnd H g false := by
        simp [putchar, hl, c2, rxEnd_set_rxState]
      rw [feed_cons, s3, i1, if_neg (fun hc => c2 hc.2)]
      simp
  · have s2 : putchar H { g with rxState := NMEA_RECEIVING_CRC1 } h = rxEnd H g false := by
      simp [putchar, hh, c1, rxEnd_set_rxState]
    rw [feed_cons, s2, i2, if_neg (fun hc => c1 hc.1)]
    simp

set_option maxRecDepth 100000 in
/-- The bytes that `parseHEX` reads as 6 are `6` and the control character `0x16`. -/
theorem parseHEX_byte_ne_six (c : Nat) (h1 : c < 256) (h2 : c ≠ 54) (h3 : c ≠ 22) :
    parseHEX c ≠ 6 := by
  have key : ∀ x, x < 256 → x ≠ 54 → x ≠ 22 → parseHEX x ≠ 6 := by decide
  exact key c h1 h2 h3

/-! ## Single-bit errors -/

theorem xorFrom_eq (k : Nat) (b : List Nat) : xorFrom k b = k ^^^ xorFrom 0 b := by
  induction b generalizing k with
  | nil => simp [xorFrom]
  | cons c cs ih =>
    have h1 : xorFrom k (c :: cs) = xorFrom (k ^^^ c) cs := rfl
    have h2 : xorFrom 0 (c :: cs) = xorFrom (0 ^^^ c) cs := rfl
    rw [h1, h2, ih (k ^^^ c), ih (0 ^^^ c), Nat.zero_xor, Nat.xor_assoc]

theorem xorFrom_set (b : List Nat) (i v : Nat) (hi : i < b.length) (k : Nat) :
    xorFrom k (b.set i v) = xorFrom k b ^^^ (b.getD i 0 ^^^ v) := by
  induction b generalizing i k with
  | nil => simp at hi
  | cons c cs ih =>
    cases i with
    | zero =>
      show xorFrom (k ^^^ v) cs = xorFrom (k ^^^ c) cs ^^^ (c ^^^ v)
      rw [xorFrom_eq (k ^^^ v), xorFrom_eq (k ^^^ c)]
      have : ∀ a b c d : Nat, a ^^^ b ^^^ c = a ^^^ d ^^^ c ^^^ (d ^^^ b) := by
        intro a b c d
        apply Nat.eq_of_testBit_eq
        intro j
        simp only [Nat.testBit_xor]
        cases a.testBit j <;> cases b.testBit j <;> cases c.testBit j <;> cases d.testBit j <;> rfl
      exact this k v _ c
    | succ i =>
      simp only [List.length_cons] at hi
      show xorFrom (k ^^^ c) (cs.set i v) = xorFrom (k ^^^ c) cs ^^^ (cs.getD i 0 ^^^ v)
      exact ih i (by omega) (k ^^^ c)

theorem checksum_flipBit (b : List Nat) (i k : Nat) (hi : i < b.length) :
    checksum (flipBit b i k) = checksum b ^^^ 2 ^ k := by
  unfold checksum flipBit
  rw [xorFrom_set b i _ hi]
  apply Nat.eq_of_testBit_eq
  intro j
  simp only [Nat.testBit_xor]
  cases (xorFrom 0 b).testBit j <;> cases (b.getD i 0).testBit j <;> cases (2 ^ k).testBit j <;> rfl

theorem xor_pow_ne (x k : Nat) : x ^^^ 2 ^ k ≠ x := by
  intro h
  have h1 : (x ^^^ 2 ^ k).testBit k = x.testBit k := by rw [h]
  rw [Nat.testBit_xor, Nat.testBit_two_pow_self] at h1
  cases hx : x.testBit k <;> simp [hx] at h1

theorem nibbles_eq (a b : Nat) (h1 : a >>> 4 = b >>> 4) (h2 : a &&& 0x0F = b &&& 0x0F) :
    a = b := by
  have e1 : ∀ x : Nat, x &&& 0x0F = x % 16 := fun x => Nat.and_pow_two_sub_one_eq_mod x 4
  rw [e1, e1] at h2
  rw [Nat.shiftRight_eq_div_pow, Nat.shiftRight_eq_div_pow] at h1
  omega

theorem isData_flipBit (b : List Nat) (i k : Nat) (hb : ∀ c ∈ b, isData c)
    (hflip : isData (b.getD i 0 ^^^ 2 ^ k)) : ∀ c ∈ flipBit b i k, isData c := by
  intro c hc
  unfold flipBit at hc
  rcases List.mem_or_eq_of_mem_set hc with h | h
  · exact hb c h
  · rw [h]; exact hflip

/-- The notifications of a whole sentence, by what its body leaves. -/
theorem feed_sentence (H : NMEAGPS_h) (g : NMEAGPS) (body : List Nat) (h l : Nat)
    (hb : ∀ c ∈ body, isData c) (hh : h ≠ 36) (hl : l ≠ 36) :
    ((feed H g (sentence body h l)).2 ≠ [] →
      checksum body >>> 4 = parseHEX h ∧ checksum body &&& 0x0F = parseHEX l) ∧
    (¬ (checksum body >>> 4 = parseHEX h ∧ checksum body &&& 0x0F = parseHEX l) →
      (feed H g (sentence body h l)).2 = []) := by
  obtain ⟨q1, q2, q3, _⟩ := feed_data H body hb (rxBegin g) rfl (show (0 : Nat) < 256 by decide)
  have e : feed H g (sentence body h l) =
      feed H (feed H (rxBegin g) body).1 [42, h, l, CR, LF] := by
    unfold sentence
    simp only [Char.reduceToNat]
    rw [feed_dollar, feed_append, q1]
    rfl
  rw [e]
  rcases q2 with q2 | q2
  · have hc : (feed H (rxBegin g) body).1.crc = checksum body := q3 q2
    rw [feed_tail H _ h l q2 hh hl, hc]
    by_cases hm : checksum body >>> 4 = parseHEX h ∧ checksum body &&& 0x0F = parseHEX l
    · exact ⟨fun _ => hm, fun hn => absurd hm hn⟩
    · rw [if_neg hm, rxEnd_false]
      exact ⟨fun hn => absurd rfl hn, fun _ => rfl⟩
  · have := feed_idle H (feed H (rxBegin g) body).1 [42, h, l, CR, LF] q2 (by
      intro c hc
      simp only [List.mem_cons, List.mem_singleton, List.not_mem_nil, or_false] at hc
      rcases hc with rfl | rfl | rfl | rfl | rfl
      · decide
      · exact hh
      · exact hl
      · decide
      · decide)
    rw [this]
    exact ⟨fun hn => absurd rfl hn, fun _ => rfl⟩

/-! ## Sentences without a fix -/

theorem fieldStatus_V (m : nmea_msg_t) (i : Nat) (hfix : fixField m i) (s : gps_fix_status_t) :
    fieldStatus m i [86] s = GPS_FIX_NONE := by
  unfold fieldStatus
  rw [if_pos hfix]
  rfl

theorem fieldStatus_none (m : nmea_msg_t) (i : Nat) (f : List Nat)
    (hhead : fixField m i → ∀ c, f.head? = some c → c ≠ 65 ∧ c ≠ 68 ∧ c ≠ 69) :
    fieldStatus m i f GPS_FIX_NONE = GPS_FIX_NONE := by
  unfold fieldStatus
  by_cases hfix : fixField m i
  · rw [if_pos hfix]
    cases f with
    | nil => rfl
    | cons c cs =>
      obtain ⟨h1, h2, h3⟩ := hhead hfix c rfl
      simp [fixStatus, h1, h2, h3]
  · rw [if_neg hfix]

/-- After a fix-status field `V` the status stays "no fix" as long as no later fix-status
field starts with `A`, `D` or `E`. -/
theorem fieldsStatus_none (m : nmea_msg_t) (k : Nat) (hk : fixField m k)
    (fs : List (List Nat)) (i : Nat) (s : gps_fix_status_t)
    (hs : k ≤ i → s = GPS_FIX_NONE)
    (hV : i < k → fs[k - 1 - i]? = some [86])
    (hlater : ∀ p f, fs[p]? = some f → k < i + p + 1 → fixField m (i + p + 1) →
      ∀ c, f.head? = some c → c ≠ 65 ∧ c ≠ 68 ∧ c ≠ 69) :
    fieldsStatus m i fs s = GPS_FIX_NONE := by
  induction fs generalizing i s with
  | nil =>
    by_cases h : i < k
    · have := hV h
      simp at this
    · exact hs (by omega)
  | cons f rest ih =>
    show fieldsStatus m (i + 1) rest (fieldStatus m (i + 1) f s) = _
    apply ih
    · intro hle
      by_cases h : k = i + 1
      · have hv := hV (by omega)
        have e : k - 1 - i = 0 := by omega
        rw [e] at hv
        simp only [List.getElem?_cons_zero, Option.some.injEq] at hv
        rw [hv, ← h]
        exact fieldStatus_V m k hk s
      · rw [hs (by omega)]
        apply fieldStatus_none
        intro hfix c hc
        exact hlater 0 f (by simp) (by omega) hfix c hc
    · intro hlt
      have hv := hV (by omega)
      have e : k - 1 - i = (k - 1 - (i + 1)) + 1 := by omega
      rw [e] at hv
      simpa using hv
    · intro p f1 hp hlt hfix c hc
      have e : i + 1 + p + 1 = i + (p + 1) + 1 := by omega
      rw [e] at hfix
      exact hlater (p + 1) f1 (by simpa using hp) (by omega) hfix c hc

/-- Without a fix, the sentences that need one push nothing at their end. -/
theorem feed_tail_no_fix (H : NMEAGPS_h) (g : NMEAGPS) (h l : Nat)
    (hs : g.rxState = NMEA_RECEIVING_DATA) (hh : h ≠ 36) (hl : l ≠ 36)
    (hm : g.nmeaMessage = NMEA_RMC ∨ g.nmeaMessage = NMEA_GLL ∨ g.nmeaMessage = NMEA_VTG)
    (hst : g.m_fix.status = GPS_FIX_NONE) :
    (feed H g [42, h, l, CR, LF]).2 = [] := by
  rw [feed_tail H g h l hs hh hl]
  split_ifs
  · rw [rxEnd_true]
    rcases hm with hm | hm | hm <;> rw [hm] <;> simp only [] <;> rw [if_pos hst]
  · rw [rxEnd_false]

/-! ## The transient flags -/

theorem shifted_ite (d : Nat) (n : Bool) (c : Prop) [Decidable c] (x y x1 y1 : NMEAGPS × Bool)
    (hx : c → shifted d n x x1) (hy : ¬ c → shifted d n y y1) :
    shifted d n (if c then x else y) (if c then x1 else y1) := by
  split_ifs with h
  · exact hx h
  · exact hy h

theorem parseTimeField_shift (d : Nat) (n : Bool) (g : NMEAGPS) (c : Nat) :
    shifted d n (parseTimeField g c) (parseTimeField (shift d n g) c) := by
  unfold parseTimeField
  simp only []
  repeat' first
    | (apply shifted_ite <;> intro _)
    | exact rfl

theorem parseFix_shift (d : Nat) (n : Bool) (g : NMEAGPS) (c : Nat) :
    shifted d n (parseFix g c) (parseFix (shift d n g) c) := by
  unfold parseFix
  repeat' first
    | (apply shifted_ite <;> intro _)
    | exact rfl

theorem parseNS_shift (d : Nat) (n : Bool) (g : NMEAGPS) (c : Nat) :
    shifted d n (parseNS g c) (parseNS (shift d n g) c) := by
  unfold parseNS
  repeat' first
    | (apply shifted_ite <;> intro _)
    | exact rfl

theorem parseEW_shift (d : Nat) (n : Bool) (g : NMEAGPS) (c : Nat) :
    shifted d n (parseEW g c) (parseEW (shift d n g) c) := by
  unfold parseEW
  repeat' first
    | (apply shifted_ite <;> intro _)
    | exact rfl

/-- Outside the fields of `parseFloat` and `parseDDMM` the transient flags are neither
read nor written. -/
theorem parseField_shift (H : NMEAGPS_h) (d : Nat) (n : Bool) (g : NMEAGPS) (c : Nat)
    (hf : g.fieldIndex ≠ 0) (hu : ¬ usesTransient g.nmeaMessage g.fieldIndex) :
    shifted d n (parseField H g c) (parseField H (shift d n g) c) := by
  have hz := parseTimeField_shift d n
    { g with m_fix := { g.m_fix with
        dateTime := { g.m_fix.dateTime with date := 0, month := 0, year := 0 } } } c
  obtain ⟨rx, crc, msg, fi, cc, dec, neg, fix⟩ := g
  simp only at hf hu
  unfold parseField
  have e1 : (shift d n ⟨rx, crc, msg, fi, cc, dec, neg, fix⟩).fieldIndex = fi := rfl
  rw [e1, if_neg hf, if_neg hf]
  cases msg
  all_goals
    simp only [shift]
    repeat' first
      | (with_reducible apply shifted_ite <;> intro _)
      | with_reducible exact rfl
      | exact parseTimeField_shift d n _ c
      | exact parseFix_shift d n _ c
      | exact parseNS_shift d n _ c
      | exact parseEW_shift d n _ c
      | exact hz
      | (exfalso; simp_all [usesTransient]; done)
      | exact rfl

theorem parseFloat_init (d : Nat) (n : Bool) (g : NMEAGPS) (v : whole_frac) (c m : Nat)
    (hcc : g.chrCount = 0) : parseFloat (shift d n g) v c m = parseFloat g v c m := by
  have e : (shift d n g).chrCount = 0 := hcc
  unfold parseFloat
  rw [if_pos hcc, if_pos e]
  by_cases h : c = '-'.toNat
  · rw [if_pos h, if_pos h]; rfl
  · rw [if_neg h, if_neg h]; rfl

theorem parseSpeed_init (d : Nat) (n : Bool) (g : NMEAGPS) (c : Nat) (hcc : g.chrCount = 0) :
    parseSpeed (shift d n g) c = parseSpeed g c := by
  unfold parseSpeed
  rw [parseFloat_init d n g _ c 3 hcc]
  rfl

theorem parseHeading_init (d : Nat) (n : Bool) (g : NMEAGPS) (c : Nat)
    (hcc : g.chrCount = 0) : parseHeading (shift d n g) c = parseHeading g c := by
  unfold parseHeading
  rw [parseFloat_init d n g _ c 2 hcc]
  rfl

theorem shiftedG_ite (d : Nat) (n : Bool) (c : Prop) [Decidable c] (x y x1 y1 : NMEAGPS)
    (hx : shiftedG d n x x1) (hy : shiftedG d n y y1) :
    shiftedG d n (if c then x else y) (if c then x1 else y1) := by
  split_ifs
  · exact hx
  · exact hy

theorem parseCommand_shift (d : Nat) (n : Bool) (g : NMEAGPS) (c : Nat) :
    (parseCommand (shift d n g) c).1 = shift d n (parseCommand g c).1 := by
  show shiftedG d n (parseCommand g c).1 (parseCommand (shift d n g) c).1
  unfold parseCommand
  simp only []
  repeat' first
    | apply shiftedG_ite
    | exact rfl

theorem rxEnd_shift (H : NMEAGPS_h) (d : Nat) (n : Bool) (g : NMEAGPS) (ok : Bool) :
    rxEnd H (shift d n g) ok = (shift d n (rxEnd H g ok).1, (rxEnd H g ok).2) := by
  obtain ⟨rx, crc, msg, fi, cc, dec, neg, fix⟩ := g
  cases ok
  · rfl
  · cases msg <;> simp only [rxEnd, shift] <;> split_ifs <;> rfl

theorem putchar_star (H : NMEAGPS_h) (g : NMEAGPS)
    (hs : g.rxState = NMEA_RECEIVING_DATA) :
    putchar H g 42 = ({ g with rxState := NMEA_RECEIVING_CRC1 }, []) := by
  simp [putchar, hs]

theorem putchar_eol (H : NMEAGPS_h) (g : NMEAGPS) (c : Nat)
    (hs : g.rxState = NMEA_RECEIVING_DATA) (hc : c = CR ∨ c = LF) :
    putchar H g c = rxEnd H g true := by
  have h1 : c ≠ 36 := by unfold CR LF at hc; omega
  have h2 : c ≠ 42 := by unfold CR LF at hc; omega
  simp [putchar, hs, h1, h2, hc]

theorem putchar_bad (H : NMEAGPS_h) (g : NMEAGPS) (c : Nat)
    (hs : g.rxState = NMEA_RECEIVING_DATA) (hc : c < 32 ∨ 126 < c)
    (he : ¬ (c = CR ∨ c = LF)) : putchar H g c = rxEnd H g false := by
  have h1 : c ≠ 36 := by omega
  have h2 : c ≠ 42 := by omega
  simp [putchar, hs, h1, h2, hc, he]

theorem putchar_crc1 (H : NMEAGPS_h) (g : NMEAGPS) (c : Nat)
    (hs : g.rxState = NMEA_RECEIVING_CRC1) (hc : c ≠ 36) :
    putchar H g c =
      if g.crc >>> 4 ≠ parseHEX c then rxEnd H g false
      else ({ g with rxState := NMEA_RECEIVING_CRC2 }, []) := by
  simp [putchar, hs, hc]

theorem putchar_crc2 (H : NMEAGPS_h) (g : NMEAGPS) (c : Nat)
    (hs : g.rxState = NMEA_RECEIVING_CRC2) (hc : c ≠ 36) :
    putchar H g c =
      if g.crc &&& 0x0F ≠ parseHEX c then rxEnd H g false else rxEnd H g true := by
  simp [putchar, hs, hc]

/-! ## One step of the receiver, by cases -/

/-- Every result of `putchar` is one of: a restart, no change, a change of the receiver
state alone, the end of the sentence, or a data step. -/
theorem putchar_cases (H : NMEAGPS_h) (g : NMEAGPS) (c : Nat)
    (P : NMEAGPS × List nmea_msg_t → Prop)
    (h1 : P (rxBegin g, [])) (h2 : P (g, []))
    (h3 : ∀ s, P ({ g with rxState := s }, []))
    (h4 : ∀ ok, P (rxEnd H g ok))
    (h5 : g.rxState = NMEA_RECEIVING_DATA → isData c → P (putchar H g c)) :
    P (putchar H g c) := by
  by_cases h36 : c = 36
  · subst h36
    rw [putchar_dollar]
    exact h1
  cases hrx : g.rxState
  · rw [putchar_idle H g c hrx h36]
    exact h2
  · by_cases h42 : c = 42
    · subst h42
      rw [putchar_star H g hrx]
      exact h3 _
    by_cases he : c = CR ∨ c = LF
    · rw [putchar_eol H g c hrx he]
      exact h4 _
    by_cases hb : c < 32 ∨ 126 < c
    · rw [putchar_bad H g c hrx hb he]
      exact h4 _
    · have lo : ' '.toNat ≤ c := by simp only [Char.reduceToNat]; omega
      have hi : c ≤ '~'.toNat := by simp only [Char.reduceToNat]; omega
      exact h5 hrx ⟨lo, hi, h36, h42⟩
  · rw [putchar_crc1 H g c hrx h36]
    by_cases hk : g.crc >>> 4 ≠ parseHEX c
    · rw [if_pos hk]; exact h4 _
    · rw [if_neg hk]; exact h3 _
  · rw [putchar_crc2 H g c hrx h36]
    by_cases hk : g.crc &&& 0x0F ≠ parseHEX c
    · rw [if_pos hk]; exact h4 _
    · rw [if_neg hk]; exact h4 _

theorem validKept_ite (c : Prop) [Decidable c] (a b g : NMEAGPS)
    (ha : validKept a g) (hb : validKept b g) : validKept (if c then a else b) g := by
  split_ifs <;> assumption

theorem parseCommand_valid (g : NMEAGPS) (c : Nat) : validKept (parseCommand g c).1 g := by
  unfold parseCommand
  simp only []
  repeat' first
    | with_reducible apply validKept_ite
    | exact Or.inl rfl
    | exact Or.inr rfl

theorem parseField_valid (H : NMEAGPS_h) (g : NMEAGPS) (c : Nat) :
    validKept (parseField H g c).1 g := by
  by_cases hf : g.fieldIndex = 0
  · have e : parseField H g c = parseCommand g c := by
      unfold parseField
      simp only []
      rw [if_pos hf]
    rw [e]
    exact parseCommand_valid g c
  · exact Or.inl (parseField_frame H g c hf).2.2.2.2.2

/-- The end of a sentence that pushes nothing sets no validity flag. -/
theorem rxEnd_quiet (H : NMEAGPS_h) (g : NMEAGPS) (ok : Bool) (h : (rxEnd H g ok).2 = []) :
    (rxEnd H g ok).1.m_fix.valid = g.m_fix.valid := by
  cases ok
  · rw [rxEnd_false]
  · rw [rxEnd_true] at h ⊢
    cases hm : g.nmeaMessage <;> rw [hm] at h <;> simp only [] at h ⊢ <;>
      split_ifs at h ⊢ <;> rfl

/-- The end of a sentence idles the receiver and pushes at most one notification. -/
theorem rxEnd_notes (H : NMEAGPS_h) (g : NMEAGPS) (ok : Bool) :
    (rxEnd H g ok).2.length ≤ 1 := by
  cases ok
  · rw [rxEnd_false]; simp
  · rw [rxEnd_true]
    cases hm : g.nmeaMessage <;> simp only [] <;> (try split_ifs) <;> simp

theorem putchar_valid (H : NMEAGPS_h) (g : NMEAGPS) (c : Nat) (h : (putchar H g c).2 = []) :
    validKept (putchar H g c).1 g := by
  revert h
  apply putchar_cases H g c (fun r => r.2 = [] → validKept r.1 g)
  · exact fun _ => Or.inl rfl
  · exact fun _ => Or.inl rfl
  · exact fun _ _ => Or.inl rfl
  · exact fun ok h => Or.inl (rxEnd_quiet H g ok h)
  · intro hs hc _
    have key := parseField_valid H { g with crc := (g.crc ^^^ c) % 256 } c
    rw [putchar_data H g c hs hc]
    by_cases hcomma : c = 44
    · rw [if_pos hcomma]; exact key
    · rw [if_neg hcomma]; exact key

/-- One byte pushes nothing, or it pushes one notification and idles the receiver. -/
theorem putchar_notes (H : NMEAGPS_h) (g : NMEAGPS) (c : Nat) :
    (putchar H g c).2 = [] ∨
      ((putchar H g c).2.length = 1 ∧ (putchar H g c).1.rxState = NMEA_IDLE) := by
  apply putchar_cases H g c (fun r => r.2 = [] ∨ (r.2.length = 1 ∧ r.1.rxState = NMEA_IDLE))
  · exact Or.inl rfl
  · exact Or.inl rfl
  · exact fun _ => Or.inl rfl
  · intro ok
    have h := rxEnd_notes H g ok
    rcases hl : (rxEnd H g ok).2 with _ | ⟨a, l⟩
    · exact Or.inl rfl
    · rw [hl] at h
      right
      refine ⟨?_, rxEnd_rxState H g ok⟩
      simp only [List.length_cons] at h ⊢
      omega
  · intro hs hc
    exact Or.inl (putchar_data_any H g c hs hc).1

/-- Without a `$` a byte sequence pushes at most one notification. -/
theorem feed_notes (H : NMEAGPS_h) (w : List Nat) (hw : ∀ c ∈ w, c ≠ 36) (g : NMEAGPS) :
    (feed H g w).2.length ≤ 1 := by
  induction w generalizing g with
  | nil => simp [feed]
  | cons c cs ih =>
    have hcs : ∀ x ∈ cs, x ≠ 36 := fun x hx => hw x (List.mem_cons_of_mem _ hx)
    rw [feed_cons]
    rcases putchar_notes H g c with h | ⟨h1, h2⟩
    · rw [h]
      exact ih hcs _
    · rw [feed_idle H _ cs h2 hcs]
      simp only [List.append_nil]
      omega

/-! ## Names of any characters -/

/-- A byte of a name that is not a data character ends the sentence in failure. -/
theorem putchar_name_bad (H : NMEAGPS_h) (g : NMEAGPS) (c : Nat)
    (hs : g.rxState = NMEA_RECEIVING_DATA)
    (hc : c ≠ 36 ∧ c ≠ 44 ∧ c ≠ 42 ∧ c ≠ CR ∧ c ≠ LF) (hd : ¬ isData c) :
    putchar H g c = ({ g with rxState := NMEA_IDLE }, []) := by
  have hb : c < 32 ∨ 126 < c := by
    unfold isData at hd
    simp only [Char.reduceToNat] at hd
    omega
  rw [putchar_bad H g c hs hb (by tauto), rxEnd_false]

/-- The characters of a name, data characters or not: nothing is pushed, and the parser
follows `nameRun` or idles. -/
theorem feed_name_any (H : NMEAGPS_h) (n : List Nat)
    (hn : ∀ c ∈ n, c ≠ 36 ∧ c ≠ 44 ∧ c ≠ 42 ∧ c ≠ CR ∧ c ≠ LF)
    (g : NMEAGPS) (m : nmea_msg_t) (k : Nat) (hat : atField g m 0 k) :
    (feed H g n).2 = [] ∧
    ((feed H g n).1.rxState = NMEA_IDLE ∨
      ∃ k1 m1, nameRun k m n = some (k1, m1) ∧ atField (feed H g n).1 m1 0 k1) := by
  induction n generalizing g m k with
  | nil => exact ⟨rfl, Or.inr ⟨k, m, rfl, hat⟩⟩
  | cons c cs ih =>
    have hc := hn c (List.mem_cons_self _ _)
    have hcs : ∀ x ∈ cs, x ≠ 36 ∧ x ≠ 44 ∧ x ≠ 42 ∧ x ≠ CR ∧ x ≠ LF :=
      fun x hx => hn x (List.mem_cons_of_mem _ hx)
    have hcs36 : ∀ x ∈ cs, x ≠ 36 := fun x hx => (hcs x hx).1
    by_cases hd : isData c
    · obtain ⟨p1, p2, p3, p4, p5⟩ := putchar_name H g c m k hat hd
      rw [if_neg hc.2.1] at p4 p5
      rw [feed_cons, p1]
      by_cases hr : (parseCommand (nameProbe k m) c).1.rxState = NMEA_RECEIVING_DATA
      · have hat1 : atField (putchar H g c).1 (parseCommand (nameProbe k m) c).1.nmeaMessage 0
            ((k + 1) % 256) := ⟨p2.trans hr, p3, p4, p5⟩
        obtain ⟨q1, q2⟩ := ih hcs (putchar H g c).1 _ _ hat1
        refine ⟨by simpa using q1, ?_⟩
        rcases q2 with q2 | ⟨k1, m1, q2, q3⟩
        · exact Or.inl q2
        · refine Or.inr ⟨k1, m1, ?_, q3⟩
          simp only [nameRun]
          rw [if_pos hr]
          exact q2
      · have hidle : (putchar H g c).1.rxState = NMEA_IDLE := by
          obtain ⟨_, _, _, _, _, f6, _⟩ := parseCommand_frame (nameProbe k m) c
          rw [p2]
          rcases f6 with f6 | f6
          · exact absurd (f6.trans rfl) hr
          · exact f6
        rw [feed_idle H (putchar H g c).1 cs hidle hcs36]
        exact ⟨rfl, Or.inl hidle⟩
    · rw [feed_cons, putchar_name_bad H g c hat.1 hc hd]
      rw [feed_idle H _ cs rfl hcs36]
      exact ⟨rfl, Or.inl rfl⟩

/-- Every beginning after which the receiver still takes data begins a recognised name. -/
theorem live_beginsName (n : List Nat) (k : Nat) (m : nmea_msg_t)
    (h : (n, k, m) ∈ livePrefixes) : beginsName n := by
  have all : ∀ x ∈ livePrefixes, beginsName x.1 := by decide
  exact all _ h

/-- A comma after a name that is not recognised idles the receiver. -/
theorem putchar_name_comma (H : NMEAGPS_h) (n : List Nat) (hn : ∀ c ∈ n, c ≠ 44)
    (hname : ∀ p ∈ sentenceNames, n ≠ p.1) (g : NMEAGPS) (k1 : Nat) (m1 : nmea_msg_t)
    (hr : nameRun 0 NMEA_UNKNOWN n = some (k1, m1)) (hat : atField g m1 0 k1) :
    (putchar H g 44).2 = [] ∧ (putchar H g 44).1.rxState = NMEA_IDLE := by
  have h44 : isData 44 := by decide
  obtain ⟨p1, p2, _, _, _⟩ := putchar_name H g 44 m1 k1 hat h44
  refine ⟨p1, ?_⟩
  have hnot : ¬ (parseCommand (nameProbe k1 m1) 44).1.rxState = NMEA_RECEIVING_DATA := by
    intro hd
    have e : nameResult n = some (parseCommand (nameProbe k1 m1) 44).1.nmeaMessage := by
      unfold nameResult
      rw [hr]
      simp only []
      rw [if_pos hd]
    exact hname _ ((nameResult_iff n hn _).mp e) rfl
  obtain ⟨_, _, _, _, _, f6, _⟩ := parseCommand_frame (nameProbe k1 m1) 44
  rw [p2]
  rcases f6 with f6 | f6
  · exact absurd (f6.trans rfl) hnot
  · exact f6

/-! ## The fixed-point decoder, character by character -/

theorem digitsFrom_cons (v : Int) (c : Nat) (ds : List Nat) :
    digitsFrom v (c :: ds) = digitsFrom (v * 10 + ((c : Int) - 48)) ds := rfl

theorem digitsFrom_nil (v : Int) : digitsFrom v [] = v := rfl

theorem isDigit_bounds (c : Nat) (hc : isDigit c) : 48 ≤ c ∧ c ≤ 57 := hc

theorem floatRun_cons (m : Nat) (g : NMEAGPS) (val : whole_frac) (i c : Nat) (cs : List Nat) :
    floatRun m g val i (c :: cs) =
      floatRun m (parseFloat { g with chrCount := i } val c m).1
        (parseFloat { g with chrCount := i } val c m).2 ((i + 1) % 256) cs := rfl

/-- After offset 0 `parseFloat` is its second part. -/
theorem parseFloat_later (g : NMEAGPS) (val : whole_frac) (i c m : Nat) (hi : 0 < i) :
    parseFloat { g with chrCount := i } val c m =
      parseFloatChar { g with chrCount := i } val c m := by
  unfold parseFloat
  rw [if_neg (show ¬ ({ g with chrCount := i } : NMEAGPS).chrCount = 0 from by
    show ¬ i = 0
    omega)]

/-- A digit before the decimal point. -/
theorem parseFloatChar_whole (g : NMEAGPS) (val : whole_frac) (c m : Nat) (hc : isDigit c)
    (hd : g.decimal = 0) :
    parseFloatChar g val c m = (g, ⟨val.whole * 10 + ((c : Int) - 48), val.frac⟩) := by
  obtain ⟨h1, h2⟩ := isDigit_bounds c hc
  unfold parseFloatChar
  simp only [Char.reduceToNat]
  rw [if_neg (by omega), if_neg (by omega), if_pos hd]
  rfl

/-- A digit after the decimal point, while fewer than `max_decimal` have been read. -/
theorem parseFloatChar_frac (g : NMEAGPS) (val : whole_frac) (c m : Nat) (hc : isDigit c)
    (hd : g.decimal ≠ 0) (hm : g.decimal ≤ m) :
    parseFloatChar g val c m =
      ({ g with decimal := (g.decimal + 1) % 256 },
        ⟨val.whole, val.frac * 10 + ((c : Int) - 48)⟩) := by
  obtain ⟨h1, h2⟩ := isDigit_bounds c hc
  unfold parseFloatChar
  simp only [Char.reduceToNat]
  rw [if_neg (by omega), if_neg (by omega), if_neg hd, if_pos hm]
  rfl

/-- The decimal point. -/
theorem parseFloatChar_point (g : NMEAGPS) (val : whole_frac) (m : Nat) :
    parseFloatChar g val 46 m = ({ g with decimal := 1 }, val) := by
  unfold parseFloatChar
  simp only [Char.reduceToNat, Nat.reduceEqDiff, ↓reduceIte]

/-- The scaling loop multiplies by ten once for each missing fractional digit. -/
theorem scaleUp_eq (m : Nat) (hm : m < 255) (fuel d : Nat) (frac : Int) (h1 : 1 ≤ d)
    (h2 : d ≤ m + 1) (h3 : m + 2 ≤ fuel + d) :
    (scaleUp m fuel d frac).2 = frac * 10 ^ (m + 1 - d) := by
  induction fuel generalizing d frac with
  | zero => omega
  | succ fuel ih =>
    unfold scaleUp
    by_cases hle : d ≤ m
    · rw [if_pos hle, Nat.mod_eq_of_lt (by omega), ih (d + 1) (frac * 10) (by omega) (by omega)
        (by omega)]
      have e : m + 1 - d = (m + 1 - (d + 1)) + 1 := by omega
      rw [e, pow_succ]
      ring
    · rw [if_neg hle]
      have e : m + 1 - d = 0 := by omega
      rw [e]
      simp

/-- The field terminator. -/
theorem parseFloatChar_end (g : NMEAGPS) (val : whole_frac) (m : Nat) (hm : m < 255)
    (hd : g.decimal ≤ m + 1) :
    (parseFloatChar g val 44 m).2 =
      signedValue g.negative val.whole (val.frac * 10 ^ (m + 1 - max g.decimal 1)) := by
  unfold parseFloatChar
  simp only [Char.reduceToNat, ↓reduceIte]
  have e : (if g.decimal = 0 then 1 else g.decimal) = max g.decimal 1 := by
    split_ifs with h
    · rw [h]; rfl
    · omega
  rw [e, scaleUp_eq m hm (m + 2) (max g.decimal 1) val.frac (by omega) (by omega) (by omega)]
  unfold signedValue
  cases g.negative <;> rfl

/-- Where `parseFloat` is its second part: after offset 0, or at offset 0 on a cleared
accumulator, for a character other than the sign. -/
theorem parseFloat_char (g : NMEAGPS) (val : whole_frac) (i c m : Nat)
    (hstart : 0 < i ∨ (g.decimal = 0 ∧ g.negative = false ∧ val = whole_frac.init))
    (hc : c ≠ 45) :
    parseFloat { g with chrCount := i } val c m =
      parseFloatChar { g with chrCount := i } val c m := by
  by_cases hi : 0 < i
  · exact parseFloat_later g val i c m hi
  · have hi0 : i = 0 := by omega
    obtain ⟨hd, hn, hv⟩ := hstart.resolve_left hi
    obtain ⟨rx, crc, msg, fi, cc, dec, neg, fix⟩ := g
    simp only [] at hd hn
    subst hi0 hd hn hv
    unfold parseFloat
    simp only [Char.reduceToNat, ↓reduceIte]
    rw [if_neg hc]

/-- The sign at offset 0. -/
theorem floatRun_sign (m : Nat) (g : NMEAGPS) (val : whole_frac) (cs : List Nat) :
    floatRun m g val 0 (45 :: cs) =
      floatRun m { g with chrCount := 0, decimal := 0, negative := true } whole_frac.init 1 cs := by
  rw [floatRun_cons]
  unfold parseFloat
  simp only [Char.reduceToNat, ↓reduceIte]

/-- The first character, at offset 0: the accumulator and the flags are cleared first. -/
theorem floatRun_start (m : Nat) (g : NMEAGPS) (val : whole_frac) (c : Nat) (cs : List Nat) :
    floatRun m g val 0 (c :: cs) =
      floatRun m { g with decimal := 0, negative := false } whole_frac.init 0 (c :: cs) := by
  rw [floatRun_cons, floatRun_cons]
  unfold parseFloat
  simp only [Char.reduceToNat, ↓reduceIte]

/-- The digits before the decimal point. -/
theorem floatRun_whole (m : Nat) (W : List Nat) (hW : ∀ c ∈ W, isDigit c) (rest : List Nat)
    (g : NMEAGPS) (val : whole_frac) (i : Nat)
    (hstart : 0 < i ∨ (g.decimal = 0 ∧ g.negative = false ∧ val = whole_frac.init))
    (hd : g.decimal = 0) (hlen : i + W.length ≤ 255) :
    ∃ g1 : NMEAGPS, g1.decimal = 0 ∧ g1.negative = g.negative ∧
      (0 < i + W.length ∨ (g1.decimal = 0 ∧ g1.negative = false ∧
        (⟨digitsFrom val.whole W, val.frac⟩ : whole_frac) = whole_frac.init)) ∧
      floatRun m g val i (W ++ rest) =
        floatRun m g1 ⟨digitsFrom val.whole W, val.frac⟩ (i + W.length) rest := by
  induction W generalizing g val i with
  | nil =>
    refine ⟨g, hd, rfl, ?_, rfl⟩
    rcases hstart with h | ⟨h1, h2, h3⟩
    · exact Or.inl h
    · exact Or.inr ⟨h1, h2, h3⟩
  | cons c W ih =>
    have hc := hW c (List.mem_cons_self _ _)
    have hW1 : ∀ x ∈ W, isDigit x := fun x hx => hW x (List.mem_cons_of_mem _ hx)
    have h45 : c ≠ 45 := by have := isDigit_bounds c hc; omega
    simp only [List.length_cons] at hlen
    obtain ⟨g1, e1, e2, _, e4⟩ := ih hW1 { g with chrCount := i }
      ⟨val.whole * 10 + ((c : Int) - 48), val.frac⟩ (i + 1) (Or.inl (by omega)) hd (by omega)
    refine ⟨g1, e1, e2, Or.inl (by simp), ?_⟩
    rw [List.cons_append, floatRun_cons, parseFloat_char g val i c m hstart h45,
      parseFloatChar_whole { g with chrCount := i } val c m hc hd,
      Nat.mod_eq_of_lt (show i + 1 < 256 by omega)]
    simp only []
    rw [e4, digitsFrom_cons, List.length_cons]
    have e : i + 1 + W.length = i + (W.length + 1) := by omega
    rw [e]

/-- The decimal point. -/
theorem floatRun_point (m : Nat) (rest : List Nat) (g : NMEAGPS) (val : whole_frac) (i : Nat)
    (hstart : 0 < i ∨ (g.decimal = 0 ∧ g.negative = false ∧ val = whole_frac.init))
    (hlen : i + 1 ≤ 255) :
    ∃ g1 : NMEAGPS, g1.decimal = 1 ∧ g1.negative = g.negative ∧
      floatRun m g val i (46 :: rest) = floatRun m g1 val (i + 1) rest := by
  refine ⟨{ g with chrCount := i, decimal := 1 }, rfl, rfl, ?_⟩
  rw [floatRun_cons, parseFloat_char g val i 46 m hstart (by decide), parseFloatChar_point,
    Nat.mod_eq_of_lt (show i + 1 < 256 by omega)]

/-- The digits after the decimal point, no more than `max_decimal` of them. -/
theorem floatRun_frac (m : Nat) (hm : m < 255) (F : List Nat) (hF : ∀ c ∈ F, isDigit c)
    (rest : List Nat) (g : NMEAGPS) (val : whole_frac) (i : Nat) (hi : 0 < i)
    (hd : 0 < g.decimal) (hlen : g.decimal + F.length ≤ m + 1) (hoff : i + F.length ≤ 255) :
    ∃ g1 : NMEAGPS, g1.decimal = g.decimal + F.length ∧ g1.negative = g.negative ∧
      floatRun m g val i (F ++ rest) =
        floatRun m g1 ⟨val.whole, digitsFrom val.frac F⟩ (i + F.length) rest := by
  induction F generalizing g val i with
  | nil => exact ⟨g, rfl, rfl, rfl⟩
  | cons c F ih =>
    have hc := hF c (List.mem_cons_self _ _)
    have hF1 : ∀ x ∈ F, isDigit x := fun x hx => hF x (List.mem_cons_of_mem _ hx)
    simp only [List.length_cons] at hlen hoff
    have hmod : (g.decimal + 1) % 256 = g.decimal + 1 := Nat.mod_eq_of_lt (by omega)
    obtain ⟨g1, e1, e2, e4⟩ := ih hF1
      { g with chrCount := i, decimal := (g.decimal + 1) % 256 }
      ⟨val.whole, val.frac * 10 + ((c : Int) - 48)⟩ (i + 1) (by omega)
      (by show 0 < (g.decimal + 1) % 256; omega)
      (by show (g.decimal + 1) % 256 + F.length ≤ m + 1; omega) (by omega)
    refine ⟨g1, ?_, e2, ?_⟩
    · rw [e1]
      show (g.decimal + 1) % 256 + F.length = g.decimal + (F.length + 1)
      omega
    · rw [List.cons_append, floatRun_cons, parseFloat_later g val i c m hi,
        parseFloatChar_frac { g with chrCount := i } val c m hc
          (by show g.decimal ≠ 0; omega) (by show g.decimal ≤ m; omega),
        Nat.mod_eq_of_lt (show i + 1 < 256 by omega)]
      simp only []
      rw [e4, digitsFrom_cons, List.length_cons]
      have e : i + 1 + F.length = i + (F.length + 1) := by omega
      rw [e]

/-- The field terminator. -/
theorem floatRun_end (m : Nat) (hm : m < 255) (g : NMEAGPS) (val : whole_frac) (i : Nat)
    (hstart : 0 < i ∨ (g.decimal = 0 ∧ g.negative = false ∧ val = whole_frac.init))
    (hd : g.decimal ≤ m + 1) :
    (floatRun m g val i [44]).2 =
      signedValue g.negative val.whole (val.frac * 10 ^ (m + 1 - max g.decimal 1)) := by
  rw [floatRun_cons, parseFloat_char g val i 44 m hstart (by decide)]
  exact parseFloatChar_end { g with chrCount := i } val m hm hd

/-- The optional sign: what follows it is decoded from a cleared accumulator. -/
theorem floatRun_signed (m : Nat) (g : NMEAGPS) (val : whole_frac) (neg : Bool)
    (body : List Nat) (hb : body ≠ []) :
    ∃ g0 : NMEAGPS, g0.decimal = 0 ∧ g0.negative = neg ∧
      (0 < (signChars neg).length ∨
        (g0.decimal = 0 ∧ g0.negative = false ∧ whole_frac.init = whole_frac.init)) ∧
      floatRun m g val 0 (signChars neg ++ body) =
        floatRun m g0 whole_frac.init (signChars neg).length body := by
  cases neg
  · obtain ⟨c, cs, rfl⟩ : ∃ c cs, body = c :: cs := by
      cases body with
      | nil => exact absurd rfl hb
      | cons c cs => exact ⟨c, cs, rfl⟩
    exact ⟨{ g with decimal := 0, negative := false }, rfl, rfl, Or.inr ⟨rfl, rfl, rfl⟩,
      floatRun_start m g val c cs⟩
  · exact ⟨{ g with chrCount := 0, decimal := 0, negative := true }, rfl, rfl,
      Or.inl (by decide), floatRun_sign m g val body⟩

/-- A signed number with a fractional part of at most `max_decimal` digits. -/
theorem floatRun_number (m : Nat) (hm : m < 255) (g : NMEAGPS) (val : whole_frac) (neg : Bool)
    (W F : List Nat) (hW : ∀ c ∈ W, isDigit c) (hF : ∀ c ∈ F, isDigit c)
    (hlen : F.length ≤ m)
    (hoff : (signChars neg).length + W.length + F.length + 2 ≤ 256) :
    (floatRun m g val 0 (signChars neg ++ (W ++ (46 :: (F ++ [44]))))).2 =
      signedValue neg (digitsValue W) (digitsValue F * 10 ^ (m - F.length)) := by
  obtain ⟨g0, a1, a2, a3, a4⟩ :=
    floatRun_signed m g val neg (W ++ (46 :: (F ++ [44]))) (by simp)
  obtain ⟨g1, b1, b2, b3, b4⟩ :=
    floatRun_whole m W hW (46 :: (F ++ [44])) g0 whole_frac.init (signChars neg).length a3 a1
      (by omega)
  obtain ⟨g2, c1, c2, c4⟩ := floatRun_point m (F ++ [44]) g1
    ⟨digitsFrom whole_frac.init.whole W, whole_frac.init.frac⟩
    ((signChars neg).length + W.length) b3 (by omega)
  obtain ⟨g3, d1, d2, d4⟩ := floatRun_frac m hm F hF [44] g2
    ⟨digitsFrom whole_frac.init.whole W, whole_frac.init.frac⟩
    ((signChars neg).length + W.length + 1) (by omega) (by omega) (by omega) (by omega)
  rw [a4, b4, c4, d4, floatRun_end m hm g3 _ _ (Or.inl (by omega)) (by omega)]
  rw [d2, c2, b2, a2, d1, c1]
  have e : m + 1 - max (1 + F.length) 1 = m - F.length := by omega
  rw [e]
  rfl

/-- A signed number without a fractional part. -/
theorem floatRun_integer (m : Nat) (hm : m < 255) (g : NMEAGPS) (val : whole_frac) (neg : Bool)
    (W : List Nat) (hW : ∀ c ∈ W, isDigit c)
    (hoff : (signChars neg).length + W.length + 1 ≤ 256) :
    (floatRun m g val 0 (signChars neg ++ (W ++ [44]))).2 =
      signedValue neg (digitsValue W) 0 := by
  obtain ⟨g0, a1, a2, a3, a4⟩ := floatRun_signed m g val neg (W ++ [44]) (by simp)
  obtain ⟨g1, b1, b2, b3, b4⟩ :=
    floatRun_whole m W hW [44] g0 whole_frac.init (signChars neg).length a3 a1 (by omega)
  rw [a4, b4, floatRun_end m hm g1 _ _ b3 (by omega), b2, a2]
  show signedValue neg (digitsFrom 0 W) (0 * 10 ^ (m + 1 - max g1.decimal 1)) = _
  rw [zero_mul]
  rfl

/-! ## The transmitter -/

theorem xorFrom_lt (t : List Nat) (ht : isText t) (k : Nat) (hk : k < 256) :
    xorFrom k t < 256 := by
  induction t generalizing k with
  | nil => exact hk
  | cons c cs ih =>
    have hc := (ht c (List.mem_cons_self _ _)).2
    exact ih (fun x hx => ht x (List.mem_cons_of_mem _ hx)) (k ^^^ c)
      (Nat.xor_lt_two_pow (n := 8) hk hc)

/-- The digit of a byte is the digit of its low nibble. -/
theorem toHexDigit_low (c : Nat) : toHexDigit (c &&& 0x0F) = toHexDigit c := by
  unfold toHexDigit
  have e1 : c &&& 15 = c % 16 := Nat.and_pow_two_sub_one_eq_mod c 4
  have e2 : (c &&& 15) % 256 &&& 15 = (c &&& 15) % 256 % 16 :=
    Nat.and_pow_two_sub_one_eq_mod _ 4
  have e3 : c % 256 &&& 15 = c % 256 % 16 := Nat.and_pow_two_sub_one_eq_mod _ 4
  have e4 : (c &&& 15) % 256 &&& 15 = c % 256 &&& 15 := by
    rw [e2, e3, e1]
    omega
  simp only [e4]

theorem isHexDigit_toHexDigit (n : Nat) : isHexDigit (toHexDigit n) := by
  have h : toHexDigit n = toHexDigit (n &&& 0x0F) := (toHexDigit_low n).symm
  have hlt : n &&& 0x0F < 16 := Nat.lt_of_le_of_lt Nat.and_le_right (by decide)
  rw [h]
  generalize n &&& 0x0F = k at hlt
  interval_cases k <;> decide

/-- Reading back a digit that `toHexDigit` wrote gives the low nibble. -/
theorem parseHEX_toHexDigit (n : Nat) : parseHEX (toHexDigit n) = n &&& 0x0F := by
  have hlt : n &&& 0x0F < 16 := Nat.lt_of_le_of_lt Nat.and_le_right (by decide)
  rw [← toHexDigit_low n]
  exact (parseHEX_eq_iff _ _ (isHexDigit_toHexDigit _) hlt).mpr rfl

theorem shiftRight_four_low (c : Nat) (hc : c < 256) : (c >>> 4) &&& 0x0F = c >>> 4 := by
  have h : c >>> 4 < 16 := by
    rw [Nat.shiftRight_eq_div_pow]
    omega
  have e : (c >>> 4) &&& 15 = (c >>> 4) % 16 := Nat.and_pow_two_sub_one_eq_mod _ 4
  rw [e, Nat.mod_eq_of_lt h]

/-! ## Two parsers that differ in the transient flags -/

theorem shift_self (g : NMEAGPS) : shift g.decimal g.negative g = g := rfl

/-- The end of a sentence keeps type, field index, offset and transient flags. -/
theorem rxEnd_keeps (H : NMEAGPS_h) (g : NMEAGPS) (ok : Bool) :
    (rxEnd H g ok).1.nmeaMessage = g.nmeaMessage ∧ (rxEnd H g ok).1.fieldIndex = g.fieldIndex ∧
    (rxEnd H g ok).1.chrCount = g.chrCount ∧ (rxEnd H g ok).1.decimal = g.decimal ∧
    (rxEnd H g ok).1.negative = g.negative := by
  obtain ⟨rx, crc, msg, fi, cc, dec, neg, fix⟩ := g
  cases ok
  · exact ⟨rfl, rfl, rfl, rfl, rfl⟩
  · cases msg <;> simp only [rxEnd] <;> (try split_ifs) <;> exact ⟨rfl, rfl, rfl, rfl, rfl⟩

/-- A step that keeps type, field index, offset and transient flags keeps the agreement. -/
theorem agree_keep (R : Nat × Bool → Nat × Bool → Prop) (a a1 : NMEAGPS) (d : Nat) (n : Bool)
    (h : a.chrCount = 0 ∨ mayDiffer R a d n)
    (e1 : a1.nmeaMessage = a.nmeaMessage) (e2 : a1.fieldIndex = a.fieldIndex)
    (e3 : a1.chrCount = a.chrCount) (e4 : a1.decimal = a.decimal)
    (e5 : a1.negative = a.negative) : agreeUpTo R a1 (shift d n a1) := by
  refine ⟨d, n, rfl, ?_⟩
  unfold mayDiffer at h ⊢
  rw [e1, e2, e3, e4, e5]
  exact h

/-- In a latitude or longitude field `parseField` is `parseLat` or `parseLon`. -/
theorem parseField_ddmm (H : NMEAGPS_h) (m : nmea_msg_t) (i : Nat) (c : Nat)
    (hd : ddmmField m i) :
    (∀ g : NMEAGPS, g.nmeaMessage = m → g.fieldIndex = i → parseField H g c = parseLat H g c) ∨
    (∀ g : NMEAGPS, g.nmeaMessage = m → g.fieldIndex = i → parseField H g c = parseLon H g c) := by
  have lat : ∀ m i, (m = NMEA_GGA ∧ i = 2) ∨ (m = NMEA_GLL ∧ i = 1) ∨ (m = NMEA_RMC ∧ i = 3) →
      ∀ g : NMEAGPS, g.nmeaMessage = m → g.fieldIndex = i →
        parseField H g c = parseLat H g c := by
    intro m i h g hm hi
    obtain ⟨rx, crc, msg, fi, cc, dec, neg, fix⟩ := g
    simp only at hm hi
    subst hm hi
    rcases h with ⟨rfl, rfl⟩ | ⟨rfl, rfl⟩ | ⟨rfl, rfl⟩ <;> rfl
  have lon : ∀ m i, (m = NMEA_GGA ∧ i = 4) ∨ (m = NMEA_GLL ∧ i = 3) ∨ (m = NMEA_RMC ∧ i = 5) →
      ∀ g : NMEAGPS, g.nmeaMessage = m → g.fieldIndex = i →
        parseField H g c = parseLon H g c := by
    intro m i h g hm hi
    obtain ⟨rx, crc, msg, fi, cc, dec, neg, fix⟩ := g
    simp only at hm hi
    subst hm hi
    rcases h with ⟨rfl, rfl⟩ | ⟨rfl, rfl⟩ | ⟨rfl, rfl⟩ <;> rfl
  unfold ddmmField at hd
  rcases hd with ⟨hm, h | h⟩ | ⟨hm, h | h⟩ | ⟨hm, h | h⟩
  · exact Or.inl (lat m i (Or.inl ⟨hm, h⟩))
  · exact Or.inr (lon m i (Or.inl ⟨hm, h⟩))
  · exact Or.inl (lat m i (Or.inr (Or.inl ⟨hm, h⟩)))
  · exact Or.inr (lon m i (Or.inr (Or.inl ⟨hm, h⟩)))
  · exact Or.inl (lat m i (Or.inr (Or.inr ⟨hm, h⟩)))
  · exact Or.inr (lon m i (Or.inr (Or.inr ⟨hm, h⟩)))

theorem ddmmField_uses (m : nmea_msg_t) (i : Nat) (h : ddmmField m i) : usesTransient m i := by
  unfold ddmmField at h
  unfold usesTransient
  rcases h with ⟨rfl, h | h⟩ | ⟨rfl, h | h⟩ | ⟨rfl, h | h⟩ <;> subst h <;> simp

theorem ddmmField_ne_zero (m : nmea_msg_t) (i : Nat) (h : ddmmField m i) : i ≠ 0 := by
  unfold ddmmField at h
  rcases h with ⟨_, h | h⟩ | ⟨_, h | h⟩ | ⟨_, h | h⟩ <;> omega

/-- At the start of a field of `parseFloat` the transient flags are written before they
are read. -/
theorem parseField_float_init (H : NMEAGPS_h) (d : Nat) (n : Bool) (g : NMEAGPS) (c : Nat)
    (hu : usesTransient g.nmeaMessage g.fieldIndex)
    (hd : ¬ ddmmField g.nmeaMessage g.fieldIndex) (hcc : g.chrCount = 0) :
    parseField H (shift d n g) c = parseField H g c := by
  have hAlt : (({ (parseFloat (shift d n g) (shift d n g).m_fix.alt c 2).1 with
      m_fix := { (parseFloat (shift d n g) (shift d n g).m_fix.alt c 2).1.m_fix with
        alt := (parseFloat (shift d n g) (shift d n g).m_fix.alt c 2).2 } }, true) :
        NMEAGPS × Bool) =
      ({ (parseFloat g g.m_fix.alt c 2).1 with
      m_fix := { (parseFloat g g.m_fix.alt c 2).1.m_fix with
        alt := (parseFloat g g.m_fix.alt c 2).2 } }, true) := by
    rw [parseFloat_init d n g _ c 2 hcc]
    rfl
  have hS := parseSpeed_init d n g c hcc
  have hHd := parseHeading_init d n g c hcc
  obtain ⟨rx, crc, msg, fi, cc, dec, neg, fix⟩ := g
  simp only at hu hcc hd
  unfold ddmmField at hd
  unfold usesTransient at hu
  rcases hu with ⟨rfl, h | h | h⟩ | ⟨rfl, h | h⟩ | ⟨rfl, h | h | h | h⟩ | ⟨rfl, h | h⟩ <;>
    subst h
  · exact absurd (Or.inl ⟨rfl, Or.inl rfl⟩) hd
  · exact absurd (Or.inl ⟨rfl, Or.inr rfl⟩) hd
  · exact hAlt
  · exact absurd (Or.inr (Or.inl ⟨rfl, Or.inl rfl⟩)) hd
  · exact absurd (Or.inr (Or.inl ⟨rfl, Or.inr rfl⟩)) hd
  · exact absurd (Or.inr (Or.inr ⟨rfl, Or.inl rfl⟩)) hd
  · exact absurd (Or.inr (Or.inr ⟨rfl, Or.inr rfl⟩)) hd
  · exact hS
  · exact hHd
  · exact hHd
  · exact hS

/-- One data byte in two parsers that differ in the transient flags where `mayDiffer`
allows: afterwards they differ in the transient flags at most, again as it allows. -/
theorem parseField_mayDiffer (H : NMEAGPS_h) (R : Nat × Bool → Nat × Bool → Prop)
    (hStart : ∀ d n d1 n1 v c, (H.parseDDMM 0 d n v c).1 = (H.parseDDMM 0 d1 n1 v c).1 ∧
      R (H.parseDDMM 0 d n v c).2 (H.parseDDMM 0 d1 n1 v c).2)
    (hStep : ∀ k d n d1 n1 v c, R (d, n) (d1, n1) →
      (H.parseDDMM k d n v c).1 = (H.parseDDMM k d1 n1 v c).1 ∧
      R (H.parseDDMM k d n v c).2 (H.parseDDMM k d1 n1 v c).2)
    (d : Nat) (n : Bool) (g : NMEAGPS) (c : Nat)
    (h : g.chrCount = 0 ∨ mayDiffer R g d n) :
    ∃ d1 n1, (parseField H (shift d n g) c).1 = shift d1 n1 (parseField H g c).1 ∧
      mayDiffer R (parseField H g c).1 d1 n1 := by
  by_cases hf : g.fieldIndex = 0
  · have e1 : parseField H g c = parseCommand g c := by
      unfold parseField; simp only []; rw [if_pos hf]
    have e2 : parseField H (shift d n g) c = parseCommand (shift d n g) c := by
      have hf2 : (shift d n g).fieldIndex = 0 := hf
      unfold parseField; simp only []; rw [if_pos hf2]
    rw [e1, e2]
    exact ⟨d, n, parseCommand_shift d n g c, Or.inl ((parseCommand_frame g c).2.1.trans hf)⟩
  by_cases hu : usesTransient g.nmeaMessage g.fieldIndex
  swap
  · obtain ⟨_, _, f3, f4, _, _⟩ := parseField_frame H g c hf
    refine ⟨d, n, parseField_shift H d n g c hf hu, Or.inr (Or.inl ?_)⟩
    rw [f3, f4]
    exact hu
  have hsame : (d = g.decimal ∧ n = g.negative) →
      ∃ d1 n1, (parseField H (shift d n g) c).1 = shift d1 n1 (parseField H g c).1 ∧
        mayDiffer R (parseField H g c).1 d1 n1 := by
    rintro ⟨rfl, rfl⟩
    exact ⟨_, _, rfl, Or.inr (Or.inr (Or.inl ⟨rfl, rfl⟩))⟩
  by_cases hdd : ddmmField g.nmeaMessage g.fieldIndex
  · have key : ∀ v,
        (H.parseDDMM g.chrCount g.decimal g.negative v c).1 =
          (H.parseDDMM g.chrCount d n v c).1 ∧
        ((d = g.decimal ∧ n = g.negative) ∨
          R (H.parseDDMM g.chrCount g.decimal g.negative v c).2
            (H.parseDDMM g.chrCount d n v c).2) := by
      intro v
      rcases h with h | h | h | h | h
      · rw [h]
        exact ⟨(hStart _ _ _ _ _ _).1, Or.inr (hStart _ _ _ _ _ _).2⟩
      · exact absurd h hf
      · exact absurd hu h
      · obtain ⟨rfl, rfl⟩ := h
        exact ⟨rfl, Or.inl ⟨rfl, rfl⟩⟩
      · exact ⟨(hStep _ _ _ _ _ _ _ h.2).1, Or.inr (hStep _ _ _ _ _ _ _ h.2).2⟩
    rcases parseField_ddmm H g.nmeaMessage g.fieldIndex c hdd with e | e
    · obtain ⟨k1, k2⟩ := key g.m_fix.lat
      rcases k2 with k2 | k2
      · exact hsame k2
      · refine ⟨(H.parseDDMM g.chrCount d n g.m_fix.lat c).2.1,
          (H.parseDDMM g.chrCount d n g.m_fix.lat c).2.2, ?_, Or.inr (Or.inr (Or.inr ?_))⟩
        · rw [e g rfl rfl, e (shift d n g) rfl rfl]
          unfold parseLat
          show _ = shift _ _ _
          unfold shift
          simp only []
          rw [k1]
        · rw [e g rfl rfl]
          exact ⟨hdd, k2⟩
    · obtain ⟨k1, k2⟩ := key g.m_fix.lon
      rcases k2 with k2 | k2
      · exact hsame k2
      · refine ⟨(H.parseDDMM g.chrCount d n g.m_fix.lon c).2.1,
          (H.parseDDMM g.chrCount d n g.m_fix.lon c).2.2, ?_, Or.inr (Or.inr (Or.inr ?_))⟩
        · rw [e g rfl rfl, e (shift d n g) rfl rfl]
          unfold parseLon
          show _ = shift _ _ _
          unfold shift
          simp only []
          rw [k1]
        · rw [e g rfl rfl]
          exact ⟨hdd, k2⟩
  · rcases h with h | h | h | h | h
    · rw [parseField_float_init H d n g c hu hdd h]
      exact ⟨_, _, rfl, Or.inr (Or.inr (Or.inl ⟨rfl, rfl⟩))⟩
    · exact absurd h hf
    · exact absurd hu h
    · exact hsame h
    · exact absurd h.1 hdd

/-- One byte, in two parsers that agree up to the transient flags. -/
theorem putchar_agreeUpTo (H : NMEAGPS_h) (R : Nat × Bool → Nat × Bool → Prop)
    (hStart : ∀ d n d1 n1 v c, (H.parseDDMM 0 d n v c).1 = (H.parseDDMM 0 d1 n1 v c).1 ∧
      R (H.parseDDMM 0 d n v c).2 (H.parseDDMM 0 d1 n1 v c).2)
    (hStep : ∀ k d n d1 n1 v c, R (d, n) (d1, n1) →
      (H.parseDDMM k d n v c).1 = (H.parseDDMM k d1 n1 v c).1 ∧
      R (H.parseDDMM k d n v c).2 (H.parseDDMM k d1 n1 v c).2)
    (a b : NMEAGPS) (c : Nat) (hab : agreeUpTo R a b) :
    (putchar H a c).2 = (putchar H b c).2 ∧ agreeUpTo R (putchar H a c).1 (putchar H b c).1 := by
  obtain ⟨d, n, rfl, ht⟩ := hab
  by_cases h36 : c = 36
  · subst h36
    rw [putchar_dollar, putchar_dollar]
    exact ⟨rfl, d, n, rfl, Or.inl rfl⟩
  have ers : (shift d n a).rxState = a.rxState := rfl
  have keepEnd : ∀ ok, agreeUpTo R (rxEnd H a ok).1 (shift d n (rxEnd H a ok).1) := by
    intro ok
    obtain ⟨e1, e2, e3, e4, e5⟩ := rxEnd_keeps H a ok
    exact agree_keep R a _ d n ht e1 e2 e3 e4 e5
  have keepState : ∀ s, agreeUpTo R { a with rxState := s } (shift d n { a with rxState := s }) :=
    fun s => agree_keep R a _ d n ht rfl rfl rfl rfl rfl
  cases hrx : a.rxState
  · rw [putchar_idle H a c hrx h36, putchar_idle H _ c (ers.trans hrx) h36]
    exact ⟨rfl, d, n, rfl, ht⟩
  · by_cases h42 : c = 42
    · subst h42
      rw [putchar_star H a hrx, putchar_star H _ (ers.trans hrx)]
      exact ⟨rfl, keepState _⟩
    by_cases hcr : c = CR ∨ c = LF
    · rw [putchar_eol H a c hrx hcr, putchar_eol H _ c (ers.trans hrx) hcr, rxEnd_shift]
      exact ⟨rfl, keepEnd true⟩
    by_cases hpr : c < 32 ∨ 126 < c
    · rw [putchar_bad H a c hrx hpr hcr, putchar_bad H _ c (ers.trans hrx) hpr hcr, rxEnd_shift]
      exact ⟨rfl, keepEnd false⟩
    have hc : isData c := by
      unfold isData
      simp only [Char.reduceToNat]
      omega
    have ea := putchar_data H a c hrx hc
    have eb := putchar_data H (shift d n a) c (ers.trans hrx) hc
    have ht1 : ({ a with crc := (a.crc ^^^ c) % 256 } : NMEAGPS).chrCount = 0 ∨
        mayDiffer R ({ a with crc := (a.crc ^^^ c) % 256 } : NMEAGPS) d n := ht
    obtain ⟨d1, n1, e, hsc⟩ :=
      parseField_mayDiffer H R hStart hStep d n { a with crc := (a.crc ^^^ c) % 256 } c ht1
    change putchar H (shift d n a) c =
      (if c = 44 then
        { (parseField H (shift d n { a with crc := (a.crc ^^^ c) % 256 }) c).1 with
          fieldIndex :=
            ((parseField H (shift d n { a with crc := (a.crc ^^^ c) % 256 }) c).1.fieldIndex
              + 1) % 256
          chrCount := 0 }
      else
        { (parseField H (shift d n { a with crc := (a.crc ^^^ c) % 256 }) c).1 with
          chrCount :=
            ((parseField H (shift d n { a with crc := (a.crc ^^^ c) % 256 }) c).1.chrCount
              + 1) % 256 }, []) at eb
    rw [e] at eb
    rw [ea, eb]
    by_cases hcomma : c = 44
    · rw [if_pos hcomma, if_pos hcomma]
      exact ⟨rfl, d1, n1, rfl, Or.inl rfl⟩
    · rw [if_neg hcomma, if_neg hcomma]
      exact ⟨rfl, d1, n1, rfl, Or.inr hsc⟩
  · rw [putchar_crc1 H a c hrx h36, putchar_crc1 H _ c (ers.trans hrx) h36]
    by_cases hx : a.crc >>> 4 ≠ parseHEX c
    · have hx2 : (shift d n a).crc >>> 4 ≠ parseHEX c := hx
      rw [if_pos hx, if_pos hx2, rxEnd_shift]
      exact ⟨rfl, keepEnd false⟩
    · have hx2 : ¬ (shift d n a).crc >>> 4 ≠ parseHEX c := hx
      rw [if_neg hx, if_neg hx2]
      exact ⟨rfl, keepState _⟩
  · rw [putchar_crc2 H a c hrx h36, putchar_crc2 H _ c (ers.trans hrx) h36]
    by_cases hx : a.crc &&& 0x0F ≠ parseHEX c
    · have hx2 : (shift d n a).crc &&& 0x0F ≠ parseHEX c := hx
      rw [if_pos hx, if_pos hx2, rxEnd_shift]
      exact ⟨rfl, keepEnd false⟩
    · have hx2 : ¬ (shift d n a).crc &&& 0x0F ≠ parseHEX c := hx
      rw [if_neg hx, if_neg hx2, rxEnd_shift]
      exact ⟨rfl, keepEnd true⟩

/-- A byte sequence, in two parsers that agree up to the transient flags. -/
theorem feed_agreeUpTo (H : NMEAGPS_h) (R : Nat × Bool → Nat × Bool → Prop)
    (hStart : ∀ d n d1 n1 v c, (H.parseDDMM 0 d n v c).1 = (H.parseDDMM 0 d1 n1 v c).1 ∧
      R (H.parseDDMM 0 d n v c).2 (H.parseDDMM 0 d1 n1 v c).2)
    (hStep : ∀ k d n d1 n1 v c, R (d, n) (d1, n1) →
      (H.parseDDMM k d n v c).1 = (H.parseDDMM k d1 n1 v c).1 ∧
      R (H.parseDDMM k d n v c).2 (H.parseDDMM k d1 n1 v c).2)
    (w : List Nat) (a b : NMEAGPS) (hab : agreeUpTo R a b) :
    (feed H a w).2 = (feed H b w).2 ∧ agreeUpTo R (feed H a w).1 (feed H b w).1 := by
  induction w generalizing a b with
  | nil => exact ⟨rfl, hab⟩
  | cons c cs ih =>
    obtain ⟨p1, p2⟩ := putchar_agreeUpTo H R hStart hStep a b c hab
    obtain ⟨q1, q2⟩ := ih _ _ p2
    rw [feed_cons, feed_cons, p1, q1]
    exact ⟨rfl, q2⟩

/-- The decoder of the spec keeps the fractional-digit counters equal. -/
theorem specDecls_scoped (decode : Nat → Int → Nat → Nat → Int × Nat) (is_valid : time_t → Bool)
    (status_satellites : gps_fix_status_t → Int → Int → gps_fix_status_t × Int) :
    (∀ d n d1 n1 v c,
      ((specDecls decode is_valid status_satellites).parseDDMM 0 d n v c).1 =
        ((specDecls decode is_valid status_satellites).parseDDMM 0 d1 n1 v c).1 ∧
      ((specDecls decode is_valid status_satellites).parseDDMM 0 d n v c).2.1 =
        ((specDecls decode is_valid status_satellites).parseDDMM 0 d1 n1 v c).2.1) ∧
    (∀ k d n d1 n1 v c, (d, n).1 = (d1, n1).1 →
      ((specDecls decode is_valid status_satellites).parseDDMM k d n v c).1 =
        ((specDecls decode is_valid status_satellites).parseDDMM k d1 n1 v c).1 ∧
      ((specDecls decode is_valid status_satellites).parseDDMM k d n v c).2.1 =
        ((specDecls decode is_valid status_satellites).parseDDMM k d1 n1 v c).2.1) := by
  constructor
  · intro d n d1 n1 v c
    exact ⟨rfl, rfl⟩
  · intro k d n d1 n1 v c h
    simp only at h
    subst h
    exact ⟨rfl, rfl⟩

/-! ## Bytes that end or do not end a sentence -/

/-- A byte outside the printable range, other than CR and LF, in a body of data
characters: the sentence is given up there and pushes nothing. -/
theorem feed_bad_byte (H : NMEAGPS_h) (g : NMEAGPS) (a b : List Nat) (v : Nat)
    (ha : ∀ c ∈ a, isData c) (hv : v < 32 ∨ 126 < v) (hne : ¬ (v = CR ∨ v = LF))
    (hb : ∀ c ∈ b, c ≠ 36) :
    (feed H g (36 :: (a ++ v :: b))).2 = [] := by
  obtain ⟨q1, q2, _, _⟩ := feed_data H a ha (rxBegin g) rfl (show (0 : Nat) < 256 by decide)
  have hv36 : v ≠ 36 := by omega
  rw [feed_dollar, feed_append_snd H _ a _ q1, feed_cons]
  rcases q2 with q2 | q2
  · rw [putchar_bad H _ v q2 hv hne, rxEnd_false, feed_idle H _ b rfl hb]
    rfl
  · rw [putchar_idle H _ v q2 hv36, feed_idle H _ b q2 hb]
    rfl

/-- The name filter of `parseCommand`: after `$`, a name that is not one of the seven
recognised names (any bytes other than `$`, `,`, `*`, CR and LF) and further bytes
without `$`, nothing is pushed when the name is ended by `,` or is not the beginning of a
recognised name. -/
theorem feed_unlisted_name (H : NMEAGPS_h) (g : NMEAGPS) (n rest : List Nat)
    (hn : ∀ c ∈ n,
      c ≠ '$'.toNat ∧ c ≠ ','.toNat ∧ c ≠ '*'.toNat ∧ c ≠ CR ∧ c ≠ LF)
    (hrest : ∀ c ∈ rest, c ≠ '$'.toNat)
    (hname : ∀ p ∈ sentenceNames, n ≠ p.1)
    (hend : rest.head? = some ','.toNat ∨ ¬ beginsName n) :
    (feed H g ('$'.toNat :: (n ++ rest))).2 = [] := by
  simp only [Char.reduceToNat] at hn hrest hend ⊢
  have hn44 : ∀ c ∈ n, c ≠ 44 := fun c hc => (hn c hc).2.1
  obtain ⟨q1, q2⟩ := feed_name_any H n hn (rxBegin g) NMEA_UNKNOWN 0 (rxBegin_atField g)
  rw [feed_dollar, feed_append_snd H _ n rest q1]
  rcases q2 with q2 | ⟨k1, m1, q2, q3⟩
  · rw [feed_idle H _ rest q2 hrest]
  · rcases hend with hend | hend
    · obtain ⟨w, rfl⟩ : ∃ w, rest = 44 :: w := by
        cases rest with
        | nil => simp at hend
        | cons a w =>
          simp only [List.head?_cons, Option.some.injEq] at hend
          exact ⟨w, by rw [hend]⟩
      obtain ⟨p1, p2⟩ := putchar_name_comma H n hn44 hname _ k1 m1 q2 q3
      rw [feed_cons, p1, feed_idle H _ w p2 (fun x hx => hrest x (List.mem_cons_of_mem _ hx))]
      rfl
    · exact absurd (live_beginsName n k1 m1 (nameRun_live n hn44 k1 m1 q2)) hend

/-- What `putchar` does after the six digits of the RMC date: for every printable
character `c` other than `,`, `$` and `*`, `parseField` returns failure and changes
nothing, and `putchar` only XORs `c` into the checksum and moves to offset 7; the receiver
stays in `NMEA_RECEIVING_DATA`. -/
theorem putchar_date_check (H : NMEAGPS_h) (g : NMEAGPS) (c : Nat)
    (hat : g.rxState = NMEA_RECEIVING_DATA ∧ g.nmeaMessage = NMEA_RMC ∧ g.fieldIndex = 9 ∧
      g.chrCount = 6)
    (hc : ' '.toNat ≤ c ∧ c ≤ '~'.toNat ∧ c ≠ ','.toNat ∧ c ≠ '$'.toNat ∧ c ≠ '*'.toNat) :
    parseField H g c = (g, false) ∧
    putchar H g c = ({ g with crc := (g.crc ^^^ c) % 256, chrCount := 7 }, []) ∧
    (putchar H g c).1.rxState = NMEA_RECEIVING_DATA := by
  obtain ⟨hs, hm, hf, hk⟩ := hat
  obtain ⟨c1, c2, c3, c4, c5⟩ := hc
  have hd : isData c := ⟨c1, c2, c4, c5⟩
  simp only [Char.reduceToNat] at c3
  have pf : ∀ g1 : NMEAGPS, g1.nmeaMessage = NMEA_RMC → g1.fieldIndex = 9 → g1.chrCount = 6 →
      parseField H g1 c = (g1, false) := by
    intro g1 h1 h2 h3
    simp [parseField, h1, h2, h3, c3]
  have e := putchar_data H g c hs hd
  rw [if_neg c3, pf { g with crc := (g.crc ^^^ c) % 256 } hm hf hk] at e
  refine ⟨pf g hm hf hk, ?_, ?_⟩
  · rw [e]
    simp only [hk]
  · rw [e]
    exact hs

/-- A list with a member that fails a test splits at the first such member. -/
theorem split_at_first (P : Nat → Prop) : ∀ (l : List Nat), (¬ ∀ c ∈ l, P c) →
    ∃ a v b, l = a ++ v :: b ∧ (∀ c ∈ a, P c) ∧ ¬ P v
  | [], h => absurd (fun _ hc => absurd hc (List.not_mem_nil _)) h
  | x :: xs, h => by
    by_cases hx : P x
    · have h2 : ¬ ∀ c ∈ xs, P c := by
        intro hall
        apply h
        intro c hc
        rcases List.mem_cons.mp hc with rfl | hc
        · exact hx
        · exact hall c hc
      obtain ⟨a, v, b, e, ha, hv⟩ := split_at_first P xs h2
      refine ⟨x :: a, v, b, by rw [e]; rfl, ?_, hv⟩
      intro c hc
      rcases List.mem_cons.mp hc with rfl | hc
      · exact hx
      · exact ha c hc
    · exact ⟨[], x, xs, rfl, fun _ hc => absurd hc (List.not_mem_nil _), hx⟩

/-- A sentence whose body holds none of CR, LF, `$` and `*` and is accepted has a body of
data characters. -/
theorem accepted_body_isData (H : NMEAGPS_h) (g : NMEAGPS) (body : List Nat) (h l : Nat)
    (hb : ∀ c ∈ body, c ≠ CR ∧ c ≠ LF ∧ c ≠ 36 ∧ c ≠ 42) (hh : h ≠ 36) (hl : l ≠ 36)
    (hacc : (feed H g (sentence body h l)).2 ≠ []) : ∀ c ∈ body, isData c := by
  by_contra hall
  obtain ⟨a, v, b, e, ha, hv⟩ := split_at_first isData body hall
  have hvb : v ∈ body := by rw [e]; simp
  obtain ⟨v1, v2, v3, v4⟩ := hb v hvb
  apply hacc
  have e2 : sentence body h l = 36 :: (a ++ v :: (b ++ [42, h, l, CR, LF])) := by
    unfold sentence
    simp only [Char.reduceToNat]
    rw [e]
    simp
  rw [e2]
  apply feed_bad_byte H g _ _ _ ha _ (fun hc => hc.elim v1 v2)
  · intro c hc
    rcases List.mem_append.mp hc with hc | hc
    · exact (hb c (by rw [e]; simp [hc])).2.2.1
    · simp only [List.mem_cons, List.mem_singleton, List.not_mem_nil, or_false] at hc
      rcases hc with rfl | rfl | rfl | rfl | rfl
      · decide
      · exact hh
      · exact hl
      · decide
      · decide
  · unfold isData at hv
    simp only [Char.reduceToNat] at hv
    omega

/-! ## The claims -/

/-- C1: from every parser state and fix record, the bytes of
`$GPRMC,123519,A,4807.038,N,01131.000,E,022.4,084.4,230394,003.1,W*6A` and CR LF push
exactly one notification, of type RMC, and leave the receiver idle with a standard fix,
the flags location, dateTime, speed and heading set, and the date 23/03/94. -/
theorem end_to_end_rmc (H : NMEAGPS_h) (g : NMEAGPS) :
    (feed H g rmcSentence).2 = [NMEA_RMC] ∧
    (feed H g rmcSentence).1.rxState = NMEA_IDLE ∧
    (feed H g rmcSentence).1.m_fix.status = GPS_FIX_STD ∧
    (feed H g rmcSentence).1.m_fix.valid.location = true ∧
    (feed H g rmcSentence).1.m_fix.valid.dateTime = true ∧
    (feed H g rmcSentence).1.m_fix.valid.speed = true ∧
    (feed H g rmcSentence).1.m_fix.valid.heading = true ∧
    (feed H g rmcSentence).1.m_fix.dateTime.date = 23 ∧
    (feed H g rmcSentence).1.m_fix.dateTime.month = 3 ∧
    (feed H g rmcSentence).1.m_fix.dateTime.year = 94 := by
  have e : rmcSentence = (36 :: rmcBody) ++ [42, 54, 65, CR, LF] := by decide
  obtain ⟨b1, b2, b3, b4, b5, b6, b7, b8⟩ := feed_rmc_body H g
  have t := feed_tail H (feed H g (36 :: rmcBody)).1 54 65 b2 (by decide) (by decide)
  rw [b4, if_pos (by decide), rxEnd_true, b3] at t
  simp only [b5] at t
  rw [if_neg (by decide)] at t
  rw [e, feed_append, b1, t]
  simp [flagsSetBy, b5, b6, b7, b8]

/-- C2: from `NMEA_RECEIVING_DATA` with checksum byte `k`, feeding `*` and two hexadecimal
digits `h`, `l` keeps the checksum; when `h` is the digit of `k >> 4` the receiver waits
in `NMEA_RECEIVING_CRC2` and `l` completes the sentence with `rxEnd( true )` exactly when
it is the digit of `k & 0x0F`, with `rxEnd( false )` otherwise; when `h` is another digit
`rxEnd( false )` runs right after `h` and `l` changes nothing; and `rxEnd( false )` only
idles the receiver, pushing no notification. -/
theorem crc_digits_checked (H : NMEAGPS_h) (g : NMEAGPS) (h l : Nat)
    (hs : g.rxState = NMEA_RECEIVING_DATA) (hk : g.crc < 256)
    (hh : isHexDigit h) (hl : isHexDigit l) :
    (feed H g ['*'.toNat, h, l]).1.crc = g.crc ∧
    (if h = toHexDigit (g.crc >>> 4) then
      feed H g ['*'.toNat, h] = ({ g with rxState := NMEA_RECEIVING_CRC2 }, []) ∧
      (if l = toHexDigit (g.crc &&& 0x0F) then
        feed H g ['*'.toNat, h, l] = rxEnd H { g with rxState := NMEA_RECEIVING_CRC2 } true
      else
        feed H g ['*'.toNat, h, l] = rxEnd H { g with rxState := NMEA_RECEIVING_CRC2 } false)
    else
      feed H g ['*'.toNat, h] = rxEnd H { g with rxState := NMEA_RECEIVING_CRC1 } false ∧
      feed H g ['*'.toNat, h, l] = rxEnd H { g with rxState := NMEA_RECEIVING_CRC1 } false) ∧
    (∀ g1 : NMEAGPS, rxEnd H g1 false = ({ g1 with rxState := NMEA_IDLE }, [])) := by
  have hhi : g.crc >>> 4 < 16 := by
    rw [Nat.shiftRight_eq_div_pow]; omega
  have hlo : g.crc &&& 0x0F < 16 := Nat.lt_of_le_of_lt Nat.and_le_right (by decide)
  have e1 := parseHEX_eq_iff h _ hh hhi
  have e2 := parseHEX_eq_iff l _ hl hlo
  have hl36 := isHexDigit_ne_dollar l hl
  have hh36 := isHexDigit_ne_dollar h hh
  refine ⟨?_, ?_, fun g1 => rxEnd_false H g1⟩
  · by_cases c1 : g.crc >>> 4 = parseHEX h
    · simp only [feed, putchar, hs, hh36, hl36, c1, Char.reduceToNat]
      simp
      split_ifs <;> simp [rxEnd_crc]
    · simp [feed, putchar, hs, hh36, hl36, c1, rxEnd_crc, rxEnd_rxState]
  · by_cases c1 : h = toHexDigit (g.crc >>> 4)
    · have p1 := e1.mpr c1
      rw [if_pos c1]
      by_cases c2 : l = toHexDigit (g.crc &&& 0x0F)
      · have p2 := e2.mpr c2
        rw [if_pos c2]
        simp [feed, putchar, hs, hh36, hl36, p1, p2]
      · have p2 : ¬ g.crc &&& 0x0F = parseHEX l := fun p => c2 (e2.mp p.symm)
        rw [if_neg c2]
        simp [feed, putchar, hs, hh36, hl36, p1, p2]
    · have p1 : ¬ g.crc >>> 4 = parseHEX h := fun p => c1 (e1.mp p.symm)
      rw [if_neg c1]
      simp [feed, putchar, hs, hh36, hl36, p1, rxEnd_rxState, rxEnd_set_rxState]

/-- C2 at a sample input: checksum `0x6A` and the digits `6`, `A`. -/
theorem crc_digits_checked_witness :
    rmcParser.rxState = NMEA_RECEIVING_DATA ∧ rmcParser.crc < 256 ∧
    isHexDigit '6'.toNat ∧ isHexDigit 'A'.toNat ∧
    ((feed sampleDecls rmcParser ['*'.toNat, '6'.toNat, 'A'.toNat]).1.crc = rmcParser.crc ∧
    (if '6'.toNat = toHexDigit (rmcParser.crc >>> 4) then
      feed sampleDecls rmcParser ['*'.toNat, '6'.toNat] =
        ({ rmcParser with rxState := NMEA_RECEIVING_CRC2 }, []) ∧
      (if 'A'.toNat = toHexDigit (rmcParser.crc &&& 0x0F) then
        feed sampleDecls rmcParser ['*'.toNat, '6'.toNat, 'A'.toNat] =
          rxEnd sampleDecls { rmcParser with rxState := NMEA_RECEIVING_CRC2 } true
      else
        feed sampleDecls rmcParser ['*'.toNat, '6'.toNat, 'A'.toNat] =
          rxEnd sampleDecls { rmcParser with rxState := NMEA_RECEIVING_CRC2 } false)
    else
      feed sampleDecls rmcParser ['*'.toNat, '6'.toNat] =
        rxEnd sampleDecls { rmcParser with rxState := NMEA_RECEIVING_CRC1 } false ∧
      feed sampleDecls rmcParser ['*'.toNat, '6'.toNat, 'A'.toNat] =
        rxEnd sampleDecls { rmcParser with rxState := NMEA_RECEIVING_CRC1 } false) ∧
    (∀ g1 : NMEAGPS, rxEnd sampleDecls g1 false = ({ g1 with rxState := NMEA_IDLE }, []))) :=
  ⟨by decide, by decide, by decide, by decide,
    crc_digits_checked sampleDecls rmcParser '6'.toNat 'A'.toNat
      (by decide) (by decide) (by decide) (by decide)⟩

/-- C3: if the receiver still takes data after `$` and a sequence `b` of data characters
(printable, neither `$` nor `*`), its checksum is the XOR of the bytes of `b`, and a
following `*` does not change it. -/
theorem checksum_is_xor_of_body (H : NMEAGPS_h) (g : NMEAGPS) (b : List Nat)
    (hb : ∀ c ∈ b, isData c)
    (hs : (feed H g ('$'.toNat :: b)).1.rxState = NMEA_RECEIVING_DATA) :
    (feed H g ('$'.toNat :: b)).1.crc = checksum b ∧
    (feed H g ('$'.toNat :: (b ++ ['*'.toNat]))).1.crc = checksum b := by
  simp only [Char.reduceToNat] at hs ⊢
  rw [feed_cons, putchar_dollar] at hs
  simp only [] at hs
  obtain ⟨_, _, q3, _⟩ := feed_data H b hb (rxBegin g) rfl (show (0 : Nat) < 256 by decide)
  have hcrc : (feed H (rxBegin g) b).1.crc = checksum b := q3 hs
  have e1 : (feed H g (36 :: b)).1 = (feed H (rxBegin g) b).1 := by
    rw [feed_cons, putchar_dollar]
  have e2 : (feed H g (36 :: (b ++ [42]))).1 =
      (putchar H (feed H (rxBegin g) b).1 42).1 := by
    rw [feed_cons, putchar_dollar, feed_append]
    rfl
  rw [e1, e2]
  refine ⟨hcrc, ?_⟩
  have : (putchar H (feed H (rxBegin g) b).1 42).1 =
      { (feed H (rxBegin g) b).1 with rxState := NMEA_RECEIVING_CRC1 } := by
    simp [putchar, hs]
  rw [this]
  exact hcrc

/-- C3 at a sample input: the bytes `GPRMC,1`. -/
theorem checksum_is_xor_of_body_witness :
    (∀ c ∈ bytes "GPRMC,1", isData c) ∧
    (feed sampleDecls idleParser ('$'.toNat :: bytes "GPRMC,1")).1.rxState =
      NMEA_RECEIVING_DATA ∧
    (feed sampleDecls idleParser ('$'.toNat :: bytes "GPRMC,1")).1.crc =
      checksum (bytes "GPRMC,1") ∧
    (feed sampleDecls idleParser ('$'.toNat :: (bytes "GPRMC,1" ++ ['*'.toNat]))).1.crc =
      checksum (bytes "GPRMC,1") :=
  ⟨by decide, by decide,
    checksum_is_xor_of_body sampleDecls idleParser (bytes "GPRMC,1") (by decide) (by decide)⟩

/-- C4 (amended): if the receiver accepts `$<body>*HH` CR LF, where the body holds none of
CR, LF, `$` and `*` and the two checksum characters are not `$`, then the sentence with
one bit of one body byte flipped pushes no notification, provided the flipped byte is
none of CR, LF, `$` and `*` either. -/
theorem single_bit_flip_rejected (H : NMEAGPS_h) (g : NMEAGPS) (body : List Nat) (h l : Nat)
    (i k : Nat)
    (hbody : ∀ c ∈ body, c ≠ CR ∧ c ≠ LF ∧ c ≠ '$'.toNat ∧ c ≠ '*'.toNat)
    (hh : h ≠ '$'.toNat) (hl : l ≠ '$'.toNat)
    (hacc : (feed H g (sentence body h l)).2 ≠ [])
    (hi : i < body.length)
    (hflip : body.getD i 0 ^^^ 2 ^ k ≠ CR ∧ body.getD i 0 ^^^ 2 ^ k ≠ LF ∧
      body.getD i 0 ^^^ 2 ^ k ≠ '$'.toNat ∧ body.getD i 0 ^^^ 2 ^ k ≠ '*'.toNat) :
    (feed H g (sentence (flipBit body i k) h l)).2 = [] := by
  simp only [Char.reduceToNat] at hbody hh hl hflip
  have hb := accepted_body_isData H g body h l hbody hh hl hacc
  by_cases hd : isData (body.getD i 0 ^^^ 2 ^ k)
  · obtain ⟨m1, m2⟩ := (feed_sentence H g body h l hb hh hl).1 hacc
    apply (feed_sentence H g (flipBit body i k) h l (isData_flipBit body i k hb hd) hh hl).2
    intro hc
    rw [checksum_flipBit body i k hi] at hc
    exact xor_pow_ne (checksum body) k
      (nibbles_eq _ _ (hc.1.trans m1.symm) (hc.2.trans m2.symm))
  · have hv : body.getD i 0 ^^^ 2 ^ k < 32 ∨ 126 < body.getD i 0 ^^^ 2 ^ k := by
      unfold isData at hd
      simp only [Char.reduceToNat] at hd
      omega
    have e : sentence (flipBit body i k) h l =
        36 :: (body.take i ++ (body.getD i 0 ^^^ 2 ^ k) :: (body.drop (i + 1) ++ [42, h, l, CR, LF])) := by
      unfold sentence flipBit
      simp only [Char.reduceToNat]
      rw [List.set_eq_take_cons_drop _ hi]
      simp
    rw [e]
    apply feed_bad_byte H g _ _ _ (fun c hc => hb c (List.mem_of_mem_take hc)) hv
      (fun hc => hc.elim hflip.1 hflip.2.1)
    intro c hc
    rcases List.mem_append.mp hc with hc | hc
    · exact (isData_bounds c (hb c (List.mem_of_mem_drop hc))).2.2.1
    · simp only [List.mem_cons, List.mem_singleton, List.not_mem_nil, or_false] at hc
      rcases hc with rfl | rfl | rfl | rfl | rfl
      · decide
      · exact hh
      · exact hl
      · decide
      · decide

set_option maxRecDepth 100000 in
/-- C4 (amended) at a sample input: the example sentence with bit 7 of its first byte
flipped, which turns `G` into the byte `0xC7`. -/
theorem single_bit_flip_rejected_witness :
    (∀ c ∈ rmcBody, c ≠ CR ∧ c ≠ LF ∧ c ≠ '$'.toNat ∧ c ≠ '*'.toNat) ∧
    '6'.toNat ≠ '$'.toNat ∧ 'A'.toNat ≠ '$'.toNat ∧
    (feed sampleDecls idleParser (sentence rmcBody '6'.toNat 'A'.toNat)).2 ≠ [] ∧
    0 < rmcBody.length ∧
    (rmcBody.getD 0 0 ^^^ 2 ^ 7 ≠ CR ∧ rmcBody.getD 0 0 ^^^ 2 ^ 7 ≠ LF ∧
      rmcBody.getD 0 0 ^^^ 2 ^ 7 ≠ '$'.toNat ∧ rmcBody.getD 0 0 ^^^ 2 ^ 7 ≠ '*'.toNat) ∧
    (feed sampleDecls idleParser (sentence (flipBit rmcBody 0 7) '6'.toNat 'A'.toNat)).2 = [] :=
  ⟨by decide, by decide, by decide, by decide, by decide, by decide,
    single_bit_flip_rejected sampleDecls idleParser rmcBody '6'.toNat 'A'.toNat 0 7
      (by decide) (by decide) (by decide) (by decide) (by decide) (by decide)⟩

set_option maxRecDepth 100000 in
/-- C4 (as stated) fails: after a standard fix, the usual GGA example sentence is accepted;
flipping bit 6 of its first `M` turns that byte into CR, which ends the sentence as one
without checksum, and the damaged sentence is accepted too.  Likewise a flip of `J` to LF
ends `$GPGSA,J*24` early; a flip of the last comma of `$GPGSA,B,*00` to `$` starts a new,
empty sentence that the checksum `00` fits; and a flip of `.` to `*` in `$GPGSA,.6E*33`
makes `6E`, the checksum of what precedes, the checksum read.  A `$` among the two
checksum characters starts a new sentence that the line end completes, and a body that
holds CR, LF, `*` or `$` is completed or restarted there, whatever the other bytes of
the body are: the flip of `A` to `@` changes nothing. -/
theorem single_bit_flip_accepted :
    ((feed sampleDecls (feed sampleDecls idleParser rmcSentence).1
        (sentence ggaBody '4'.toNat '7'.toNat)).2 = [NMEA_GGA] ∧
      ggaBody.getD 51 0 = 'M'.toNat ∧ (flipBit ggaBody 51 6).getD 51 0 = CR ∧
      (feed sampleDecls (feed sampleDecls idleParser rmcSentence).1
        (sentence (flipBit ggaBody 51 6) '4'.toNat '7'.toNat)).2 = [NMEA_GGA]) ∧
    ((feed sampleDecls idleParser (sentence (bytes "GPGSA,J") '2'.toNat '4'.toNat)).2 =
        [NMEA_GSA] ∧
      (flipBit (bytes "GPGSA,J") 6 6).getD 6 0 = LF ∧
      (feed sampleDecls idleParser
        (sentence (flipBit (bytes "GPGSA,J") 6 6) '2'.toNat '4'.toNat)).2 = [NMEA_GSA]) ∧
    ((feed sampleDecls idleParser (sentence (bytes "GPGSA,B,") '0'.toNat '0'.toNat)).2 =
        [NMEA_GSA] ∧
      (flipBit (bytes "GPGSA,B,") 7 3).getD 7 0 = '$'.toNat ∧
      (feed sampleDecls idleParser
        (sentence (flipBit (bytes "GPGSA,B,") 7 3) '0'.toNat '0'.toNat)).2 = [NMEA_UNKNOWN]) ∧
    ((feed sampleDecls idleParser (sentence (bytes "GPGSA,.6E") '3'.toNat '3'.toNat)).2 =
        [NMEA_GSA] ∧
      (flipBit (bytes "GPGSA,.6E") 6 2).getD 6 0 = '*'.toNat ∧
      (feed sampleDecls idleParser
        (sentence (flipBit (bytes "GPGSA,.6E") 6 2) '3'.toNat '3'.toNat)).2 = [NMEA_GSA]) ∧
    (flipBit (bytes "GPGSA,A") 6 0 = bytes "GPGSA,@" ∧
      (feed sampleDecls idleParser (sentence (bytes "GPGSA,A") '$'.toNat 'G'.toNat)).2 =
        [NMEA_UNKNOWN] ∧
      (feed sampleDecls idleParser (sentence (bytes "GPGSA,@") '$'.toNat 'G'.toNat)).2 =
        [NMEA_UNKNOWN] ∧
      (feed sampleDecls idleParser (sentence (bytes "GPGSA,A") '0'.toNat '$'.toNat)).2 =
        [NMEA_UNKNOWN] ∧
      (feed sampleDecls idleParser (sentence (bytes "GPGSA,@") '0'.toNat '$'.toNat)).2 =
        [NMEA_UNKNOWN]) ∧
    (flipBit (bytes "GP\rA") 3 0 = bytes "GP\r@" ∧
      (feed sampleDecls idleParser (sentence (bytes "GP\rA") '0'.toNat '0'.toNat)).2 =
        [NMEA_UNKNOWN] ∧
      (feed sampleDecls idleParser (sentence (bytes "GP\r@") '0'.toNat '0'.toNat)).2 =
        [NMEA_UNKNOWN] ∧
      flipBit (bytes "GP\nA") 3 0 = bytes "GP\n@" ∧
      (feed sampleDecls idleParser (sentence (bytes "GP\nA") '0'.toNat '0'.toNat)).2 =
        [NMEA_UNKNOWN] ∧
      (feed sampleDecls idleParser (sentence (bytes "GP\n@") '0'.toNat '0'.toNat)).2 =
        [NMEA_UNKNOWN]) ∧
    (flipBit (bytes "GPGSA,B,*00A") 11 0 = bytes "GPGSA,B,*00@" ∧
      (feed sampleDecls idleParser (sentence (bytes "GPGSA,B,*00A") '0'.toNat '0'.toNat)).2 =
        [NMEA_GSA] ∧
      (feed sampleDecls idleParser (sentence (bytes "GPGSA,B,*00@") '0'.toNat '0'.toNat)).2 =
        [NMEA_GSA] ∧
      flipBit (bytes "A$GPGSA,B,") 0 0 = bytes "@$GPGSA,B," ∧
      (feed sampleDecls idleParser (sentence (bytes "A$GPGSA,B,") '0'.toNat '0'.toNat)).2 =
        [NMEA_GSA] ∧
      (feed sampleDecls idleParser (sentence (bytes "@$GPGSA,B,") '0'.toNat '0'.toNat)).2 =
        [NMEA_GSA]) := by
  decide

/-- C5 (amended): the example sentence up to `*`, then two bytes `c1 c2`, the first none
of `6`, the control character `0x16` and `$`, the second neither `A` nor `$`, then CR LF:
nothing is pushed and the receiver is left idle. -/
theorem altered_checksum_rejected (H : NMEAGPS_h) (g : NMEAGPS) (c1 c2 : Nat)
    (hbyte : c1 < 256)
    (h1 : c1 ≠ '6'.toNat ∧ c1 ≠ 0x16 ∧ c1 ≠ '$'.toNat)
    (h2 : c2 ≠ 'A'.toNat ∧ c2 ≠ '$'.toNat) :
    (feed H g ('$'.toNat :: rmcBody ++ ['*'.toNat, c1, c2, CR, LF])).2 = [] ∧
    (feed H g ('$'.toNat :: rmcBody ++ ['*'.toNat, c1, c2, CR, LF])).1.rxState = NMEA_IDLE := by
  simp only [Char.reduceToNat] at h1 h2 ⊢
  obtain ⟨b1, b2, _, b4, _⟩ := feed_rmc_body H g
  have t := feed_tail H (feed H g (36 :: rmcBody)).1 c1 c2 b2 h1.2.2 h2.2
  have hne : ¬ ((feed H g (36 :: rmcBody)).1.crc >>> 4 = parseHEX c1 ∧
      (feed H g (36 :: rmcBody)).1.crc &&& 0x0F = parseHEX c2) := by
    rw [b4]
    intro hc
    exact parseHEX_byte_ne_six c1 hbyte h1.1 h1.2.1 hc.1.symm
  rw [if_neg hne, rxEnd_false] at t
  have e : (36 :: rmcBody ++ [42, c1, c2, CR, LF]) = (36 :: rmcBody) ++ [42, c1, c2, CR, LF] := rfl
  rw [e, feed_append, b1, t]
  exact ⟨rfl, rfl⟩

/-- C5 (amended) at a sample input: the checksum bytes `0x07` and `200`, neither of them
printable. -/
theorem altered_checksum_rejected_witness :
    (7 : Nat) < 256 ∧ ((7 : Nat) ≠ '6'.toNat ∧ (7 : Nat) ≠ 0x16 ∧ (7 : Nat) ≠ '$'.toNat) ∧
    ((200 : Nat) ≠ 'A'.toNat ∧ (200 : Nat) ≠ '$'.toNat) ∧
    (feed sampleDecls idleParser
      ('$'.toNat :: rmcBody ++ ['*'.toNat, 7, 200, CR, LF])).2 = [] ∧
    (feed sampleDecls idleParser
      ('$'.toNat :: rmcBody ++ ['*'.toNat, 7, 200, CR, LF])).1.rxState = NMEA_IDLE :=
  ⟨by decide, by decide, by decide,
    altered_checksum_rejected sampleDecls idleParser 7 200 (by decide) (by decide) (by decide)⟩

set_option maxRecDepth 100000 in
/-- C5 (as stated) fails: `parseHEX` maps the control character `0x16` to 6 and `a` to
10, so these two altered characters are accepted and an RMC notification is pushed; after
the mismatch `7` a `$` restarts the receiver, whose next CR pushes a notification of
unknown type; and so does a `$` in the place of the first character, followed by `G`. -/
theorem altered_checksum_accepted :
    ((0x16 : Nat) ≠ '6'.toNat ∧ 'a'.toNat ≠ 'A'.toNat ∧
      (feed sampleDecls idleParser
        ('$'.toNat :: rmcBody ++ ['*'.toNat, 0x16, 'a'.toNat, CR, LF])).2 = [NMEA_RMC]) ∧
    ('7'.toNat ≠ '6'.toNat ∧ '$'.toNat ≠ 'A'.toNat ∧
      (feed sampleDecls idleParser
        ('$'.toNat :: rmcBody ++ ['*'.toNat, '7'.toNat, '$'.toNat, CR, LF])).2 = [NMEA_UNKNOWN]) ∧
    ('$'.toNat ≠ '6'.toNat ∧ 'G'.toNat ≠ 'A'.toNat ∧
      (feed sampleDecls idleParser
        ('$'.toNat :: rmcBody ++ ['*'.toNat, '$'.toNat, 'G'.toNat, CR, LF])).2 = [NMEA_UNKNOWN]) := by
  decide

/-- C6 (amended): an RMC, GLL or VTG sentence of fewer than 256 fields, each shorter than
256 characters, whose fix-status field (RMC 2, GLL 6, VTG 9) is the letter `V` and in
which no later field read by `parseFix` (RMC 10, GLL 7) starts with `A`, `D` or `E`,
pushes no notification, whatever its two checksum characters (other than `$`) are. -/
theorem no_fix_sentence_rejected (H : NMEAGPS_h) (g : NMEAGPS) (name : List Nat)
    (m : nmea_msg_t) (k : Nat) (fields : List (List Nat)) (h l : Nat)
    (hname : (name, m, k) ∈ statusFields)
    (hfields : ∀ f ∈ fields, isField f) (hcount : fields.length < 256)
    (hV : fields[k - 1]? = some ['V'.toNat])
    (hlater : ∀ p, p < fields.length → k < p + 1 → fixField m (p + 1) →
      ¬ startsWithFix (fields.getD p []))
    (hh : h ≠ '$'.toNat) (hl : l ≠ '$'.toNat) :
    (feed H g (sentence (name ++ commaFields fields) h l)).2 = [] := by
  simp only [Char.reduceToNat] at hV hh hl
  have hlater : ∀ p f, fields[p]? = some f → k < p + 1 → fixField m (p + 1) →
      ∀ c, f.head? = some c → c ≠ 65 ∧ c ≠ 68 ∧ c ≠ 69 := by
    intro p f hp hlt hf c hc
    obtain ⟨hp1, hp2⟩ := List.getElem?_eq_some.mp hp
    have := hlater p hp1 hlt hf
    rw [List.getD_eq_getElem _ _ hp1, hp2] at this
    unfold startsWithFix at this
    simp only [Char.reduceToNat, hc, Option.some.injEq, not_or] at this
    exact this
  have key : name ∈ [bytes "GPRMC", bytes "GPGLL", bytes "GPVTG"] ∧
      (∀ c ∈ name, isData c ∧ c ≠ 44) ∧ nameResult name = some m ∧ fixField m k ∧
      m ≠ NMEA_GGA ∧ 0 < k ∧
      (m = NMEA_RMC ∨ m = NMEA_GLL ∨ m = NMEA_VTG) := by
    unfold statusFields at hname
    simp only [List.mem_cons, List.mem_singleton, Prod.mk.injEq, List.not_mem_nil,
      or_false] at hname
    rcases hname with ⟨rfl, rfl, rfl⟩ | ⟨rfl, rfl, rfl⟩ | ⟨rfl, rfl, rfl⟩ <;> decide
  obtain ⟨_, hn, hres, hfix, hgga, hk0, hm3⟩ := key
  cases fields with
  | nil => simp at hV
  | cons f1 rest =>
    obtain ⟨hlen1, hf1⟩ := hfields f1 (List.mem_cons_self _ _)
    simp only [Char.reduceToNat] at hf1
    have hrest : ∀ f ∈ rest, isField f := fun f hf => hfields f (List.mem_cons_of_mem _ hf)
    simp only [List.length_cons] at hcount
    have e : sentence (name ++ commaFields (f1 :: rest)) h l =
        (36 :: (name ++ [44])) ++ (f1 ++ (commaFields rest ++ [42, h, l, CR, LF])) := by
      simp [sentence, commaFields, List.append_assoc]
    obtain ⟨a1, a2⟩ := feed_named H g name hn
    rw [hres] at a2
    simp only [] at a2
    obtain ⟨b1, b2, _, _, _⟩ := feed_field_chars H m 1 (by decide) f1 hf1 _ 0 a2 (by omega)
    have b4 := feed_field_status H m 1 (by decide) hgga f1 hf1 _ a2 hlen1
    obtain ⟨c1, ⟨j1, c2⟩, _, c4, _⟩ :=
      feed_fields H m hgga rest hrest _ 1 _ b2 (by decide) (by omega)
    have hnone : (feed H (feed H (feed H g (36 :: (name ++ [44]))).1 f1).1
        (commaFields rest)).1.m_fix.status = GPS_FIX_NONE := by
      rw [c4, b4]
      exact fieldsStatus_none m k hfix (f1 :: rest) 0 _ (fun hle => by omega)
        (fun _ => by simpa using hV)
        (fun p f hp hlt hf c hc => hlater p f hp (by omega) (by simpa using hf) c hc)
    have t := feed_tail_no_fix H _ h l c2.1 hh hl (by rw [c2.2.1]; exact hm3) hnone
    rw [e, feed_append_snd _ _ _ _ a1, feed_append_snd _ _ _ _ b1,
      feed_append_snd _ _ _ _ c1, t]

set_option maxRecDepth 100000 in
/-- C6 (amended) at a sample input: the example sentence with the status `V`. -/
theorem no_fix_sentence_rejected_witness :
    (bytes "GPRMC", NMEA_RMC, 2) ∈ statusFields ∧ (∀ f ∈ rmcFieldsV, isField f) ∧
    rmcFieldsV.length < 256 ∧ rmcFieldsV[2 - 1]? = some ['V'.toNat] ∧
    (∀ p, p < rmcFieldsV.length → 2 < p + 1 → fixField NMEA_RMC (p + 1) →
      ¬ startsWithFix (rmcFieldsV.getD p [])) ∧
    '7'.toNat ≠ '$'.toNat ∧ 'D'.toNat ≠ '$'.toNat ∧
    (feed sampleDecls idleParser
      (sentence (bytes "GPRMC" ++ commaFields rmcFieldsV) '7'.toNat 'D'.toNat)).2 = [] :=
  ⟨by decide, by decide, by decide, by decide, by decide, by decide, by decide,
    no_fix_sentence_rejected sampleDecls idleParser (bytes "GPRMC") NMEA_RMC 2 rmcFieldsV
      '7'.toNat 'D'.toNat (by decide) (by decide) (by decide) (by decide) (by decide)
      (by decide) (by decide)⟩

set_option maxRecDepth 100000 in
/-- C6 (as stated) fails: field 10 of RMC and field 7 of GLL are read by `parseFix` too, so
the letter `A` there replaces the status "no fix" of the field `V`, and the sentence,
whose checksum is correct, is announced. -/
theorem no_fix_sentence_accepted :
    ((bytes "GPRMC", NMEA_RMC, 2) ∈ statusFields ∧ (∀ f ∈ rmcFieldsVA, isField f) ∧
      rmcFieldsVA[2 - 1]? = some ['V'.toNat] ∧
      '6'.toNat = toHexDigit (checksum (bytes "GPRMC" ++ commaFields rmcFieldsVA) >>> 4) ∧
      'B'.toNat = toHexDigit (checksum (bytes "GPRMC" ++ commaFields rmcFieldsVA)) ∧
      (feed sampleDecls idleParser
        (sentence (bytes "GPRMC" ++ commaFields rmcFieldsVA) '6'.toNat 'B'.toNat)).2 =
        [NMEA_RMC]) ∧
    ((bytes "GPGLL", NMEA_GLL, 6) ∈ statusFields ∧ (∀ f ∈ gllFieldsVA, isField f) ∧
      gllFieldsVA[6 - 1]? = some ['V'.toNat] ∧
      '4'.toNat = toHexDigit (checksum (bytes "GPGLL" ++ commaFields gllFieldsVA) >>> 4) ∧
      'B'.toNat = toHexDigit (checksum (bytes "GPGLL" ++ commaFields gllFieldsVA)) ∧
      (feed sampleDecls idleParser
        (sentence (bytes "GPGLL" ++ commaFields gllFieldsVA) '4'.toNat 'B'.toNat)).2 =
        [NMEA_GLL]) := by
  decide

/-- C7: a `$` restarts the receiver from any state: `putchar` then yields
`NMEA_RECEIVING_DATA` with checksum 0, field index 0, character offset 0 and sentence type
unknown, leaves the fix record unchanged and pushes no notification. -/
theorem putchar_dollar_resets (H : NMEAGPS_h) (g : NMEAGPS) :
    (putchar H g '$'.toNat).1.rxState = NMEA_RECEIVING_DATA ∧
    (putchar H g '$'.toNat).1.crc = 0 ∧
    (putchar H g '$'.toNat).1.fieldIndex = 0 ∧
    (putchar H g '$'.toNat).1.chrCount = 0 ∧
    (putchar H g '$'.toNat).1.nmeaMessage = NMEA_UNKNOWN ∧
    (putchar H g '$'.toNat).1.m_fix = g.m_fix ∧
    (putchar H g '$'.toNat).2 = [] := by
  simp [putchar, rxBegin]

/-- C8: two parsers that hold the same fix record, whatever their receiver state, checksum,
sentence type, field index, offset and transient flags, behave alike from a `$` on: after
`$` and any bytes `w` they have pushed the same notifications and have the same fix
record, receiver state, checksum, sentence type, field index and offset.  The
latitude/longitude decoder, which `NMEAGPS.cpp` does not define, is the one of the spec,
`NMEAGPS.parseDDMM`, with any decoding of a character. -/
theorem premature_dollar_discards (decode : Nat → Int → Nat → Nat → Int × Nat)
    (is_valid : time_t → Bool)
    (status_satellites : gps_fix_status_t → Int → Int → gps_fix_status_t × Int)
    (g1 g2 : NMEAGPS) (hfix : g1.m_fix = g2.m_fix) (w : List Nat) :
    (feed (specDecls decode is_valid status_satellites) g1 ('$'.toNat :: w)).2 =
      (feed (specDecls decode is_valid status_satellites) g2 ('$'.toNat :: w)).2 ∧
    (feed (specDecls decode is_valid status_satellites) g1 ('$'.toNat :: w)).1.m_fix =
      (feed (specDecls decode is_valid status_satellites) g2 ('$'.toNat :: w)).1.m_fix ∧
    (feed (specDecls decode is_valid status_satellites) g1 ('$'.toNat :: w)).1.rxState =
      (feed (specDecls decode is_valid status_satellites) g2 ('$'.toNat :: w)).1.rxState ∧
    (feed (specDecls decode is_valid status_satellites) g1 ('$'.toNat :: w)).1.crc =
      (feed (specDecls decode is_valid status_satellites) g2 ('$'.toNat :: w)).1.crc ∧
    (feed (specDecls decode is_valid status_satellites) g1 ('$'.toNat :: w)).1.nmeaMessage =
      (feed (specDecls decode is_valid status_satellites) g2 ('$'.toNat :: w)).1.nmeaMessage ∧
    (feed (specDecls decode is_valid status_satellites) g1 ('$'.toNat :: w)).1.fieldIndex =
      (feed (specDecls decode is_valid status_satellites) g2 ('$'.toNat :: w)).1.fieldIndex ∧
    (feed (specDecls decode is_valid status_satellites) g1 ('$'.toNat :: w)).1.chrCount =
      (feed (specDecls decode is_valid status_satellites) g2 ('$'.toNat :: w)).1.chrCount := by
  simp only [Char.reduceToNat]
  rw [feed_dollar, feed_dollar]
  obtain ⟨s1, s2⟩ := specDecls_scoped decode is_valid status_satellites
  have h0 : agreeUpTo (fun p q => p.1 = q.1) (rxBegin g1) (rxBegin g2) := by
    refine ⟨g2.decimal, g2.negative, ?_, Or.inl rfl⟩
    obtain ⟨rx, crc, msg, fi, cc, dec, neg, fix⟩ := g1
    obtain ⟨rx2, crc2, msg2, fi2, cc2, dec2, neg2, fix2⟩ := g2
    simp only at hfix
    subst hfix
    rfl
  obtain ⟨q1, d, n, q2, _⟩ :=
    feed_agreeUpTo (specDecls decode is_valid status_satellites) (fun p q => p.1 = q.1)
      s1 s2 w _ _ h0
  rw [q1, q2]
  exact ⟨rfl, rfl, rfl, rfl, rfl, rfl, rfl⟩

/-- C8 at a sample input: an idle parser and one interrupted in a GGA sentence with other
transient flags, fed the example sentence. -/
theorem premature_dollar_discards_witness :
    idleParser.m_fix = strayParser.m_fix ∧
    idleParser.decimal ≠ strayParser.decimal ∧ idleParser.negative ≠ strayParser.negative ∧
    ((feed (specDecls sampleDecode sampleDecls.is_valid sampleDecls.status_satellites)
        idleParser ('$'.toNat :: rmcSentence)).2 =
      (feed (specDecls sampleDecode sampleDecls.is_valid sampleDecls.status_satellites)
        strayParser ('$'.toNat :: rmcSentence)).2 ∧
    (feed (specDecls sampleDecode sampleDecls.is_valid sampleDecls.status_satellites)
        idleParser ('$'.toNat :: rmcSentence)).1.m_fix =
      (feed (specDecls sampleDecode sampleDecls.is_valid sampleDecls.status_satellites)
        strayParser ('$'.toNat :: rmcSentence)).1.m_fix ∧
    (feed (specDecls sampleDecode sampleDecls.is_valid sampleDecls.status_satellites)
        idleParser ('$'.toNat :: rmcSentence)).1.rxState =
      (feed (specDecls sampleDecode sampleDecls.is_valid sampleDecls.status_satellites)
        strayParser ('$'.toNat :: rmcSentence)).1.rxState ∧
    (feed (specDecls sampleDecode sampleDecls.is_valid sampleDecls.status_satellites)
        idleParser ('$'.toNat :: rmcSentence)).1.crc =
      (feed (specDecls sampleDecode sampleDecls.is_valid sampleDecls.status_satellites)
        strayParser ('$'.toNat :: rmcSentence)).1.crc ∧
    (feed (specDecls sampleDecode sampleDecls.is_valid sampleDecls.status_satellites)
        idleParser ('$'.toNat :: rmcSentence)).1.nmeaMessage =
      (feed (specDecls sampleDecode sampleDecls.is_valid sampleDecls.status_satellites)
        strayParser ('$'.toNat :: rmcSentence)).1.nmeaMessage ∧
    (feed (specDecls sampleDecode sampleDecls.is_valid sampleDecls.status_satellites)
        idleParser ('$'.toNat :: rmcSentence)).1.fieldIndex =
      (feed (specDecls sampleDecode sampleDecls.is_valid sampleDecls.status_satellites)
        strayParser ('$'.toNat :: rmcSentence)).1.fieldIndex ∧
    (feed (specDecls sampleDecode sampleDecls.is_valid sampleDecls.status_satellites)
        idleParser ('$'.toNat :: rmcSentence)).1.chrCount =
      (feed (specDecls sampleDecode sampleDecls.is_valid sampleDecls.status_satellites)
        strayParser ('$'.toNat :: rmcSentence)).1.chrCount) :=
  ⟨rfl, by decide, by decide,
    premature_dollar_discards sampleDecode sampleDecls.is_valid sampleDecls.status_satellites
      idleParser strayParser rfl rmcSentence⟩

/-- C9: after `$`, a name of data characters without a comma, and a comma, the receiver is
in `NMEA_RECEIVING_DATA` exactly when the name is one of GPRMC, GPGGA, GPGLL, GPVTG, GPZDA,
GPGSA, GPGSV; then the sentence type is the matching one, the field index is 1 and the
offset is 0; for every other name the receiver is in `NMEA_IDLE`. -/
theorem sentence_name_recognised (H : NMEAGPS_h) (g : NMEAGPS) (n : List Nat)
    (hn : ∀ c ∈ n, isData c ∧ c ≠ ','.toNat) :
    ((feed H g ('$'.toNat :: (n ++ [','.toNat]))).1.rxState = NMEA_RECEIVING_DATA ↔
      ∃ m, (n, m) ∈ sentenceNames) ∧
    (∀ m, (n, m) ∈ sentenceNames →
      (feed H g ('$'.toNat :: (n ++ [','.toNat]))).1.rxState = NMEA_RECEIVING_DATA ∧
      (feed H g ('$'.toNat :: (n ++ [','.toNat]))).1.nmeaMessage = m ∧
      (feed H g ('$'.toNat :: (n ++ [','.toNat]))).1.fieldIndex = 1 ∧
      (feed H g ('$'.toNat :: (n ++ [','.toNat]))).1.chrCount = 0) ∧
    ((¬ ∃ m, (n, m) ∈ sentenceNames) →
      (feed H g ('$'.toNat :: (n ++ [','.toNat]))).1.rxState = NMEA_IDLE) := by
  simp only [Char.reduceToNat] at hn ⊢
  have hn1 : ∀ c ∈ n, c ≠ 44 := fun c hc => (hn c hc).2
  obtain ⟨_, q⟩ := feed_named H g n hn
  cases hr : nameResult n with
  | none =>
    rw [hr] at q
    simp only [] at q
    have hno : ∀ m, (n, m) ∉ sentenceNames := fun m hm => by
      have := (nameResult_iff n hn1 m).mpr hm
      rw [hr] at this
      exact absurd this (by simp)
    refine ⟨⟨fun h => ?_, fun ⟨m, hm⟩ => absurd hm (hno m)⟩, fun m hm => absurd hm (hno m),
      fun _ => q⟩
    rw [q] at h
    exact absurd h (by decide)
  | some m1 =>
    rw [hr] at q
    simp only [] at q
    have hyes := (nameResult_iff n hn1 m1).mp hr
    refine ⟨⟨fun _ => ⟨m1, hyes⟩, fun _ => q.1⟩, fun m hm => ?_, fun h => absurd ⟨m1, hyes⟩ h⟩
    have := (nameResult_iff n hn1 m).mpr hm
    rw [hr] at this
    obtain rfl : m1 = m := by simpa using this
    exact q

/-- C9 at a sample input: the name GPRMC. -/
theorem sentence_name_recognised_witness :
    (∀ c ∈ bytes "GPRMC", isData c ∧ c ≠ ','.toNat) ∧
    (feed sampleDecls idleParser ('$'.toNat :: (bytes "GPRMC" ++ [','.toNat]))).1.rxState =
      NMEA_RECEIVING_DATA ∧
    (feed sampleDecls idleParser ('$'.toNat :: (bytes "GPRMC" ++ [','.toNat]))).1.nmeaMessage =
      NMEA_RMC ∧
    (feed sampleDecls idleParser ('$'.toNat :: (bytes "GPRMC" ++ [','.toNat]))).1.fieldIndex = 1 ∧
    (feed sampleDecls idleParser ('$'.toNat :: (bytes "GPRMC" ++ [','.toNat]))).1.chrCount = 0 :=
  ⟨by decide,
    (sentence_name_recognised sampleDecls idleParser (bytes "GPRMC") (by decide)).2.1
      NMEA_RMC (by decide)⟩

/-- C10: `rxEnd( ok )` always idles the receiver; with `ok = false` nothing else changes
and nothing is pushed; with `ok = true` an RMC, GGA, GLL or VTG sentence changes nothing
and pushes nothing when the fix status is "no fix", and otherwise sets exactly the flags
of its type and pushes one notification of that type; a ZDA sentence sets the dateTime
flag and pushes a ZDA notification exactly when the accumulated date/time is valid, and
otherwise changes nothing; the other types are pushed as they are. -/
theorem rxEnd_completion (H : NMEAGPS_h) (g : NMEAGPS) :
    (∀ ok, (rxEnd H g ok).1.rxState = NMEA_IDLE) ∧
    rxEnd H g false = ({ g with rxState := NMEA_IDLE }, []) ∧
    rxEnd H g true =
      match g.nmeaMessage with
      | NMEA_RMC | NMEA_GGA | NMEA_GLL | NMEA_VTG =>
        if g.m_fix.status = GPS_FIX_NONE then ({ g with rxState := NMEA_IDLE }, [])
        else
          ({ g with
              rxState := NMEA_IDLE
              m_fix := { g.m_fix with valid := flagsSetBy g.nmeaMessage g.m_fix.valid } },
            [g.nmeaMessage])
      | NMEA_ZDA =>
        if H.is_valid g.m_fix.dateTime = true then
          ({ g with
              rxState := NMEA_IDLE
              m_fix := { g.m_fix with valid := { g.m_fix.valid with dateTime := true } } },
            [NMEA_ZDA])
        else ({ g with rxState := NMEA_IDLE }, [])
      | NMEA_GSA | NMEA_GSV | NMEA_UNKNOWN => ({ g with rxState := NMEA_IDLE }, [g.nmeaMessage]) := by
  exact ⟨fun ok => rxEnd_rxState H g ok, rxEnd_false H g, rxEnd_true H g⟩

/-- C11: for every parser state, fix record and input byte `c`: if some validity flag
(location, dateTime, speed, heading, altitude) is clear before `putchar(c)` and set after
it, that call of `putchar` pushed a completion notification; and a call that pushes
nothing leaves every validity flag as it was, or clear. -/
theorem flags_set_only_at_completion (H : NMEAGPS_h) (g : NMEAGPS) (c : Nat) :
    ((∃ f ∈ validFlags, f g.m_fix.valid = false ∧ f (putchar H g c).1.m_fix.valid = true) →
      (putchar H g c).2 ≠ []) ∧
    ((putchar H g c).2 = [] →
      ∀ f ∈ validFlags, f (putchar H g c).1.m_fix.valid = f g.m_fix.valid ∨
        f (putchar H g c).1.m_fix.valid = false) := by
  have key : (putchar H g c).2 = [] →
      ∀ f ∈ validFlags, f (putchar H g c).1.m_fix.valid = f g.m_fix.valid ∨
        f (putchar H g c).1.m_fix.valid = false := by
    intro h f hf
    rcases putchar_valid H g c h with e | e
    · exact Or.inl (by rw [e])
    · right
      rw [e]
      have all : ∀ f ∈ validFlags, f valid_t.clear = false := by decide
      exact all f hf
  refine ⟨?_, key⟩
  rintro ⟨f, hf, h1, h2⟩ hnil
  rcases key hnil f hf with e | e
  · rw [e, h1] at h2
    exact Bool.noConfusion h2
  · rw [e] at h2
    exact Bool.noConfusion h2

/-- C11 at sample inputs: the comma after the name `GPGGA` pushes nothing and clears the
flags that the RMC sentence before it had set; the line end of an RMC sentence sets flags
and pushes a notification. -/
theorem flags_set_only_at_completion_witness :
    (putchar sampleDecls
      { (rxEnd sampleDecls rmcParser true).1 with
        rxState := NMEA_RECEIVING_DATA, nmeaMessage := NMEA_GGA, fieldIndex := 0,
        chrCount := 5 } ','.toNat).2 = [] ∧
    (∀ f ∈ validFlags,
      f (putchar sampleDecls
          { (rxEnd sampleDecls rmcParser true).1 with
            rxState := NMEA_RECEIVING_DATA, nmeaMessage := NMEA_GGA, fieldIndex := 0,
            chrCount := 5 } ','.toNat).1.m_fix.valid = false) ∧
    (∃ f ∈ validFlags, f rmcParser.m_fix.valid = false ∧
      f (putchar sampleDecls rmcParser CR).1.m_fix.valid = true) ∧
    (putchar sampleDecls rmcParser CR).2 ≠ [] :=
  ⟨by decide, by decide, ⟨valid_t.location, by simp [validFlags], by decide, by decide⟩,
    (flags_set_only_at_completion sampleDecls rmcParser CR).1
      ⟨valid_t.location, by simp [validFlags], by decide, by decide⟩⟩

set_option maxRecDepth 100000 in
/-- C12, at the inputs where the code departs from it: the names `GP` and `GPR` are not
among the seven recognised names, and ended by a comma they are dropped (`$GP,` and
`$GPR,` with a line end push nothing); but ended by the line end, or by `*` and the
matching checksum, they are completed: `$GP` CR LF and `$GP*17` CR LF push a notification
of unknown type, and `$GPR` CR LF pushes an RMC notification and sets the RMC validity
flags when the fix record holds a fix. -/
theorem truncated_name_notified :
    (∀ p ∈ sentenceNames, bytes "GP" ≠ p.1) ∧
    (∀ p ∈ sentenceNames, bytes "GPR" ≠ p.1) ∧
    (feed sampleDecls idleParser (bytes "$GP,\r\n")).2 = [] ∧
    (feed sampleDecls rmcParser (bytes "$GPR,\r\n")).2 = [] ∧
    (feed sampleDecls idleParser (bytes "$GP\r\n")).2 = [NMEA_UNKNOWN] ∧
    (feed sampleDecls idleParser (bytes "$GP*17\r\n")).2 = [NMEA_UNKNOWN] ∧
    (feed sampleDecls rmcParser (bytes "$GPR\r\n")).2 = [NMEA_RMC] ∧
    rmcParser.m_fix.valid = valid_t.clear ∧
    (feed sampleDecls rmcParser (bytes "$GPR\r\n")).1.m_fix.valid =
      ⟨true, true, true, true, false⟩ := by
  decide

/-- C13 (amended): for a maximum of 2 or 3 fractional digits, an optional sign `-`, digit
strings `W` and `F` with `F` no longer than the maximum, and a field `s W . F ,` of at
most 256 characters: its characters given to `parseFloat` at the offsets 0, 1, 2, ...
leave `whole = value(W)` and `frac = value(F) * 10^(max - length(F))`, both negated under
the sign; without `. F` they leave `frac = 0`.  With a maximum of 2, `123.45,` gives 123
and 45, `123.4,` gives 123 and 40, and `-5.0,` gives -5 and 0.  The accumulators are
unbounded integers. -/
theorem parseFloat_decodes (g : NMEAGPS) (val : whole_frac) (m : Nat) (neg : Bool)
    (W F : List Nat) (hm : m = 2 ∨ m = 3) (hW : ∀ c ∈ W, isDigit c)
    (hF : ∀ c ∈ F, isDigit c) (hlen : F.length ≤ m)
    (hfield : (signChars neg ++ (W ++ ('.'.toNat :: (F ++ [','.toNat])))).length ≤ 256) :
    (floatRun m g val 0 (signChars neg ++ (W ++ ('.'.toNat :: (F ++ [','.toNat]))))).2 =
      signedValue neg (digitsValue W) (digitsValue F * 10 ^ (m - F.length)) ∧
    (floatRun m g val 0 (signChars neg ++ (W ++ [','.toNat]))).2 =
      signedValue neg (digitsValue W) 0 ∧
    (floatRun 2 g val 0 (bytes "123.45,")).2 = ⟨123, 45⟩ ∧
    (floatRun 2 g val 0 (bytes "123.4,")).2 = ⟨123, 40⟩ ∧
    (floatRun 2 g val 0 (bytes "-5.0,")).2 = ⟨-5, 0⟩ := by
  have hm255 : m < 255 := by omega
  have hoff : (signChars neg).length + W.length + F.length + 2 ≤ 256 := by
    simp only [List.length_append, List.length_cons, List.length_nil] at hfield
    omega
  refine ⟨floatRun_number m hm255 g val neg W F hW hF hlen hoff,
    floatRun_integer m hm255 g val neg W hW (by omega), ?_, ?_, ?_⟩
  · exact floatRun_number 2 (by decide) g val false (bytes "123") (bytes "45") (by decide)
      (by decide) (by decide) (by decide)
  · exact floatRun_number 2 (by decide) g val false (bytes "123") (bytes "4") (by decide)
      (by decide) (by decide) (by decide)
  · exact floatRun_number 2 (by decide) g val true (bytes "5") (bytes "0") (by decide)
      (by decide) (by decide) (by decide)

/-- C13 (amended) at a sample input: `-12.5,` with at most 3 fractional digits gives -12
and -500. -/
theorem parseFloat_decodes_witness :
    ((3 = 2 ∨ 3 = 3) ∧ (∀ c ∈ bytes "12", isDigit c) ∧ (∀ c ∈ bytes "5", isDigit c) ∧
      (bytes "5").length ≤ 3 ∧
      (signChars true ++ (bytes "12" ++ ('.'.toNat :: (bytes "5" ++ [','.toNat])))).length
        ≤ 256) ∧
    (floatRun 3 strayParser ⟨7, 7⟩ 0 (bytes "-12.5,")).2 = ⟨-12, -500⟩ :=
  ⟨by decide,
    (parseFloat_decodes strayParser ⟨7, 7⟩ 3 true (bytes "12") (bytes "5") (by decide)
      (by decide) (by decide) (by decide) (by decide)).1⟩

set_option maxRecDepth 1000000 in
/-- C13 (as stated) fails: the digit string of 255 zeros and `5` has the value 5, but after
the sign `-` its last digit stands at offset 256, which the byte `chrCount` holds as 0:
`parseFloat` starts afresh there, forgets the sign, and leaves `whole = 5` instead of -5.
The receiver does so on the heading field of the sentence `$GPVTG,-00...05,`.  With one
zero less it is the comma that stands at offset 256, and `whole` is left 0. -/
theorem parseFloat_long_field :
    (∀ c ∈ List.replicate 255 '0'.toNat ++ ['5'.toNat], isDigit c) ∧
    digitsValue (List.replicate 255 '0'.toNat ++ ['5'.toNat]) = 5 ∧
    (floatRun 2 idleParser ⟨0, 0⟩ 0
      (signChars true ++ (List.replicate 255 '0'.toNat ++ ['5'.toNat] ++ [','.toNat]))).2 =
      ⟨5, 0⟩ ∧
    (floatRun 2 idleParser ⟨0, 0⟩ 0
      (signChars true ++ (List.replicate 255 '0'.toNat ++ ['5'.toNat] ++ [','.toNat]))).2 ≠
      signedValue true (digitsValue (List.replicate 255 '0'.toNat ++ ['5'.toNat])) 0 ∧
    (feed sampleDecls idleParser
      (bytes "$GPVTG," ++ (signChars true ++
        (List.replicate 255 '0'.toNat ++ ['5'.toNat] ++ [','.toNat])))).1.m_fix.hdg =
      ⟨5, 0⟩ ∧
    (signChars true ++
      (List.replicate 254 '0'.toNat ++ ['5'.toNat] ++ [','.toNat])).length = 257 ∧
    (floatRun 2 idleParser ⟨0, 0⟩ 0
      (signChars true ++ (List.replicate 254 '0'.toNat ++ ['5'.toNat] ++ [','.toNat]))).2 =
      ⟨0, 0⟩ := by
  decide

/-- C15: for every checksum byte `c`, reading back the two digits that `send_trailer`
writes recovers `c`: `parseHEX(toHexDigit(c >> 4)) = c >> 4` and
`parseHEX(toHexDigit(c)) = c & 0x0F`; so a receiver that waits for the first checksum
digit with the running checksum `c` completes the sentence with `rxEnd( true )` on these
two digits. -/
theorem checksum_text_round_trip (c : Nat) (hc : c < 256) :
    parseHEX (toHexDigit (c >>> 4)) = c >>> 4 ∧
    parseHEX (toHexDigit c) = c &&& 0x0F ∧
    send_trailer c = ['*'.toNat, toHexDigit (c >>> 4), toHexDigit c, CR, LF] ∧
    (∀ (H : NMEAGPS_h) (g : NMEAGPS), g.rxState = NMEA_RECEIVING_CRC1 → g.crc = c →
      feed H g [toHexDigit (c >>> 4), toHexDigit c] = rxEnd H g true) := by
  have e1 : parseHEX (toHexDigit (c >>> 4)) = c >>> 4 := by
    rw [parseHEX_toHexDigit, shiftRight_four_low c hc]
  have e2 := parseHEX_toHexDigit c
  refine ⟨e1, e2, rfl, ?_⟩
  intro H g hs hk
  subst hk
  have d1 := isHexDigit_ne_dollar _ (isHexDigit_toHexDigit (g.crc >>> 4))
  have d2 := isHexDigit_ne_dollar _ (isHexDigit_toHexDigit g.crc)
  rw [feed_cons, putchar_crc1 H g _ hs d1, if_neg (not_not.mpr e1.symm)]
  simp only [feed_cons, feed_nil, List.nil_append, List.append_nil]
  rw [putchar_crc2 H _ _ rfl d2, if_neg (not_not.mpr e2.symm), rxEnd_set_rxState]

/-- C15 at the checksum of the GGA poll request body `EIGPQ,GGA`, which is `0x27`. -/
theorem checksum_text_round_trip_witness :
    checksum (bytes "EIGPQ,GGA") < 256 ∧ checksum (bytes "EIGPQ,GGA") = 0x27 ∧
    (parseHEX (toHexDigit (checksum (bytes "EIGPQ,GGA") >>> 4)) =
        checksum (bytes "EIGPQ,GGA") >>> 4 ∧
      parseHEX (toHexDigit (checksum (bytes "EIGPQ,GGA"))) =
        checksum (bytes "EIGPQ,GGA") &&& 0x0F ∧
      send_trailer (checksum (bytes "EIGPQ,GGA")) =
        ['*'.toNat, toHexDigit (checksum (bytes "EIGPQ,GGA") >>> 4),
          toHexDigit (checksum (bytes "EIGPQ,GGA")), CR, LF] ∧
      (∀ (H : NMEAGPS_h) (g : NMEAGPS), g.rxState = NMEA_RECEIVING_CRC1 →
        g.crc = checksum (bytes "EIGPQ,GGA") →
        feed H g [toHexDigit (checksum (bytes "EIGPQ,GGA") >>> 4),
          toHexDigit (checksum (bytes "EIGPQ,GGA"))] = rxEnd H g true)) :=
  ⟨by decide, by decide, checksum_text_round_trip (checksum (bytes "EIGPQ,GGA")) (by decide)⟩

/-- C16: for decimal digits `h1 h2 m1 m2 s1 s2 c1 c2`, the ten characters
`h1 h2 m1 m2 s1 s2 . c1 c2 ,` given to `parseTimeField` at the offsets 0 .. 9 all return
success and leave hours `10*h1+h2`, minutes `10*m1+m2`, seconds `10*s1+s2` and
centiseconds `10*c1+c2` (`123519.00,` gives 12, 35, 19 and 0); and at offset 6 every
character other than `.` returns failure and changes nothing. -/
theorem time_decode (g : NMEAGPS) (h1 h2 m1 m2 s1 s2 c1 c2 : Nat)
    (_hd : h1 ≤ 9 ∧ h2 ≤ 9 ∧ m1 ≤ 9 ∧ m2 ≤ 9 ∧ s1 ≤ 9 ∧ s2 ≤ 9 ∧ c1 ≤ 9 ∧ c2 ≤ 9) :
    (timeRun g 0 [digitChar h1, digitChar h2, digitChar m1, digitChar m2, digitChar s1,
      digitChar s2, '.'.toNat, digitChar c1, digitChar c2, ','.toNat]).2 =
      List.replicate 10 true ∧
    (timeRun g 0 [digitChar h1, digitChar h2, digitChar m1, digitChar m2, digitChar s1,
      digitChar s2, '.'.toNat, digitChar c1, digitChar c2, ','.toNat]).1.m_fix.dateTime.hours =
      10 * h1 + h2 ∧
    (timeRun g 0 [digitChar h1, digitChar h2, digitChar m1, digitChar m2, digitChar s1,
      digitChar s2, '.'.toNat, digitChar c1, digitChar c2, ','.toNat]).1.m_fix.dateTime.minutes =
      10 * m1 + m2 ∧
    (timeRun g 0 [digitChar h1, digitChar h2, digitChar m1, digitChar m2, digitChar s1,
      digitChar s2, '.'.toNat, digitChar c1, digitChar c2, ','.toNat]).1.m_fix.dateTime.seconds =
      10 * s1 + s2 ∧
    (timeRun g 0 [digitChar h1, digitChar h2, digitChar m1, digitChar m2, digitChar s1,
      digitChar s2, '.'.toNat, digitChar c1, digitChar c2, ','.toNat]).1.m_fix.dateTime_cs =
      10 * c1 + c2 ∧
    (timeRun g 0 (bytes "123519.00,")).1.m_fix.dateTime.hours = 12 ∧
    (timeRun g 0 (bytes "123519.00,")).1.m_fix.dateTime.minutes = 35 ∧
    (timeRun g 0 (bytes "123519.00,")).1.m_fix.dateTime.seconds = 19 ∧
    (timeRun g 0 (bytes "123519.00,")).1.m_fix.dateTime_cs = 0 ∧
    (∀ (g1 : NMEAGPS) (c : Nat), g1.chrCount = 6 → c ≠ '.'.toNat →
      parseTimeField g1 c = (g1, false)) := by
  refine ⟨?_, ?_, ?_, ?_, ?_, rfl, rfl, rfl, rfl, ?_⟩
  · simp [timeRun, parseTimeField]
  · simp [timeRun, parseTimeField, digitChar]; ring
  · simp [timeRun, parseTimeField, digitChar]; ring
  · simp [timeRun, parseTimeField, digitChar]; ring
  · simp [timeRun, parseTimeField, digitChar]; ring
  · intro g1 c h6 hc
    simp only [Char.reduceToNat] at hc
    simp [parseTimeField, h6, hc]

/-- C16 at a sample input: the time `235958.75,`. -/
theorem time_decode_witness :
    ((2 : Nat) ≤ 9 ∧ 3 ≤ 9 ∧ 5 ≤ 9 ∧ 9 ≤ 9 ∧ 5 ≤ 9 ∧ 8 ≤ 9 ∧ 7 ≤ 9 ∧ 5 ≤ 9) ∧
    [digitChar 2, digitChar 3, digitChar 5, digitChar 9, digitChar 5, digitChar 8, '.'.toNat,
      digitChar 7, digitChar 5, ','.toNat] = bytes "235958.75," ∧
    (timeRun strayParser 0 (bytes "235958.75,")).2 = List.replicate 10 true ∧
    (timeRun strayParser 0 (bytes "235958.75,")).1.m_fix.dateTime.hours = 23 ∧
    (timeRun strayParser 0 (bytes "235958.75,")).1.m_fix.dateTime.minutes = 59 ∧
    (timeRun strayParser 0 (bytes "235958.75,")).1.m_fix.dateTime.seconds = 58 ∧
    (timeRun strayParser 0 (bytes "235958.75,")).1.m_fix.dateTime_cs = 75 :=
  ⟨by decide, by decide,
    (time_decode strayParser 2 3 5 9 5 8 7 5 (by decide)).1,
    (time_decode strayParser 2 3 5 9 5 8 7 5 (by decide)).2.1,
    (time_decode strayParser 2 3 5 9 5 8 7 5 (by decide)).2.2.1,
    (time_decode strayParser 2 3 5 9 5 8 7 5 (by decide)).2.2.2.1,
    (time_decode strayParser 2 3 5 9 5 8 7 5 (by decide)).2.2.2.2.1⟩

set_option maxRecDepth 100000 in
/-- C18, at an input where the code departs from it: in `NMEA_RECEIVING_DATA` with
sentence type RMC, field index 9 and offset 6, the printable character `X` makes
`parseField` return failure, but `putchar` drops that value: the receiver is not idle
afterwards, it goes on receiving at offset 7, and the sentence is completed at its line
end.  So the example sentence with the date `230394X` pushes an RMC notification and
sets the dateTime flag.  A wrong character in the sentence name, which `parseCommand`
answers by writing `rxState` itself, does idle the receiver. -/
theorem rmc_date_check_not_idle :
    (rmcDateParser.rxState = NMEA_RECEIVING_DATA ∧ rmcDateParser.nmeaMessage = NMEA_RMC ∧
      rmcDateParser.fieldIndex = 9 ∧ rmcDateParser.chrCount = 6) ∧
    (' '.toNat ≤ 'X'.toNat ∧ 'X'.toNat ≤ '~'.toNat ∧ 'X'.toNat ≠ ','.toNat ∧
      'X'.toNat ≠ '$'.toNat ∧ 'X'.toNat ≠ '*'.toNat) ∧
    (parseField sampleDecls rmcDateParser 'X'.toNat).2 = false ∧
    (putchar sampleDecls rmcDateParser 'X'.toNat).1.rxState = NMEA_RECEIVING_DATA ∧
    (putchar sampleDecls rmcDateParser 'X'.toNat).1.chrCount = 7 ∧
    (feed sampleDecls rmcDateParser (bytes "X\r\n")).2 = [NMEA_RMC] ∧
    (feed sampleDecls idleParser
      (bytes "$GPRMC,123519,A,4807.038,N,01131.000,E,022.4,084.4,230394X,003.1,W\r\n")).2 =
      [NMEA_RMC] ∧
    (feed sampleDecls idleParser
      (bytes "$GPRMC,123519,A,4807.038,N,01131.000,E,022.4,084.4,230394X,003.1,W\r\n")
      ).1.m_fix.valid.dateTime = true ∧
    (putchar sampleDecls (nameProbe 2 NMEA_UNKNOWN) 'X'.toNat).1.rxState = NMEA_IDLE := by
  decide

/-- C19: for every parser state, fix record and each of the seven names `GPRMC`, `GPGGA`,
`GPGLL`, `GPVTG`, `GPZDA`, `GPGSA`, `GPGSV`: after `$`, the name and `,` all validity
flags are clear, every other member of the fix record is unchanged, the receiver is in
`NMEA_RECEIVING_DATA` at the start of field 1 with the type of the name, and nothing was
pushed. -/
theorem name_comma_clears_flags (H : NMEAGPS_h) (g : NMEAGPS) (n : List Nat)
    (m : nmea_msg_t) (hn : (n, m) ∈ sentenceNames) :
    (feed H g ('$'.toNat :: (n ++ [','.toNat]))).2 = [] ∧
    (feed H g ('$'.toNat :: (n ++ [','.toNat]))).1.rxState = NMEA_RECEIVING_DATA ∧
    (feed H g ('$'.toNat :: (n ++ [','.toNat]))).1.nmeaMessage = m ∧
    (feed H g ('$'.toNat :: (n ++ [','.toNat]))).1.fieldIndex = 1 ∧
    (feed H g ('$'.toNat :: (n ++ [','.toNat]))).1.chrCount = 0 ∧
    (feed H g ('$'.toNat :: (n ++ [','.toNat]))).1.m_fix =
      { g.m_fix with valid := valid_t.clear } ∧
    (∀ f ∈ validFlags, f (feed H g ('$'.toNat :: (n ++ [','.toNat]))).1.m_fix.valid = false) := by
  have key : feed H g ('$'.toNat :: (n ++ [','.toNat])) =
      ({ g with
          rxState := NMEA_RECEIVING_DATA
          crc := checksum (n ++ [44])
          nmeaMessage := m
          fieldIndex := 1
          chrCount := 0
          m_fix := { g.m_fix with valid := valid_t.clear } }, []) := by
    rw [sentenceNames_eq] at hn
    simp only [List.mem_cons, List.mem_singleton, Prod.mk.injEq, List.not_mem_nil,
      or_false] at hn
    rcases hn with h | h | h | h | h | h | h <;> obtain ⟨rfl, rfl⟩ := h <;>
      simp [feed, putchar, parseField, parseCommand, rxBegin, checksum, xorFrom,
        valid_t.clear, CR, LF]
  rw [key]
  refine ⟨rfl, rfl, rfl, rfl, rfl, rfl, ?_⟩
  show ∀ f ∈ validFlags, f valid_t.clear = false
  decide

/-- C19 at a sample input: `$GPGGA,` given to a parser that has just completed an RMC
sentence, so that flags are set. -/
theorem name_comma_clears_flags_witness :
    (bytes "GPGGA", NMEA_GGA) ∈ sentenceNames ∧
    (rxEnd sampleDecls rmcParser true).1.m_fix.valid.location = true ∧
    (feed sampleDecls (rxEnd sampleDecls rmcParser true).1
      ('$'.toNat :: (bytes "GPGGA" ++ [','.toNat]))).1.m_fix =
      { (rxEnd sampleDecls rmcParser true).1.m_fix with valid := valid_t.clear } ∧
    (feed sampleDecls (rxEnd sampleDecls rmcParser true).1
      ('$'.toNat :: (bytes "GPGGA" ++ [','.toNat]))).1.rxState = NMEA_RECEIVING_DATA :=
  ⟨by decide, by decide,
    (name_comma_clears_flags sampleDecls (rxEnd sampleDecls rmcParser true).1
      (bytes "GPGGA") NMEA_GGA (by decide)).2.2.2.2.2.1,
    (name_comma_clears_flags sampleDecls (rxEnd sampleDecls rmcParser true).1
      (bytes "GPGGA") NMEA_GGA (by decide)).2.1⟩

/-- C20: for every parser state and every byte sequence `w` without `$`, feeding `$` and
`w` pushes at most one notification; and once the receiver is idle after a part `u` of
`w`, the remaining bytes `v` push nothing and leave the parser and the fix record as they
are. -/
theorem one_notification_per_sentence (H : NMEAGPS_h) (g : NMEAGPS) (w : List Nat)
    (hw : ∀ c ∈ w, c ≠ '$'.toNat) :
    (feed H g ('$'.toNat :: w)).2.length ≤ 1 ∧
    (∀ u v, w = u ++ v → (feed H g ('$'.toNat :: u)).1.rxState = NMEA_IDLE →
      feed H (feed H g ('$'.toNat :: u)).1 v = ((feed H g ('$'.toNat :: u)).1, []) ∧
      (feed H g ('$'.toNat :: w)).1 = (feed H g ('$'.toNat :: u)).1 ∧
      (feed H g ('$'.toNat :: w)).2 = (feed H g ('$'.toNat :: u)).2) := by
  simp only [Char.reduceToNat] at hw ⊢
  constructor
  · rw [feed_dollar]
    exact feed_notes H w hw _
  · intro u v e hidle
    have hv : ∀ c ∈ v, c ≠ 36 := fun c hc => hw c (by rw [e]; simp [hc])
    have hi := feed_idle H _ v hidle hv
    refine ⟨hi, ?_, ?_⟩
    · rw [e, ← List.cons_append, feed_append_fst, hi]
    · rw [e, ← List.cons_append, feed_append, hi]
      simp

/-- C20 at a sample input: the example sentence followed by stray bytes. -/
theorem one_notification_per_sentence_witness :
    (∀ c ∈ rmcBody ++ bytes "*6A\r\nGPGGA,1\r\n", c ≠ '$'.toNat) ∧
    (feed sampleDecls idleParser ('$'.toNat :: (rmcBody ++ bytes "*6A\r\nGPGGA,1\r\n"))).2.length
      ≤ 1 :=
  ⟨by decide,
    (one_notification_per_sentence sampleDecls idleParser (rmcBody ++ bytes "*6A\r\nGPGGA,1\r\n")
      (by decide)).1⟩

end CosaGPS
